import Mathlib

/-!
SharedCart settlement engine.

Shallow embedding of `internal/services/settlement_service.go` of the
sharedcart backend: the per-bill split (`calculateBillOwes`), the balance
aggregation of `CalculateSettlement` and the greedy matching of
`optimizeTransactions`, then of the methods of that file, of
`internal/services/bill_service.go` and of the member management of
`internal/services/group_service.go` that read and write the database, over
an explicit store, and of `ValidatePassword` of `pkg/utils/password.go`,
followed by the properties established about them.

Conventions of the embedding:

* `decimal.Decimal` values are represented by the rational number they denote.
  `Add`, `Sub`, `Mul`, `Abs` and the comparisons of the library are exact and
  depend only on that number; `Div` rounds to `DivisionPrecision = 16`
  fractional digits and is embedded as `Decimal.Div`.
* `uint` identifiers are natural numbers; they are only ever compared.
* A Go map is an association list with each key at most once (`GoMap`).
  The order in which `range` visits a map is unspecified in Go; wherever
  that order can be observed it is an explicit argument.
* The database is a record of tables (`Store`); a service method takes the
  store and the store calls that fail, and returns the store after the call
  with its result.
-/

namespace SharedCart

/-! ## Decimal arithmetic -/

/-- Values of `decimal.Decimal`, identified with the rational they denote. The
type comes from the library `github.com/shopspring/decimal`, which is not
part of the repository; its methods are embedded by their documented
behaviour. -/
abbrev Decimal := ℚ

/-- The library constant `decimal.DivisionPrecision`. -/
def Decimal.DivisionPrecision : ℕ := 16

/-- Rounding of a rational to the nearest integer, halves away from zero, as
`Decimal.DivRound` does after its truncated quotient. -/
def Decimal.roundHalfAway (x : ℚ) : ℤ :=
  if 0 ≤ x then ⌊x + 1 / 2⌋ else -⌊-x + 1 / 2⌋

/-- The method `Decimal.Div`: the quotient rounded to `DivisionPrecision`
fractional digits. Go panics on a zero divisor; both call sites in the
settlement code are guarded by a positive count. -/
def Decimal.Div (d d2 : Decimal) : Decimal :=
  (Decimal.roundHalfAway (d / d2 * 10 ^ Decimal.DivisionPrecision) : ℚ)
    / 10 ^ Decimal.DivisionPrecision

/-- The dust threshold `decimal.NewFromFloat(0.01)`. -/
def dust : Decimal := 1 / 100

/-! ## Go maps and slices -/

/-- A Go map keyed by `uint`: an association list holding each key at most
once, in order of first insertion. -/
abbrev GoMap (V : Type) := List (ℕ × V)

/-- The read `m[k]` with the comma-ok result. -/
def GoMap.lookup {V : Type} (m : GoMap V) (k : ℕ) : Option V :=
  match m with
  | [] => none
  | e :: rest => if e.1 = k then some e.2 else GoMap.lookup rest k

/-- The write `m[k] = v`. -/
def GoMap.set {V : Type} (m : GoMap V) (k : ℕ) (v : V) : GoMap V :=
  match m with
  | [] => [(k, v)]
  | e :: rest => if e.1 = k then (k, v) :: rest else e :: GoMap.set rest k v

/-- The idiom `if p, exists := m[k]; exists { *p = f(*p) }` on a map of
pointers: the entry under `k`, when present, is updated in place. -/
def GoMap.modify {V : Type} (m : GoMap V) (k : ℕ) (f : V → V) : GoMap V :=
  m.map (fun e => if e.1 = k then (e.1, f e.2) else e)

/-- The call `sort.Slice(data, less)` as the Go runtime executes it on slices
of at most twelve elements (`insertionSortLessFunc`): each element in turn
moves left while it is `less` than its left neighbour. On longer slices the
runtime switches to pattern-defeating quicksort, which orders elements that
compare equal differently; `sort.Slice` promises no stability. -/
def sortSlice {α : Type} (less : α → α → Bool) (data : List α) : List α :=
  data.foldl
    (fun sorted x => sorted.rdropWhile (less x) ++ x :: sorted.rtakeWhile (less x)) []

/-! ## Data model -/

/-- The fields of `models.User` read by the settlement code. -/
structure User where
  ID : ℕ
  Name : String
  deriving DecidableEq, Repr

/-- The fields of `models.BillItem` read by the settlement code. -/
structure BillItem where
  Amount : Decimal
  Quantity : ℤ
  IsShared : Bool
  Owners : List User
  deriving DecidableEq, Repr

/-- The fields of `models.Bill` read by the settlement code. -/
structure Bill where
  ID : ℕ
  GroupID : ℕ
  TotalAmount : Decimal
  PaidByID : ℕ
  Items : List BillItem
  deriving DecidableEq, Repr

/-- The fields of `models.GroupMember` read by the settlement code;
`UserName` stands for `member.User.Name`. -/
structure GroupMember where
  UserID : ℕ
  UserName : String
  deriving DecidableEq, Repr

/-- The struct `UserBalance`. -/
structure UserBalance where
  UserID : ℕ
  UserName : String
  Paid : Decimal
  Owes : Decimal
  Balance : Decimal
  deriving DecidableEq, Repr

/-- The struct `Transaction`. -/
structure Transaction where
  FromUserID : ℕ
  FromUserName : String
  ToUserID : ℕ
  ToUserName : String
  Amount : Decimal
  deriving DecidableEq, Repr

/-- The struct `SettlementResult`. -/
structure SettlementResult where
  GroupID : ℕ
  BillCount : ℕ
  TotalAmount : Decimal
  Balances : List UserBalance
  Transactions : List Transaction
  deriving DecidableEq, Repr

/-! ## calculateBillOwes -/

/-- The local `itemTotal`: `item.Amount.Mul(decimal.NewFromInt(int64(item.Quantity)))`. -/
def itemTotal (item : BillItem) : Decimal :=
  item.Amount * (item.Quantity : ℚ)

/-- The statement `personalTotals[id] = personalTotals[id].Add(share)`; a
missing key reads as the zero decimal. -/
def addPersonal (personalTotals : GoMap Decimal) (id : ℕ) (share : Decimal) :
    GoMap Decimal :=
  personalTotals.set id ((personalTotals.lookup id).getD 0 + share)

/-- One round of the loop over `bill.Items` in `calculateBillOwes`, acting on
the pair `(sharedTotal, personalTotals)`. -/
def itemStep (acc : Decimal × GoMap Decimal) (item : BillItem) :
    Decimal × GoMap Decimal :=
  if item.IsShared then
    (acc.1 + itemTotal item, acc.2)
  else if item.Owners.length > 0 then
    let sharePerOwner := Decimal.Div (itemTotal item) (item.Owners.length : ℚ)
    (acc.1, item.Owners.foldl (fun pt owner => addPersonal pt owner.ID sharePerOwner) acc.2)
  else
    acc

/-- The pair `(sharedTotal, personalTotals)` once the loop over `bill.Items`
has finished. -/
def splitItems (items : List BillItem) : Decimal × GoMap Decimal :=
  items.foldl itemStep (0, [])

/-- The update `balance.Owes = balance.Owes.Add(amount)` under the existence
check of `balances[userID]`. -/
def addOwes (balances : GoMap UserBalance) (userID : ℕ) (amount : Decimal) :
    GoMap UserBalance :=
  balances.modify userID (fun b => { b with Owes := b.Owes + amount })

/-- The function `calculateBillOwes`. The closing loop ranges over the map
`personalTotals`; its rounds update entries under pairwise different keys,
so the storage order stands for any visiting order (`foldl_addOwes_order`). -/
def calculateBillOwes (bill : Bill) (balances : GoMap UserBalance)
    (members : List GroupMember) : GoMap UserBalance :=
  let split := splitItems bill.Items
  let sharedTotal := split.1
  let personalTotals := split.2
  let activeMemberCount := members.length
  let balances1 :=
    if activeMemberCount > 0 ∧ sharedTotal > 0 then
      let sharePerMember := Decimal.Div sharedTotal (activeMemberCount : ℚ)
      members.foldl (fun bal member => addOwes bal member.UserID sharePerMember) balances
    else balances
  personalTotals.foldl (fun bal e => addOwes bal e.1 e.2) balances1

/-! ## CalculateSettlement -/

/-- The loop "Initialize balances for all members". -/
def initBalances (members : List GroupMember) : GoMap UserBalance :=
  members.foldl
    (fun bal member =>
      bal.set member.UserID
        { UserID := member.UserID, UserName := member.UserName,
          Paid := 0, Owes := 0, Balance := 0 })
    []

/-- One round of the loop "Calculate balances", on the pair
`(balances, totalAmount)`. -/
def billStep (members : List GroupMember) (acc : GoMap UserBalance × Decimal)
    (bill : Bill) : GoMap UserBalance × Decimal :=
  let paid := acc.1.modify bill.PaidByID (fun b => { b with Paid := b.Paid + bill.TotalAmount })
  (calculateBillOwes bill paid members, acc.2 + bill.TotalAmount)

/-- The loop "Calculate final balances": `balance.Balance = balance.Paid.Sub(balance.Owes)`
for every entry of the map. -/
def finalBalances (balances : GoMap UserBalance) : GoMap UserBalance :=
  balances.map (fun e => (e.1, { e.2 with Balance := e.2.Paid - e.2.Owes }))

/-- The map `balances` of `CalculateSettlement` when control reaches
"Convert map to slice for output" (lines 100 to 128). -/
def aggregate (members : List GroupMember) (bills : List Bill) : GoMap UserBalance :=
  finalBalances (bills.foldl (billStep members) (initBalances members, 0)).1

/-- The local `totalAmount` of `CalculateSettlement` after the loop over the bills. -/
def totalAmount (members : List GroupMember) (bills : List Bill) : Decimal :=
  (bills.foldl (billStep members) (initBalances members, 0)).2

/-- The local `balanceSlice` of `CalculateSettlement`: the values of the map,
sorted by user id. The user ids are unique, so the slice is the same for
every order in which the map is visited (`balanceSlice_order`). -/
def balanceSlice (balances : GoMap UserBalance) : List UserBalance :=
  sortSlice (fun a b => decide (a.UserID < b.UserID)) (balances.map Prod.snd)

/-! ## optimizeTransactions -/

/-- The local struct type `balanceInfo` of `optimizeTransactions`. -/
structure balanceInfo where
  userID : ℕ
  userName : String
  amount : Decimal
  deriving DecidableEq, Repr

/-- The slice `creditors` before sorting; `visited` lists the values of the
map in the order `range balances` yields them. -/
def creditorsOf (visited : List UserBalance) : List balanceInfo :=
  (visited.filter (fun b => decide (b.Balance > 0))).map
    (fun b => { userID := b.UserID, userName := b.UserName, amount := b.Balance })

/-- The slice `debtors` before sorting, holding absolute amounts. -/
def debtorsOf (visited : List UserBalance) : List balanceInfo :=
  (visited.filter (fun b => decide (¬ b.Balance > 0 ∧ b.Balance < 0))).map
    (fun b => { userID := b.UserID, userName := b.UserName, amount := |b.Balance| })

/-- The comparison function handed to both `sort.Slice` calls. -/
def amountGreater (a b : balanceInfo) : Bool := decide (a.amount > b.amount)

/-- The matching loop of `optimizeTransactions`. The arguments are the
slices `debtors[i:]` and `creditors[j:]` with the amounts remaining in them;
`fuel` bounds the number of rounds and `none` reports that it ran out. -/
def matchLoop : ℕ → List balanceInfo → List balanceInfo → Option (List Transaction)
  | _, [], _ => some []
  | _, _ :: _, [] => some []
  | 0, _ :: _, _ :: _ => none
  | fuel + 1, debtor :: ds, creditor :: cs =>
    let transactionAmount :=
      if creditor.amount < debtor.amount then creditor.amount else debtor.amount
    let emitted : List Transaction :=
      if transactionAmount > dust then
        [{ FromUserID := debtor.userID, FromUserName := debtor.userName,
           ToUserID := creditor.userID, ToUserName := creditor.userName,
           Amount := transactionAmount }]
      else []
    let debtorLeft := debtor.amount - transactionAmount
    let creditorLeft := creditor.amount - transactionAmount
    let ds1 := if debtorLeft ≤ dust then ds else { debtor with amount := debtorLeft } :: ds
    let cs1 := if creditorLeft ≤ dust then cs else { creditor with amount := creditorLeft } :: cs
    (matchLoop fuel ds1 cs1).map (fun rest => emitted ++ rest)

/-- The function `optimizeTransactions`, applied to the values of the map
`balances` in the order in which `range` yields them. -/
def optimizeTransactions (visited : List UserBalance) : Option (List Transaction) :=
  let creditors := sortSlice amountGreater (creditorsOf visited)
  let debtors := sortSlice amountGreater (debtorsOf visited)
  matchLoop (debtors.length + creditors.length) debtors creditors

/-- The computation of `CalculateSettlement` from "Initialize balances for all
members" to the returned result (lines 100 to 151), on bills and members
already loaded. `rangeOrder` is the order in which `range` visits the map
inside `optimizeTransactions`. Of the two earlier loops over `balances`, one
acts on every entry separately (`finalBalances`) and one feeds a sort on the
unique user ids (`balanceSlice`); neither depends on the visiting order. -/
def computeSettlement (rangeOrder : GoMap UserBalance → GoMap UserBalance)
    (groupID : ℕ) (members : List GroupMember) (bills : List Bill) :
    Option SettlementResult :=
  let balances := aggregate members bills
  (optimizeTransactions ((rangeOrder balances).map Prod.snd)).map
    (fun transactions =>
      { GroupID := groupID, BillCount := bills.length,
        TotalAmount := totalAmount members bills,
        Balances := balanceSlice balances, Transactions := transactions })

/-! ## Vocabulary of the properties -/

/-- Sum of the amounts of the transactions sent by `uid`. -/
def sentBy (ts : List Transaction) (uid : ℕ) : Decimal :=
  ((ts.filter (fun t => decide (t.FromUserID = uid))).map Transaction.Amount).sum

/-- Sum of the amounts of the transactions received by `uid`. -/
def receivedBy (ts : List Transaction) (uid : ℕ) : Decimal :=
  ((ts.filter (fun t => decide (t.ToUserID = uid))).map Transaction.Amount).sum

/-- Net balance of `uid` once the transactions are applied: every transaction
adds its amount to the net of its sender and subtracts it from the net of
its receiver. -/
def applyTransactions (ts : List Transaction) (uid : ℕ) (net : Decimal) : Decimal :=
  net + sentBy ts uid - receivedBy ts uid

/-- Number of members with a negative net balance. -/
def countDebtors (bs : List UserBalance) : ℕ :=
  (bs.filter (fun b => decide (b.Balance < 0))).length

/-- Number of members with a positive net balance. -/
def countCreditors (bs : List UserBalance) : ℕ :=
  (bs.filter (fun b => decide (b.Balance > 0))).length

/-- Sum of the amounts of a list of transactions. -/
def txTotal (ts : List Transaction) : Decimal :=
  (ts.map Transaction.Amount).sum

/-- Sum of the amounts remaining in a slice of `balanceInfo`. -/
def amounts (l : List balanceInfo) : Decimal :=
  (l.map balanceInfo.amount).sum

/-- Sum of the amounts a slice of `balanceInfo` holds for the user `uid`. -/
def owedBy (l : List balanceInfo) (uid : ℕ) : Decimal :=
  ((l.filter (fun x => decide (x.userID = uid))).map balanceInfo.amount).sum

/-- The local `transactionAmount` of one round of the matching loop. -/
def stepAmount (debtor creditor : balanceInfo) : Decimal :=
  if creditor.amount < debtor.amount then creditor.amount else debtor.amount

/-- The transactions appended by one round of the matching loop. -/
def stepEmitted (debtor creditor : balanceInfo) : List Transaction :=
  if stepAmount debtor creditor > dust then
    [{ FromUserID := debtor.userID, FromUserName := debtor.userName,
       ToUserID := creditor.userID, ToUserName := creditor.userName,
       Amount := stepAmount debtor creditor }]
  else []

/-- The slice `debtors[i:]` after one round of the matching loop. -/
def stepDebtors (debtor : balanceInfo) (ds : List balanceInfo) (creditor : balanceInfo) :
    List balanceInfo :=
  if debtor.amount - stepAmount debtor creditor ≤ dust then ds
  else { debtor with amount := debtor.amount - stepAmount debtor creditor } :: ds

/-- The slice `creditors[j:]` after one round of the matching loop. -/
def stepCreditors (debtor creditor : balanceInfo) (cs : List balanceInfo) :
    List balanceInfo :=
  if creditor.amount - stepAmount debtor creditor ≤ dust then cs
  else { creditor with amount := creditor.amount - stepAmount debtor creditor } :: cs

/-- The map `balances` with `dPaid k` added to the paid amount and `dOwes k`
added to the owed amount of the entry under every key `k`. -/
def bump (dPaid dOwes : ℕ → Decimal) (balances : GoMap UserBalance) : GoMap UserBalance :=
  balances.map
    (fun e => (e.1, { e.2 with Paid := e.2.Paid + dPaid e.1, Owes := e.2.Owes + dOwes e.1 }))

/-- Sum of the amounts that a list of `(user id, amount)` pairs holds for `k`. -/
def keySum (l : List (ℕ × Decimal)) (k : ℕ) : Decimal :=
  ((l.filter (fun e => decide (e.1 = k))).map Prod.snd).sum

/-- The entry created for a member by the initialisation loop. -/
def zeroBalance (member : GroupMember) : ℕ × UserBalance :=
  (member.UserID,
    { UserID := member.UserID, UserName := member.UserName, Paid := 0, Owes := 0, Balance := 0 })

/-- What a bill adds to the paid amount of the entry under `k`. -/
def paidDelta (bill : Bill) (k : ℕ) : Decimal :=
  if k = bill.PaidByID then bill.TotalAmount else 0

/-- What `calculateBillOwes` adds to the owed amount of the entry under `k`:
the shares of the shared total dealt to `k` in the loop over the members,
and the personal total stored for `k`. -/
def owesDelta (members : List GroupMember) (bill : Bill) (k : ℕ) : Decimal :=
  (if members.length > 0 ∧ (splitItems bill.Items).1 > 0 then
      keySum (members.map (fun m =>
        (m.UserID, Decimal.Div (splitItems bill.Items).1 (members.length : ℚ)))) k
    else 0)
  + keySum (splitItems bill.Items).2 k

/-- Sum of the line totals of the shared items. -/
def sharedSum (items : List BillItem) : Decimal :=
  ((items.filter (fun item => item.IsShared)).map itemTotal).sum

/-- What the owners loop of one item adds to the personal total of `k`: one
share for every occurrence of `k` among the owners of a non-shared item. -/
def ownerShares (item : BillItem) (k : ℕ) : Decimal :=
  if item.IsShared then 0
  else if item.Owners.length > 0 then
    (item.Owners.map (fun o =>
      if o.ID = k then Decimal.Div (itemTotal item) (item.Owners.length : ℚ) else 0)).sum
  else 0

/-- Sum over the items of a bill of the shares dealt to `k` as an owner. -/
def personalShare (items : List BillItem) (k : ℕ) : Decimal :=
  (items.map (fun item => ownerShares item k)).sum

/-- The value read from `personalTotals[k]`, zero when the key is missing. -/
def ptVal (personalTotals : GoMap Decimal) (k : ℕ) : Decimal :=
  (personalTotals.lookup k).getD 0

/-- Two bills that differ at most in the order of their items. -/
def sameUpToItemOrder (b b2 : Bill) : Prop :=
  b.ID = b2.ID ∧ b.GroupID = b2.GroupID ∧ b.TotalAmount = b2.TotalAmount ∧
    b.PaidByID = b2.PaidByID ∧ b.Items.Perm b2.Items

/-- Sum of the paid amounts over the entries of a balances map. -/
def sumPaid (balances : GoMap UserBalance) : Decimal :=
  (balances.map (fun e => e.2.Paid)).sum

/-- Sum of the owed amounts over the entries of a balances map. -/
def sumOwes (balances : GoMap UserBalance) : Decimal :=
  (balances.map (fun e => e.2.Owes)).sum

/-- Sum of the line totals of all items of a bill. -/
def itemsTotal (bill : Bill) : Decimal :=
  (bill.Items.map itemTotal).sum

/-- Sum of the line totals of the non-shared items. -/
def personalTotal (items : List BillItem) : Decimal :=
  ((items.filter (fun item => !item.IsShared)).map itemTotal).sum

/-- Number of owner shares dealt out for the non-shared items. -/
def personalOwners (items : List BillItem) : ℕ :=
  ((items.filter (fun item => !item.IsShared)).map (fun item => item.Owners.length)).sum

/-- Number of shares a bill is divided into: one per roster member for the
shared total and one per owner for every non-shared item. -/
def billShares (members : List GroupMember) (bill : Bill) : ℕ :=
  members.length + personalOwners bill.Items

/-- Number of shares all bills together are divided into. -/
def shareCount (members : List GroupMember) (bills : List Bill) : ℕ :=
  (bills.map (billShares members)).sum

/-- Largest distance between `Decimal.Div` and the exact quotient: half a unit
of the sixteenth fractional digit. -/
def divisionError : ℚ := 1 / (2 * 10 ^ 16)

/-- What `calculateBillOwes` adds to the owed amounts of all roster members
together. -/
def rosterOwes (members : List GroupMember) (bill : Bill) : Decimal :=
  (members.map (fun m => owesDelta members bill m.UserID)).sum

/-! ## Reference definition of the balances, after the specification -/

/-- Reference, after the specification: the line total of an item,
amount x quantity. -/
def refLineTotal (item : BillItem) : Decimal :=
  item.Amount * (item.Quantity : ℚ)

/-- Reference, after the specification: paid is the sum of `TotalAmount` over
the bills whose payer is the member. -/
def refPaid (bills : List Bill) (uid : ℕ) : Decimal :=
  ((bills.filter (fun b => decide (b.PaidByID = uid))).map Bill.TotalAmount).sum

/-- Reference, after the specification: the shared total of a bill. -/
def refSharedTotal (bill : Bill) : Decimal :=
  ((bill.Items.filter (fun item => item.IsShared)).map refLineTotal).sum

/-- Reference, after the specification: the personal shares of a member in a
bill, line total / number of owners for each non-shared item the member owns. -/
def refPersonal (bill : Bill) (uid : ℕ) : Decimal :=
  ((bill.Items.filter
      (fun item => !item.IsShared && decide (uid ∈ item.Owners.map User.ID))).map
    (fun item => Decimal.Div (refLineTotal item) (item.Owners.length : ℚ))).sum

/-- Reference, after the specification: owes is the sum over the bills of the
shared total / roster size plus the personal shares of the member. The
division is the one of the money type. -/
def refOwes (members : List GroupMember) (bills : List Bill) (uid : ℕ) : Decimal :=
  (bills.map (fun bill =>
    Decimal.Div (refSharedTotal bill) (members.length : ℚ) + refPersonal bill uid)).sum

/-- The reference owes with the share of the shared total counted only for
bills whose shared total is positive. -/
def refOwesPositive (members : List GroupMember) (bills : List Bill) (uid : ℕ) : Decimal :=
  (bills.map (fun bill =>
    (if refSharedTotal bill > 0 then Decimal.Div (refSharedTotal bill) (members.length : ℚ)
      else 0) + refPersonal bill uid)).sum

/-! ## Scenarios of the specification -/

/-- The roster of the scenarios: members A, B and C. -/
def rosterABC : List GroupMember :=
  [{ UserID := 1, UserName := "A" }, { UserID := 2, UserName := "B" },
   { UserID := 3, UserName := "C" }]

/-- Scenario bill 1: total 30.00, paid by A, one shared item 30.00 x 1. -/
def bill1 : Bill :=
  { ID := 1, GroupID := 1, TotalAmount := 30, PaidByID := 1,
    Items := [{ Amount := 30, Quantity := 1, IsShared := true, Owners := [] }] }

/-- Scenario bill 2: total 20.00, paid by B, one personal item 20.00 x 1
owned by C. -/
def bill2 : Bill :=
  { ID := 2, GroupID := 1, TotalAmount := 20, PaidByID := 2,
    Items := [{ Amount := 20, Quantity := 1, IsShared := false,
                Owners := [{ ID := 3, Name := "C" }] }] }

/-- A roster of four members A, B, C and D. -/
def rosterABCD : List GroupMember :=
  [{ UserID := 1, UserName := "A" }, { UserID := 2, UserName := "B" },
   { UserID := 3, UserName := "C" }, { UserID := 4, UserName := "D" }]

/-- A bill of 0.02 paid by A with one shared item 0.02 x 1. -/
def centsBill : Bill :=
  { ID := 3, GroupID := 1, TotalAmount := 2 / 100, PaidByID := 1,
    Items := [{ Amount := 2 / 100, Quantity := 1, IsShared := true, Owners := [] }] }

/-- A bill of 30.00 paid by A whose only item is personal and has no owner. -/
def orphanBill : Bill :=
  { ID := 4, GroupID := 1, TotalAmount := 30, PaidByID := 1,
    Items := [{ Amount := 30, Quantity := 1, IsShared := false, Owners := [] }] }

/-- A refund of 30.00 recorded by A as a bill with one shared item of -30.00. -/
def refundBill : Bill :=
  { ID := 5, GroupID := 1, TotalAmount := -30, PaidByID := 1,
    Items := [{ Amount := -30, Quantity := 1, IsShared := true, Owners := [] }] }

/-- A bill of 50.00 paid by B with a shared item of 30.00 and a personal item
of 20.00 owned by C. -/
def mixedBill : Bill :=
  { ID := 6, GroupID := 1, TotalAmount := 50, PaidByID := 2,
    Items := [{ Amount := 30, Quantity := 1, IsShared := true, Owners := [] },
              { Amount := 20, Quantity := 1, IsShared := false,
                Owners := [{ ID := 3, Name := "C" }] }] }

/-- The bill `mixedBill` with its two items in the opposite order. -/
def mixedBillSwapped : Bill :=
  { ID := 6, GroupID := 1, TotalAmount := 50, PaidByID := 2,
    Items := [{ Amount := 20, Quantity := 1, IsShared := false,
                Owners := [{ ID := 3, Name := "C" }] },
              { Amount := 30, Quantity := 1, IsShared := true, Owners := [] }] }

/-! ## Rounds of the matching loop and untouched members -/

/-- The head debtor and the head creditor, with the amounts remaining in them,
at the start of every round of the matching loop. -/
def matchRounds : ℕ → List balanceInfo → List balanceInfo → List (balanceInfo × balanceInfo)
  | _, [], _ => []
  | _, _ :: _, [] => []
  | 0, _ :: _, _ :: _ => []
  | fuel + 1, debtor :: ds, creditor :: cs =>
    (debtor, creditor) ::
      matchRounds fuel (stepDebtors debtor ds creditor) (stepCreditors debtor creditor cs)

/-- A member no bill touches: the member pays no bill, no bill has a shared
item, and the member owns no item. -/
def untouchedBy (bills : List Bill) (uid : ℕ) : Prop :=
  ∀ bill ∈ bills, bill.PaidByID ≠ uid ∧
    ∀ item ∈ bill.Items, item.IsShared = false ∧ uid ∉ item.Owners.map User.ID

/-! ## The store

The services reach the database, PostgreSQL, through gorm, which is not part
of the repository. The store is embedded at the level of its tables: a query
is a filter over the rows, a write replaces or appends rows. A gorm
transaction works on a copy of the store that `Commit` installs and
`Rollback` discards. Rows of `bills` carry gorm's soft-delete mark, which
every query on bills respects.

An amount column has the type `decimal(10,2)`: of a written amount it keeps
the value rounded to 2 fractional digits (`Decimal.column`). A `Save` of a
row that was loaded with preloaded associations writes these too: a preloaded
item whose row is gone is inserted again, and a join row is inserted for every
preloaded owner of an item and for every preloaded bill of a settlement,
beside the join rows that are there already, the join tables having a key of
their own.

Every store call that returns an error to the service code can fail, as
directed by an explicit argument, whatever the cause: a lost connection, an
amount too large for its column, a row whose foreign key points nowhere. The
membership queries and the count of admins, whose errors the code cannot see,
are taken to succeed. Inside a transaction a failed statement makes every
later statement fail, so the failure of a statement whose error the code
drops shows as the failure of the next checked call of the transaction and
has no argument of its own; `Commit` and the reload that follows it can fail
alone. Store errors wrapped into an error text, and amounts printed into it,
are left out of the text. -/

/-- The value a column of type `decimal(10,2)` keeps of an amount written to
it: the amount rounded to 2 fractional digits, halves away from zero. -/
def Decimal.column (x : Decimal) : Decimal :=
  (Decimal.roundHalfAway (x * 100) : ℚ) / 100

/-- Equality of results is decidable. -/
instance exceptDecEq {ε α : Type} [DecidableEq ε] [DecidableEq α] :
    DecidableEq (Except ε α)
  | .ok a, .ok b =>
    if h : a = b then isTrue (by rw [h]) else isFalse (by intro e; cases e; exact h rfl)
  | .error a, .error b =>
    if h : a = b then isTrue (by rw [h]) else isFalse (by intro e; cases e; exact h rfl)
  | .ok _, .error _ => isFalse (by intro e; cases e)
  | .error _, .ok _ => isFalse (by intro e; cases e)

/-- A row of `groups`; `Deleted` tells whether `deleted_at` is set. -/
structure GroupRow where
  ID : ℕ
  Name : String
  Description : String
  CreatedByID : ℕ
  IsActive : Bool
  Deleted : Bool
  deriving DecidableEq, Repr

/-- A row of `group_members`. -/
structure MemberRow where
  GroupID : ℕ
  UserID : ℕ
  Role : String
  deriving DecidableEq, Repr

/-- A row of `bills`; `Deleted` tells whether `deleted_at` is set. -/
structure BillRow where
  ID : ℕ
  GroupID : ℕ
  Title : String
  Description : String
  TotalAmount : Decimal
  PaidByID : ℕ
  BillDate : ℕ
  Status : String
  Deleted : Bool
  deriving DecidableEq, Repr

/-- A row of `bill_items`. -/
structure ItemRow where
  ID : ℕ
  BillID : ℕ
  Name : String
  Description : String
  Amount : Decimal
  Quantity : ℤ
  IsShared : Bool
  deriving DecidableEq, Repr

/-- A row of `item_owners`; the share ratio is always written as 1. -/
structure ItemOwnerRow where
  ItemID : ℕ
  UserID : ℕ
  deriving DecidableEq, Repr

/-- A row of `settlements`; title and description are display texts and are
left out. `SettledAt` is the optional settlement time. -/
structure SettlementRow where
  ID : ℕ
  GroupID : ℕ
  CreatedByID : ℕ
  Status : String
  SettledAt : Option ℕ
  deriving DecidableEq, Repr

/-- A row of `settlement_bills`. -/
structure SettlementBillRow where
  SettlementID : ℕ
  BillID : ℕ
  deriving DecidableEq, Repr

/-- A row of `settlement_transactions`. -/
structure SettlementTransactionRow where
  SettlementID : ℕ
  FromUserID : ℕ
  ToUserID : ℕ
  Amount : Decimal
  Status : String
  deriving DecidableEq, Repr

/-- The tables the services work on, with the next values of the id sequences. -/
structure Store where
  users : List User
  members : List MemberRow
  bills : List BillRow
  items : List ItemRow
  itemOwners : List ItemOwnerRow
  settlements : List SettlementRow
  settlementBills : List SettlementBillRow
  settlementTransactions : List SettlementTransactionRow
  nextBillID : ℕ
  nextItemID : ℕ
  nextSettlementID : ℕ
  groups : List GroupRow := []
  nextGroupID : ℕ := 1
  deriving DecidableEq, Repr

/-- The store calls that can fail on their own. The index of `createItem`,
`linkBill` and `createTransaction` is the round of the loop that makes the
call; `createOwner i j` is the call for owner `j` of item `i`. -/
inductive StoreCall where
  | loadBill
  | loadItem
  | createBill
  | createItem (i : ℕ)
  | createOwner (i j : ℕ)
  | saveBill
  | deleteBill
  | saveItem
  | deleteItem
  | fetchBills
  | getMembers
  | loadSettlement
  | createSettlement
  | linkBill (i : ℕ)
  | createTransaction (i : ℕ)
  | saveSettlement
  | updateBills
  | commit
  | reload
  | createGroup
  | createMember
  | deleteMember
  | updateMember
  deriving DecidableEq, Repr

/-- The store calls that fail during one call of a service method. -/
abbrev Faults := StoreCall → Bool

/-- No store call fails. -/
def noFaults : Faults := fun _ => false

/-! ## Group service helpers -/

/-- The method `GroupService.IsUserMember`: the count of matching rows is positive. -/
def IsUserMember (store : Store) (groupID userID : ℕ) : Bool :=
  decide ((store.members.filter
    (fun m => decide (m.GroupID = groupID ∧ m.UserID = userID))).length > 0)

/-- The method `GroupService.IsUserAdmin`: a matching row with role admin is found. -/
def IsUserAdmin (store : Store) (groupID userID : ℕ) : Bool :=
  (store.members.find?
    (fun m => decide (m.GroupID = groupID ∧ m.UserID = userID ∧ m.Role = "admin"))).isSome

/-- The member row with `User` preloaded. A member row always has its user row
(foreign key); without one Go would dereference nil where the name is read. -/
def loadMember (store : Store) (row : MemberRow) : GroupMember :=
  { UserID := row.UserID,
    UserName := ((store.users.find? (fun u => decide (u.ID = row.UserID))).map User.Name).getD "" }

/-- The method `GroupService.GetGroupMembers`. -/
def GetGroupMembers (faults : Faults) (store : Store) (groupID userID : ℕ) :
    Except String (List GroupMember) :=
  if ¬ IsUserMember store groupID userID then
    .error "user is not a member of this group"
  else if faults .getMembers then
    .error "failed to get group members"
  else
    .ok ((store.members.filter (fun m => decide (m.GroupID = groupID))).map (loadMember store))

/-! ## Group service: groups and their members -/

/-- The struct `CreateGroupRequest`. -/
structure CreateGroupRequest where
  Name : String
  Description : String
  deriving DecidableEq, Repr

/-- The struct `UpdateMemberRoleRequest`. Its binding `oneof=admin member` is
checked where the handler binds the request, not in the service. -/
structure UpdateMemberRoleRequest where
  Role : String
  deriving DecidableEq, Repr

/-- The binding `required,oneof=admin member` of `UpdateMemberRoleRequest`. -/
def UpdateMemberRoleRequest.bound (req : UpdateMemberRoleRequest) : Prop :=
  req.Role = "admin" ∨ req.Role = "member"

/-- The method `GroupService.CreateGroup`. -/
def CreateGroup (faults : Faults) (store : Store) (userID : ℕ) (req : CreateGroupRequest) :
    Store × Except String GroupRow :=
  let group : GroupRow :=
    { ID := store.nextGroupID, Name := req.Name, Description := req.Description,
      CreatedByID := userID, IsActive := true, Deleted := false }
  if faults .createGroup then (store, .error "failed to create group")
  else
    let member : MemberRow := { UserID := userID, GroupID := group.ID, Role := "admin" }
    if faults .createMember then (store, .error "failed to add creator as member")
    else if faults .commit then (store, .error "failed to commit transaction")
    else
      let written : Store :=
        { store with
          groups := store.groups ++ [group],
          members := store.members ++ [member],
          nextGroupID := store.nextGroupID + 1 }
      if faults .reload then (written, .error "failed to load group data")
      else (written, .ok group)

/-- The method `GroupService.CountGroupAdmins`. -/
def CountGroupAdmins (store : Store) (groupID : ℕ) : ℕ :=
  (store.members.filter
    (fun m => decide (m.GroupID = groupID ∧ m.Role = "admin"))).length

/-- The method `GroupService.RemoveMember`. -/
def RemoveMember (faults : Faults) (store : Store) (groupID userID targetUserID : ℕ) :
    Store × Except String Unit :=
  if ¬ IsUserAdmin store groupID userID then
    (store, .error "only group admins can remove members")
  else if targetUserID = userID ∧ CountGroupAdmins store groupID ≤ 1 then
    (store, .error "cannot remove the last admin from group")
  else if faults .deleteMember then
    (store, .error "failed to remove member")
  else
    let rowsAffected := (store.members.filter
      (fun m => decide (m.GroupID = groupID ∧ m.UserID = targetUserID))).length
    if rowsAffected = 0 then
      (store, .error "member not found in group")
    else
      ({ store with
          members := store.members.filter
            (fun m => decide (¬ (m.GroupID = groupID ∧ m.UserID = targetUserID))) },
        .ok ())

/-- The method `GroupService.UpdateMemberRole`. -/
def UpdateMemberRole (faults : Faults) (store : Store) (groupID userID targetUserID : ℕ)
    (req : UpdateMemberRoleRequest) : Store × Except String Unit :=
  if ¬ IsUserAdmin store groupID userID then
    (store, .error "only group admins can update member roles")
  else if (req.Role = "member" ∧ targetUserID = userID) ∧
      CountGroupAdmins store groupID ≤ 1 then
    (store, .error "cannot demote the last admin")
  else if faults .updateMember then
    (store, .error "failed to update member role")
  else
    let rowsAffected := (store.members.filter
      (fun m => decide (m.GroupID = groupID ∧ m.UserID = targetUserID))).length
    if rowsAffected = 0 then
      (store, .error "member not found in group")
    else
      ({ store with
          members := store.members.map
            (fun m => if m.GroupID = groupID ∧ m.UserID = targetUserID then
              { m with Role := req.Role } else m) },
        .ok ())

/-! ## Bill service -/

/-- The struct `CreateBillItemRequest`. -/
structure CreateBillItemRequest where
  Name : String
  Description : String
  Amount : Decimal
  Quantity : ℤ
  IsShared : Bool
  OwnerIDs : List ℕ
  deriving DecidableEq, Repr

/-- The struct `CreateBillRequest`; a bill date of 0 is the zero time. -/
structure CreateBillRequest where
  GroupID : ℕ
  Title : String
  Description : String
  TotalAmount : Decimal
  BillDate : ℕ
  Items : List CreateBillItemRequest
  deriving DecidableEq, Repr

/-- The struct `UpdateBillRequest`. -/
structure UpdateBillRequest where
  Title : String
  Description : String
  TotalAmount : Decimal
  BillDate : ℕ
  deriving DecidableEq, Repr

/-- The query `First(&bill, billID)`: the bill with that id that is not soft-deleted. -/
def Store.firstBill (store : Store) (billID : ℕ) : Option BillRow :=
  store.bills.find? (fun b => decide (b.ID = billID ∧ b.Deleted = false))

/-- The items of a bill, as `Preload("Items")` loads them. -/
def Store.itemsOf (store : Store) (billID : ℕ) : List ItemRow :=
  store.items.filter (fun i => decide (i.BillID = billID))

/-- The query `Where("id = ? AND bill_id = ?", itemID, billID).First(&item)`. -/
def Store.firstItem (store : Store) (itemID billID : ℕ) : Option ItemRow :=
  store.items.find? (fun i => decide (i.ID = itemID ∧ i.BillID = billID))

/-- The owners of an item as `Preload("Items.Owners")` loads them: the user
rows joined through `item_owners`, one for every join row. -/
def Store.ownersOf (store : Store) (itemID : ℕ) : List User :=
  (store.itemOwners.filter (fun o => decide (o.ItemID = itemID))).flatMap
    (fun o => store.users.filter (fun u => decide (u.ID = o.UserID)))

/-- The items of a bill with their owners, as `GetBillByID` preloads them
into the field `Items` of the bill it returns. -/
def Store.preloadItems (store : Store) (billID : ℕ) : List (ItemRow × List User) :=
  (store.itemsOf billID).map (fun i => (i, store.ownersOf i.ID))

/-- The statement `INSERT INTO bill_items ... ON CONFLICT (id) DO UPDATE SET
bill_id` with which `Save(&bill)` writes a preloaded item: a stored row with
the id of the item gets its `bill_id`; when there is none, the item is
inserted, a quantity of 0 as the default 1 of the column. -/
def Store.upsertItem (store : Store) (item : ItemRow) : Store :=
  if store.items.any (fun i => decide (i.ID = item.ID)) then
    { store with
      items := store.items.map
        (fun i => if i.ID = item.ID then { i with BillID := item.BillID } else i) }
  else
    { store with
      items := store.items ++
        [{ item with Amount := Decimal.column item.Amount,
                     Quantity := if item.Quantity = 0 then 1 else item.Quantity }] }

/-- The call `Save(&bill)` on a bill with the preloaded `items`: the row of
the bill is overwritten, every preloaded item is written with the id of the
bill as its `bill_id`, and a row of `item_owners` is inserted for every
preloaded owner of every preloaded item. -/
def Store.saveBill (store : Store) (bill : BillRow) (items : List (ItemRow × List User)) :
    Store :=
  let rowSaved : Store :=
    { store with
      bills := store.bills.map
        (fun b => if b.ID = bill.ID ∧ b.Deleted = false then
          { bill with TotalAmount := Decimal.column bill.TotalAmount } else b) }
  let itemsSaved : Store :=
    items.foldl (fun s p => s.upsertItem { p.1 with BillID := bill.ID }) rowSaved
  { itemsSaved with
    itemOwners := itemsSaved.itemOwners ++
      items.flatMap (fun p => p.2.map (fun u => { ItemID := p.1.ID, UserID := u.ID })) }

/-- The call `Delete(&bill)`: the row of the bill gets the soft-delete mark. -/
def Store.softDeleteBill (store : Store) (bill : BillRow) : Store :=
  { store with
    bills := store.bills.map
      (fun b => if b.ID = bill.ID ∧ b.Deleted = false then { b with Deleted := true } else b) }

/-- The query `First(&item, item.ID)` into an item that is in memory: the
stored row with the id of the item, and the item as it is when there is no
such row. -/
def Store.reloadItem (store : Store) (item : ItemRow) : ItemRow :=
  (store.items.find? (fun i => decide (i.ID = item.ID))).getD item

/-- The method `BillService.GetBillByID`; the items of the returned bill are
`store.preloadItems bill.ID`. -/
def GetBillByID (faults : Faults) (store : Store) (billID userID : ℕ) :
    Except String BillRow :=
  if faults .loadBill then .error "failed to get bill"
  else
    match store.firstBill billID with
    | none => .error "bill not found"
    | some bill =>
      if ¬ IsUserMember store bill.GroupID userID then
        .error "user is not authorized to view this bill"
      else .ok bill

/-- The loop over the owner ids of item `i`, from owner number `j` on: every
owner is checked for membership and given a row in turn; the first owner
that is not a member, or whose row cannot be written, ends the loop with an
error. -/
def ownerLoop (faults : Faults) (store : Store) (groupID itemID i : ℕ) :
    List ℕ → ℕ → Except String (List ItemOwnerRow)
  | [], _ => .ok []
  | ownerID :: rest, j =>
    if ¬ IsUserMember store groupID ownerID then
      .error ("user " ++ toString ownerID ++ " is not a member of the group")
    else if faults (.createOwner i j) then
      .error "failed to add item owner"
    else
      match ownerLoop faults store groupID itemID i rest (j + 1) with
      | .error e => .error e
      | .ok rows => .ok ({ ItemID := itemID, UserID := ownerID } :: rows)

/-- The block "Add item owners for personal items": the owner rows written
for item `i`. -/
def ownerRows (faults : Faults) (store : Store) (groupID itemID i : ℕ) (isShared : Bool)
    (ownerIDs : List ℕ) : Except String (List ItemOwnerRow) :=
  if ¬ isShared ∧ ownerIDs.length > 0 then
    ownerLoop faults store groupID itemID i ownerIDs 0
  else .ok []

/-- The loop "Create bill items" of `CreateBill`, from item number `i` on: the
item and owner rows written inside the transaction, the amount of an item as
its column keeps it, and the local `itemsTotal`, summed over the amounts of
the request; or the first error. -/
def createBillItems (faults : Faults) (store : Store) (groupID billID : ℕ) :
    List CreateBillItemRequest → ℕ → ℕ →
      Except String (List ItemRow × List ItemOwnerRow × Decimal)
  | [], _, _ => .ok ([], [], 0)
  | itemReq :: rest, i, nextID =>
    let quantity := if itemReq.Quantity = 0 then 1 else itemReq.Quantity
    let item : ItemRow :=
      { ID := nextID, BillID := billID, Name := itemReq.Name,
        Description := itemReq.Description, Amount := Decimal.column itemReq.Amount,
        Quantity := quantity, IsShared := itemReq.IsShared }
    if faults (.createItem i) then .error ("failed to create item " ++ itemReq.Name)
    else
      match ownerRows faults store groupID nextID i itemReq.IsShared itemReq.OwnerIDs with
      | .error e => .error e
      | .ok owners =>
        match createBillItems faults store groupID billID rest (i + 1) (nextID + 1) with
        | .error e => .error e
        | .ok (items, moreOwners, total) =>
          .ok (item :: items, owners ++ moreOwners, itemReq.Amount * (quantity : ℚ) + total)

/-- The method `BillService.CreateBill`; `now` is the current time. The bill
returned is the row read back after the commit. -/
def CreateBill (faults : Faults) (now : ℕ) (store : Store) (userID : ℕ)
    (req : CreateBillRequest) : Store × Except String BillRow :=
  if ¬ IsUserMember store req.GroupID userID then
    (store, .error "user is not a member of this group")
  else
    let bill : BillRow :=
      { ID := store.nextBillID, GroupID := req.GroupID, Title := req.Title,
        Description := req.Description, TotalAmount := Decimal.column req.TotalAmount,
        PaidByID := userID, BillDate := if req.BillDate = 0 then now else req.BillDate,
        Status := "pending", Deleted := false }
    if faults .createBill then (store, .error "failed to create bill")
    else
      match createBillItems faults store req.GroupID bill.ID req.Items 0 store.nextItemID with
      | .error e => (store, .error e)
      | .ok (items, owners, itemsTotal) =>
        if ¬ |req.TotalAmount - itemsTotal| < dust then
          (store, .error "total amount doesn't match sum of items")
        else if faults .commit then
          (store, .error "failed to commit transaction")
        else
          let written : Store :=
            { store with
              bills := store.bills ++ [bill],
              items := store.items ++ items,
              itemOwners := store.itemOwners ++ owners,
              nextBillID := store.nextBillID + 1,
              nextItemID := store.nextItemID + items.length }
          if faults .reload then (written, .error "failed to load bill data")
          else (written, .ok bill)

/-- The method `BillService.UpdateBill`. The bill returned is the one in
memory, with the total of the request. -/
def UpdateBill (faults : Faults) (store : Store) (billID userID : ℕ)
    (req : UpdateBillRequest) : Store × Except String BillRow :=
  match GetBillByID faults store billID userID with
  | .error e => (store, .error e)
  | .ok bill =>
    if bill.Status ≠ "pending" then
      (store, .error "cannot update finalized or settled bill")
    else if bill.PaidByID ≠ userID ∧ ¬ IsUserAdmin store bill.GroupID userID then
      (store, .error "only bill creator or group admin can update the bill")
    else
      let updated : BillRow :=
        { bill with Title := req.Title, Description := req.Description,
                    TotalAmount := req.TotalAmount, BillDate := req.BillDate }
      if faults .saveBill then (store, .error "failed to update bill")
      else (store.saveBill updated (store.preloadItems bill.ID), .ok updated)

/-- The method `BillService.DeleteBill`: the bill is soft-deleted. -/
def DeleteBill (faults : Faults) (store : Store) (billID userID : ℕ) :
    Store × Except String Unit :=
  match GetBillByID faults store billID userID with
  | .error e => (store, .error e)
  | .ok bill =>
    if bill.Status ≠ "pending" then
      (store, .error "cannot delete finalized or settled bill")
    else if bill.PaidByID ≠ userID ∧ ¬ IsUserAdmin store bill.GroupID userID then
      (store, .error "only bill creator or group admin can delete the bill")
    else if faults .deleteBill then (store, .error "failed to delete bill")
    else (store.softDeleteBill bill, .ok ())

/-- The method `BillService.AddBillItem`. The error of `Commit` is not looked
at: a failed commit installs nothing. The item returned is the row read back
after the commit, and the item in memory when there is no row to read. -/
def AddBillItem (faults : Faults) (store : Store) (billID userID : ℕ)
    (req : CreateBillItemRequest) : Store × Except String ItemRow :=
  match GetBillByID faults store billID userID with
  | .error e => (store, .error e)
  | .ok bill =>
    if bill.Status ≠ "pending" then
      (store, .error "cannot add items to finalized or settled bill")
    else if bill.PaidByID ≠ userID ∧ ¬ IsUserAdmin store bill.GroupID userID then
      (store, .error "only bill creator or group admin can add items")
    else
      let quantity := if req.Quantity = 0 then 1 else req.Quantity
      let item : ItemRow :=
        { ID := store.nextItemID, BillID := billID, Name := req.Name,
          Description := req.Description, Amount := req.Amount,
          Quantity := quantity, IsShared := req.IsShared }
      if faults (.createItem 0) then (store, .error "failed to create item")
      else
        match ownerRows faults store bill.GroupID item.ID 0 req.IsShared req.OwnerIDs with
        | .error e => (store, .error e)
        | .ok owners =>
          let itemTotal := req.Amount * (quantity : ℚ)
          let created : Store :=
            { store with
              items := store.items ++ [{ item with Amount := Decimal.column req.Amount }],
              itemOwners := store.itemOwners ++ owners,
              nextItemID := store.nextItemID + 1 }
          if faults .saveBill then (store, .error "failed to update bill total")
          else
            let written :=
              created.saveBill { bill with TotalAmount := bill.TotalAmount + itemTotal }
                (store.preloadItems bill.ID)
            let final := if faults .commit then store else written
            (final, .ok (if faults .reload then item else final.reloadItem item))

/-- The method `BillService.UpdateBillItem`. The error of the deletion of the
old owner rows is not looked at: when it fails, the next call of the
transaction fails. The error of `Commit` is not looked at either: a failed
commit installs nothing. The item returned is the row read back after the
commit: the row as it was before the call when the commit has failed. -/
def UpdateBillItem (faults : Faults) (store : Store) (billID itemID userID : ℕ)
    (req : CreateBillItemRequest) : Store × Except String ItemRow :=
  match GetBillByID faults store billID userID with
  | .error e => (store, .error e)
  | .ok bill =>
    if bill.Status ≠ "pending" then
      (store, .error "cannot update items in finalized or settled bill")
    else if bill.PaidByID ≠ userID ∧ ¬ IsUserAdmin store bill.GroupID userID then
      (store, .error "only bill creator or group admin can update items")
    else
      match (if faults .loadItem then none else store.firstItem itemID billID) with
      | none => (store, .error "item not found")
      | some item =>
        let oldTotal := item.Amount * (item.Quantity : ℚ)
        let newTotal := req.Amount * (req.Quantity : ℚ)
        let difference := newTotal - oldTotal
        let updated : ItemRow :=
          { item with Name := req.Name, Description := req.Description,
                      Amount := req.Amount, Quantity := req.Quantity,
                      IsShared := req.IsShared }
        if faults .saveItem then (store, .error "failed to update item")
        else
          let keptOwners := store.itemOwners.filter (fun o => decide (o.ItemID ≠ item.ID))
          match ownerRows faults store bill.GroupID item.ID 0 req.IsShared req.OwnerIDs with
          | .error e => (store, .error e)
          | .ok owners =>
            let changed : Store :=
              { store with
                items := store.items.map
                  (fun i => if i.ID = item.ID then
                    { updated with Amount := Decimal.column req.Amount } else i),
                itemOwners := keptOwners ++ owners }
            if faults .saveBill then (store, .error "failed to update bill total")
            else
              let written :=
                changed.saveBill { bill with TotalAmount := bill.TotalAmount + difference }
                  (store.preloadItems bill.ID)
              let final := if faults .commit then store else written
              (final, .ok (if faults .reload then updated else final.reloadItem updated))

/-- The method `BillService.DeleteBillItem`. The error of the deletion of the
owner rows is not looked at: when it fails, the deletion of the item, which
follows it in the transaction, fails. The error of `Commit` is not looked at
either: a failed commit installs nothing. The bill that is saved at the end
still holds the item among its preloaded items. -/
def DeleteBillItem (faults : Faults) (store : Store) (billID itemID userID : ℕ) :
    Store × Except String Unit :=
  match GetBillByID faults store billID userID with
  | .error e => (store, .error e)
  | .ok bill =>
    if bill.Status ≠ "pending" then
      (store, .error "cannot delete items from finalized or settled bill")
    else if bill.PaidByID ≠ userID ∧ ¬ IsUserAdmin store bill.GroupID userID then
      (store, .error "only bill creator or group admin can delete items")
    else
      match (if faults .loadItem then none else store.firstItem itemID billID) with
      | none => (store, .error "item not found")
      | some item =>
        let keptOwners := store.itemOwners.filter (fun o => decide (o.ItemID ≠ itemID))
        if faults .deleteItem then (store, .error "failed to delete item")
        else
          let itemTotal := item.Amount * (item.Quantity : ℚ)
          let changed : Store :=
            { store with
              items := store.items.filter (fun i => decide (i.ID ≠ item.ID)),
              itemOwners := keptOwners }
          if faults .saveBill then (store, .error "failed to update bill total")
          else
            let written :=
              changed.saveBill { bill with TotalAmount := bill.TotalAmount - itemTotal }
                (store.preloadItems bill.ID)
            (if faults .commit then store else written, .ok ())

/-- The method `BillService.FinalizeBill`. -/
def FinalizeBill (faults : Faults) (store : Store) (billID userID : ℕ) :
    Store × Except String Unit :=
  match GetBillByID faults store billID userID with
  | .error e => (store, .error e)
  | .ok bill =>
    if bill.PaidByID ≠ userID ∧ ¬ IsUserAdmin store bill.GroupID userID then
      (store, .error "only bill creator or group admin can finalize the bill")
    else if (store.preloadItems bill.ID).length = 0 then
      (store, .error "cannot finalize bill without items")
    else if faults .saveBill then (store, .error "failed to finalize bill")
    else (store.saveBill { bill with Status := "finalized" } (store.preloadItems bill.ID), .ok ())

/-! ## Settlement service -/

/-- The struct `CalculateSettlementRequest`. -/
structure CalculateSettlementRequest where
  GroupID : ℕ
  BillIDs : List ℕ
  deriving DecidableEq, Repr

/-- A bill with `Items.Owners` preloaded. -/
def Store.loadBill (store : Store) (row : BillRow) : Bill :=
  { ID := row.ID, GroupID := row.GroupID, TotalAmount := row.TotalAmount,
    PaidByID := row.PaidByID,
    Items := (store.itemsOf row.ID).map (fun i =>
      { Amount := i.Amount, Quantity := i.Quantity, IsShared := i.IsShared,
        Owners := store.ownersOf i.ID }) }

/-- The query of `CalculateSettlement`,
`Where("id IN ? AND group_id = ?", req.BillIDs, req.GroupID)`, on the bills
that are not soft-deleted. -/
def Store.findBills (store : Store) (req : CalculateSettlementRequest) : List BillRow :=
  store.bills.filter
    (fun b => decide (b.ID ∈ req.BillIDs ∧ b.GroupID = req.GroupID ∧ b.Deleted = false))

/-- The method `SettlementService.CalculateSettlement`. The outer `none` is
the matching loop running out of fuel. -/
def CalculateSettlement (faults : Faults)
    (rangeOrder : GoMap UserBalance → GoMap UserBalance) (store : Store) (userID : ℕ)
    (req : CalculateSettlementRequest) : Option (Except String SettlementResult) :=
  if ¬ IsUserMember store req.GroupID userID then
    some (.error "user is not a member of this group")
  else if faults .fetchBills then
    some (.error "failed to fetch bills")
  else
    let bills := store.findBills req
    if bills.length = 0 then
      some (.error "no bills found")
    else
      match bills.find? (fun bill => decide (bill.GroupID ≠ req.GroupID)) with
      | some bill =>
        some (.error ("bill " ++ toString bill.ID ++ " does not belong to group "
          ++ toString req.GroupID))
      | none =>
        match GetGroupMembers faults store req.GroupID userID with
        | .error e => some (.error ("failed to get group members: " ++ e))
        | .ok members =>
          (computeSettlement rangeOrder req.GroupID members (bills.map store.loadBill)).map
            Except.ok

/-- The method `SettlementService.CreateSettlement`. The amount of a stored
transaction is the amount of the result as the column keeps it. -/
def CreateSettlement (faults : Faults) (store : Store) (userID : ℕ)
    (req : CalculateSettlementRequest) (result : SettlementResult) :
    Store × Except String SettlementRow :=
  let settlement : SettlementRow :=
    { ID := store.nextSettlementID, GroupID := req.GroupID, CreatedByID := userID,
      Status := "pending", SettledAt := none }
  if faults .createSettlement then
    (store, .error "failed to create settlement")
  else if (List.range req.BillIDs.length).any (fun i => faults (.linkBill i)) then
    (store, .error "failed to link bill to settlement")
  else if (List.range result.Transactions.length).any
      (fun i => faults (.createTransaction i)) then
    (store, .error "failed to create transaction")
  else if faults .commit then
    (store, .error "failed to commit transaction")
  else
    let written : Store :=
      { store with
        settlements := store.settlements ++ [settlement],
        settlementBills := store.settlementBills ++
          req.BillIDs.map (fun billID => { SettlementID := settlement.ID, BillID := billID }),
        settlementTransactions := store.settlementTransactions ++
          result.Transactions.map (fun trans =>
            { SettlementID := settlement.ID, FromUserID := trans.FromUserID,
              ToUserID := trans.ToUserID, Amount := Decimal.column trans.Amount,
              Status := "pending" }),
        nextSettlementID := store.nextSettlementID + 1 }
    if faults .reload then
      (written, .error "failed to load settlement data")
    else
      (written, .ok settlement)

/-- The query `First(&settlement, settlementID)`. -/
def Store.firstSettlement (store : Store) (settlementID : ℕ) : Option SettlementRow :=
  store.settlements.find? (fun s => decide (s.ID = settlementID))

/-- The query `Where("settlement_id = ?", settlementID).Pluck("bill_id", &billIDs)`. -/
def Store.linkedBillIDs (store : Store) (settlementID : ℕ) : List ℕ :=
  (store.settlementBills.filter
    (fun l => decide (l.SettlementID = settlementID))).map SettlementBillRow.BillID

/-- The bills of a settlement as `Preload("Bills")` loads them, by their ids:
for every link row of the settlement the bill it names, when that bill is
stored and not soft-deleted. -/
def Store.preloadBills (store : Store) (settlementID : ℕ) : List ℕ :=
  (store.linkedBillIDs settlementID).filter (fun billID => (store.firstBill billID).isSome)

/-- The call `Save(&settlement)` on a settlement with the preloaded bills
`billIDs`: the row of the settlement is overwritten, and a row of
`settlement_bills` is inserted for every preloaded bill. -/
def Store.saveSettlement (store : Store) (settlement : SettlementRow) (billIDs : List ℕ) :
    Store :=
  { store with
    settlements := store.settlements.map (fun s => if s.ID = settlement.ID then settlement else s),
    settlementBills := store.settlementBills ++
      billIDs.map (fun billID => { SettlementID := settlement.ID, BillID := billID }) }

/-- The call `Model(&models.Bill{}).Where("id IN ?", billIDs).Update("status", status)`. -/
def Store.updateBillStatus (store : Store) (billIDs : List ℕ) (status : String) : Store :=
  { store with
    bills := store.bills.map
      (fun b => if b.ID ∈ billIDs ∧ b.Deleted = false then { b with Status := status } else b) }

/-- The part of `ConfirmSettlement` that runs before the transaction is begun
(lines 341 to 354): the settlement is loaded with its bills, and the
permission of the caller and the status are checked. -/
def confirmCheck (faults : Faults) (store : Store) (settlementID userID : ℕ) :
    Except String (SettlementRow × List ℕ) :=
  match (if faults .loadSettlement then none else store.firstSettlement settlementID) with
  | none => .error "settlement not found"
  | some settlement =>
    if settlement.CreatedByID ≠ userID ∧ ¬ IsUserAdmin store settlement.GroupID userID then
      .error "only settlement creator or group admin can confirm settlement"
    else if settlement.Status ≠ "pending" then
      .error "settlement is not pending"
    else .ok (settlement, store.preloadBills settlementID)

/-- The transaction of `ConfirmSettlement` (lines 357 to 382) on the
settlement `loaded` before it; `now` is the current time. The error of
`Pluck` is not looked at: a failed `Pluck` makes the update of the bills,
which follows it in the transaction, fail. The error of `Commit` is not
looked at either: a failed commit installs nothing. -/
def confirmWrite (faults : Faults) (now : ℕ) (store : Store) (settlementID : ℕ)
    (loaded : SettlementRow × List ℕ) : Store × Except String Unit :=
  if faults .saveSettlement then
    (store, .error "failed to update settlement")
  else
    let saved := store.saveSettlement
      { loaded.1 with Status := "confirmed", SettledAt := some now } loaded.2
    let billIDs := saved.linkedBillIDs settlementID
    if faults .updateBills then
      (store, .error "failed to update bill statuses")
    else
      let updated := saved.updateBillStatus billIDs "settled"
      (if faults .commit then store else updated, .ok ())

/-- The method `SettlementService.ConfirmSettlement`; `now` is the current
time. -/
def ConfirmSettlement (faults : Faults) (now : ℕ) (store : Store)
    (settlementID userID : ℕ) : Store × Except String Unit :=
  match confirmCheck faults store settlementID userID with
  | .error e => (store, .error e)
  | .ok loaded => confirmWrite faults now store settlementID loaded

/-! ## Operations on the store -/

/-- A call of one of the bill and settlement service methods that write, with
the store calls that fail during it. -/
inductive Operation where
  | createBill (faults : Faults) (now userID : ℕ) (req : CreateBillRequest)
  | updateBill (faults : Faults) (billID userID : ℕ) (req : UpdateBillRequest)
  | deleteBill (faults : Faults) (billID userID : ℕ)
  | addBillItem (faults : Faults) (billID userID : ℕ) (req : CreateBillItemRequest)
  | updateBillItem (faults : Faults) (billID itemID userID : ℕ) (req : CreateBillItemRequest)
  | deleteBillItem (faults : Faults) (billID itemID userID : ℕ)
  | finalizeBill (faults : Faults) (billID userID : ℕ)
  | createSettlement (faults : Faults) (userID : ℕ)
      (req : CalculateSettlementRequest) (result : SettlementResult)
  | confirmSettlement (faults : Faults) (now settlementID userID : ℕ)

/-- The store after an operation. -/
def Operation.run (op : Operation) (store : Store) : Store :=
  match op with
  | .createBill faults now userID req => (CreateBill faults now store userID req).1
  | .updateBill faults billID userID req => (UpdateBill faults store billID userID req).1
  | .deleteBill faults billID userID => (DeleteBill faults store billID userID).1
  | .addBillItem faults billID userID req => (AddBillItem faults store billID userID req).1
  | .updateBillItem faults billID itemID userID req =>
    (UpdateBillItem faults store billID itemID userID req).1
  | .deleteBillItem faults billID itemID userID =>
    (DeleteBillItem faults store billID itemID userID).1
  | .finalizeBill faults billID userID => (FinalizeBill faults store billID userID).1
  | .createSettlement faults userID req result =>
    (CreateSettlement faults store userID req result).1
  | .confirmSettlement faults now settlementID userID =>
    (ConfirmSettlement faults now store settlementID userID).1

/-! ## Password validation -/

/-- A Go `string`: a sequence of bytes, of which `len` is the number. -/
abbrev GoString := List (Fin 256)

/-- The function `ValidatePassword` of `pkg/utils/password.go`; `.ok ()` is
the `nil` error. -/
def ValidatePassword (password : GoString) : Except String Unit :=
  if password.length < 6 then
    .error "password must be at least 6 characters long"
  else if password.length > 100 then
    .error "password must not exceed 100 characters"
  else .ok ()

/-! ## Vocabulary of the store properties -/

/-- The quantity `CreateBill` and `AddBillItem` store for a request item. -/
def storedQuantity (itemReq : CreateBillItemRequest) : ℤ :=
  if itemReq.Quantity = 0 then 1 else itemReq.Quantity

/-- The sum over the request items of amount x quantity, a quantity of 0
counted as 1. -/
def requestTotal (items : List CreateBillItemRequest) : Decimal :=
  (items.map (fun i => i.Amount * (storedQuantity i : ℚ))).sum

/-- Every owner named for a non-shared request item is a member of the group. -/
def ownersAreMembers (store : Store) (groupID : ℕ) (items : List CreateBillItemRequest) :
    Prop :=
  ∀ item ∈ items, item.IsShared = false →
    ∀ ownerID ∈ item.OwnerIDs, IsUserMember store groupID ownerID = true

/-- The line total of a stored item: amount x quantity. -/
def lineTotal (item : ItemRow) : Decimal := item.Amount * (item.Quantity : ℚ)

/-- The sum of the line totals of the items of a bill. -/
def Store.itemsSum (store : Store) (billID : ℕ) : Decimal :=
  ((store.itemsOf billID).map lineTotal).sum

/-- The bill total minus the sum of the line totals of its items; 0 when the
bill is not found. -/
def Store.slack (store : Store) (billID : ℕ) : Decimal :=
  match store.firstBill billID with
  | some bill => bill.TotalAmount - store.itemsSum billID
  | none => 0

/-- No user has two membership rows in one group. -/
def Store.memberKeys (store : Store) : Prop :=
  (store.members.map (fun m => (m.GroupID, m.UserID))).Nodup

/-- The row `CreateBill` and `AddBillItem` write for a request item. -/
def storedItem (billID itemID : ℕ) (itemReq : CreateBillItemRequest) : ItemRow :=
  { ID := itemID, BillID := billID, Name := itemReq.Name,
    Description := itemReq.Description, Amount := Decimal.column itemReq.Amount,
    Quantity := storedQuantity itemReq, IsShared := itemReq.IsShared }

/-- The rows written for a list of request items, with ids from `nextID` on. -/
def storedItems (billID : ℕ) : ℕ → List CreateBillItemRequest → List ItemRow
  | _, [] => []
  | nextID, itemReq :: rest =>
    storedItem billID nextID itemReq :: storedItems billID (nextID + 1) rest

/-- The row `CreateBill` writes for a request. -/
def storedBill (now : ℕ) (store : Store) (userID : ℕ) (req : CreateBillRequest) : BillRow :=
  { ID := store.nextBillID, GroupID := req.GroupID, Title := req.Title,
    Description := req.Description, TotalAmount := Decimal.column req.TotalAmount,
    PaidByID := userID, BillDate := if req.BillDate = 0 then now else req.BillDate,
    Status := "pending", Deleted := false }

/-- The row `UpdateBillItem` writes for a request item over the row `item`. -/
def updatedItem (item : ItemRow) (req : CreateBillItemRequest) : ItemRow :=
  { item with Name := req.Name, Description := req.Description,
              Amount := Decimal.column req.Amount, Quantity := req.Quantity,
              IsShared := req.IsShared }

/-- The bill ids of the store are those of a primary key with a sequence: no
two rows share an id and every id is below the next value of the sequence. -/
def Store.billKeys (store : Store) : Prop :=
  (store.bills.map BillRow.ID).Nodup ∧ ∀ b ∈ store.bills, b.ID < store.nextBillID

/-- The store after a list of operations, run one after the other. -/
def Operation.runAll : List Operation → Store → Store
  | [], store => store
  | op :: ops, store => Operation.runAll ops (op.run store)

/-- The operation is a call of `FinalizeBill`. -/
def Operation.isFinalizeBill : Operation → Bool
  | .finalizeBill _ _ _ => true
  | _ => false

/-- The operation is a call of `ConfirmSettlement`. -/
def Operation.isConfirmSettlement : Operation → Bool
  | .confirmSettlement _ _ _ _ => true
  | _ => false

/-- The operation is a call of `CreateBill`. -/
def Operation.isCreateBill : Operation → Bool
  | .createBill _ _ _ _ => true
  | _ => false

/-- The operation is a call of `ConfirmSettlement` on a settlement to which
the bill `billID` is linked. -/
def Operation.settles (op : Operation) (store : Store) (billID : ℕ) : Bool :=
  match op with
  | .confirmSettlement _ _ settlementID _ => decide (billID ∈ store.linkedBillIDs settlementID)
  | _ => false

/-- The operation is a call of `FinalizeBill` on a bill whose status is not
pending. -/
def Operation.refinalizes (op : Operation) (store : Store) : Bool :=
  match op with
  | .finalizeBill _ billID _ =>
    match store.firstBill billID with
    | some bill => decide (bill.Status ≠ "pending")
    | none => false
  | _ => false

/-- No operation of the list, run one after the other from the store, is a
call of `FinalizeBill` on a bill whose status is not pending. -/
def Operation.noneRefinalizes : List Operation → Store → Prop
  | [], _ => True
  | op :: ops, store =>
    op.refinalizes store = false ∧ Operation.noneRefinalizes ops (op.run store)

/-- Every bill of the store has one of the three statuses. -/
def Store.billStatuses (store : Store) : Prop :=
  ∀ b ∈ store.bills,
    b.Status = "pending" ∨ b.Status = "finalized" ∨ b.Status = "settled"

/-- The change an operation may make to a bill row: the id stays, and the
status stays unless the operation is `FinalizeBill` and the status goes from
pending to finalized, or the operation is `ConfirmSettlement` on a settlement
the bill is linked to, which sets settled. -/
def statusStep (op : Operation) (store : Store) (a b : BillRow) : Prop :=
  b.ID = a.ID ∧ (b.Status = a.Status ∨
    (op.isFinalizeBill = true ∧ a.Status = "pending" ∧ b.Status = "finalized") ∨
    (op.settles store a.ID = true ∧ b.Status = "settled"))

/-- The shape of the bills table after one operation: every row is kept with a
change that `statusStep` allows, or `CreateBill` has appended one pending row
with the next id of the sequence. -/
def billsStep (op : Operation) (store store' : Store) : Prop :=
  (∃ f : BillRow → BillRow, store'.bills = store.bills.map f ∧
      store'.nextBillID = store.nextBillID ∧
      ∀ a ∈ store.bills, statusStep op store a (f a)) ∨
  (op.isCreateBill = true ∧ ∃ b, store'.bills = store.bills ++ [b] ∧
      b.ID = store.nextBillID ∧ b.Status = "pending" ∧
      store'.nextBillID = store.nextBillID + 1)

/-- The only store call that fails is `call`. -/
def onlyFault (call : StoreCall) : Faults := fun c => decide (c = call)

/-- Two calls of `ConfirmSettlement` that run at the same time, each with its
own caller, time and failing store calls: both pass the part before the
transaction, on the same store, and then the transaction of the first call
runs and after it the transaction of the second. The result is the store
with the result of the first and of the second call. A call that does not
pass the checks has no transaction. -/
def confirmTwice (faults1 faults2 : Faults) (now1 now2 : ℕ) (store : Store)
    (settlementID userID1 userID2 : ℕ) :
    Store × Except String Unit × Except String Unit :=
  let checked1 := confirmCheck faults1 store settlementID userID1
  let checked2 := confirmCheck faults2 store settlementID userID2
  let first : Store × Except String Unit :=
    match checked1 with
    | .error e => (store, .error e)
    | .ok loaded => confirmWrite faults1 now1 store settlementID loaded
  let second : Store × Except String Unit :=
    match checked2 with
    | .error e => (first.1, .error e)
    | .ok loaded => confirmWrite faults2 now2 first.1 settlementID loaded
  (second.1, first.2, second.2)

/-! ## Scenarios of the store -/

/-- Two groups: group 1 with the admin Ann (1) and the members Bob (2) and
Cy (3), group 2 with the admin Dee (4). Bill 1 (finalized, 30.00 paid by Ann) and
bill 3 (pending, 12.00 paid by Bob) belong to group 1, bill 2 (finalized,
10.00 paid by Dee) to group 2; each has one shared item. -/
def storeTwoGroups : Store :=
  { users := [{ ID := 1, Name := "Ann" }, { ID := 2, Name := "Bob" },
              { ID := 3, Name := "Cy" }, { ID := 4, Name := "Dee" }],
    members := [{ GroupID := 1, UserID := 1, Role := "admin" },
                { GroupID := 1, UserID := 2, Role := "member" },
                { GroupID := 1, UserID := 3, Role := "member" },
                { GroupID := 2, UserID := 4, Role := "admin" }],
    bills := [{ ID := 1, GroupID := 1, Title := "Groceries", Description := "",
                TotalAmount := 30, PaidByID := 1, BillDate := 1,
                Status := "finalized", Deleted := false },
              { ID := 2, GroupID := 2, Title := "Fuel", Description := "",
                TotalAmount := 10, PaidByID := 4, BillDate := 2,
                Status := "finalized", Deleted := false },
              { ID := 3, GroupID := 1, Title := "Snacks", Description := "",
                TotalAmount := 12, PaidByID := 2, BillDate := 3,
                Status := "pending", Deleted := false }],
    items := [{ ID := 1, BillID := 1, Name := "food", Description := "", Amount := 30,
                Quantity := 1, IsShared := true },
              { ID := 2, BillID := 2, Name := "fuel", Description := "", Amount := 10,
                Quantity := 1, IsShared := true },
              { ID := 3, BillID := 3, Name := "crisps", Description := "", Amount := 12,
                Quantity := 1, IsShared := true }],
    itemOwners := [],
    settlements := [],
    settlementBills := [],
    settlementTransactions := [],
    nextBillID := 4,
    nextItemID := 4,
    nextSettlementID := 1,
    groups := [{ ID := 1, Name := "Flat", Description := "", CreatedByID := 1,
                 IsActive := true, Deleted := false },
               { ID := 2, Name := "Car", Description := "", CreatedByID := 4,
                 IsActive := true, Deleted := false }],
    nextGroupID := 3 }

/-- The settlement of bill 1 as `CalculateSettlement` returns it: Bob and Cy
each send 10.00 to Ann. -/
def resultBill1 : SettlementResult :=
  { GroupID := 1, BillCount := 1, TotalAmount := 30,
    Balances := [{ UserID := 1, UserName := "Ann", Paid := 30, Owes := 10, Balance := 20 },
                 { UserID := 2, UserName := "Bob", Paid := 0, Owes := 10, Balance := -10 },
                 { UserID := 3, UserName := "Cy", Paid := 0, Owes := 10, Balance := -10 }],
    Transactions := [{ FromUserID := 2, FromUserName := "Bob", ToUserID := 1,
                       ToUserName := "Ann", Amount := 10 },
                     { FromUserID := 3, FromUserName := "Cy", ToUserID := 1,
                       ToUserName := "Ann", Amount := 10 }] }

/-- The store of the two groups with settlement 1 of bill 1, created by Ann
and still pending. -/
def storePendingSettlement : Store :=
  { storeTwoGroups with
    settlements := [{ ID := 1, GroupID := 1, CreatedByID := 1, Status := "pending",
                      SettledAt := none }],
    settlementBills := [{ SettlementID := 1, BillID := 1 }],
    settlementTransactions :=
      [{ SettlementID := 1, FromUserID := 2, ToUserID := 1, Amount := 10, Status := "pending" },
       { SettlementID := 1, FromUserID := 3, ToUserID := 1, Amount := 10, Status := "pending" }],
    nextSettlementID := 2 }

/-- The settlement of bill 3 as `CalculateSettlement` returns it: Ann and Cy
each send 4.00 to Bob. -/
def resultBill3 : SettlementResult :=
  { GroupID := 1, BillCount := 1, TotalAmount := 12,
    Balances := [{ UserID := 1, UserName := "Ann", Paid := 0, Owes := 4, Balance := -4 },
                 { UserID := 2, UserName := "Bob", Paid := 12, Owes := 4, Balance := 8 },
                 { UserID := 3, UserName := "Cy", Paid := 0, Owes := 4, Balance := -4 }],
    Transactions := [{ FromUserID := 1, FromUserName := "Ann", ToUserID := 2,
                       ToUserName := "Bob", Amount := 4 },
                     { FromUserID := 3, FromUserName := "Cy", ToUserID := 2,
                       ToUserName := "Bob", Amount := 4 }] }

/-- The store of the two groups with settlement 1 of bill 1 confirmed at time 5. -/
def storeConfirmedSettlement : Store :=
  { storePendingSettlement with
    settlements := [{ ID := 1, GroupID := 1, CreatedByID := 1, Status := "confirmed",
                      SettledAt := some 5 }],
    bills := storeTwoGroups.bills.map
      (fun b => if b.ID = 1 then { b with Status := "settled" } else b) }

/-- The store of the two groups with bill 4 of group 1, pending, paid by Ann,
without items. -/
def storeEmptyBill : Store :=
  { storeTwoGroups with
    bills := storeTwoGroups.bills ++
      [{ ID := 4, GroupID := 1, Title := "Later", Description := "", TotalAmount := 0,
         PaidByID := 1, BillDate := 4, Status := "pending", Deleted := false }],
    nextBillID := 5 }

/-- A request for a bill of 10.01 in group 1 with one shared item of 10.00 x 1. -/
def unevenRequest : CreateBillRequest :=
  { GroupID := 1, Title := "Lunch", Description := "", TotalAmount := 1001 / 100,
    BillDate := 7,
    Items := [{ Name := "soup", Description := "", Amount := 10, Quantity := 1,
                IsShared := true, OwnerIDs := [] }] }

/-- A request for a bill in group 1 whose one shared item has the given amount
and quantity, the total being their product. -/
def refundRequest (amount : Decimal) (quantity : ℤ) : CreateBillRequest :=
  { GroupID := 1, Title := "Refund", Description := "", TotalAmount := amount * quantity,
    BillDate := 7,
    Items := [{ Name := "deposit", Description := "", Amount := amount, Quantity := quantity,
                IsShared := true, OwnerIDs := [] }] }

/-- A request item of -3.00 with quantity 0, shared. -/
def depositRequest : CreateBillItemRequest :=
  { Name := "deposit", Description := "", Amount := -3, Quantity := 0, IsShared := true,
    OwnerIDs := [] }

/-- The row written for `depositRequest` as item 4 of bill 4: -3.00 x 1. -/
def depositItem : ItemRow :=
  { ID := 4, BillID := 4, Name := "deposit", Description := "", Amount := -3, Quantity := 1,
    IsShared := true }

/-- A request for a bill of 10.00 in group 1 with one shared item of 10.00 x 1. -/
def evenRequest : CreateBillRequest :=
  { GroupID := 1, Title := "Lunch", Description := "", TotalAmount := 10, BillDate := 7,
    Items := [{ Name := "soup", Description := "", Amount := 10, Quantity := 1,
                IsShared := true, OwnerIDs := [] }] }

/-- The store of the two groups with bill 4 of group 1: finalized, 10.00 paid
by Ann, with one shared item of 10.00 x 1. -/
def storeThirds : Store :=
  { storeTwoGroups with
    bills := storeTwoGroups.bills ++
      [{ ID := 4, GroupID := 1, Title := "Taxi", Description := "", TotalAmount := 10,
         PaidByID := 1, BillDate := 4, Status := "finalized", Deleted := false }],
    items := storeTwoGroups.items ++
      [{ ID := 4, BillID := 4, Name := "ride", Description := "", Amount := 10,
         Quantity := 1, IsShared := true }],
    nextBillID := 5,
    nextItemID := 5 }

/-- The settlement of bill 4 as `CalculateSettlement` returns it: Bob and Cy
each send 3.3333333333333333 to Ann. -/
def resultThirds : SettlementResult :=
  { GroupID := 1, BillCount := 1, TotalAmount := 10,
    Balances := [{ UserID := 1, UserName := "Ann", Paid := 10,
                   Owes := 33333333333333333 / 10000000000000000,
                   Balance := 66666666666666667 / 10000000000000000 },
                 { UserID := 2, UserName := "Bob", Paid := 0,
                   Owes := 33333333333333333 / 10000000000000000,
                   Balance := -33333333333333333 / 10000000000000000 },
                 { UserID := 3, UserName := "Cy", Paid := 0,
                   Owes := 33333333333333333 / 10000000000000000,
                   Balance := -33333333333333333 / 10000000000000000 }],
    Transactions := [{ FromUserID := 2, FromUserName := "Bob", ToUserID := 1,
                       ToUserName := "Ann", Amount := 33333333333333333 / 10000000000000000 },
                     { FromUserID := 3, FromUserName := "Cy", ToUserID := 1,
                       ToUserName := "Ann", Amount := 33333333333333333 / 10000000000000000 }] }

end SharedCart

namespace SharedCart

/-! ## Auxiliary facts on lists -/

theorem option_any_some {α : Type} {p : α → Bool} {o : Option α} (h : o.any p = true) :
    ∃ a, o = some a ∧ p a = true := by
  cases o with
  | none => simp at h
  | some a => exact ⟨a, rfl, by simpa using h⟩

/-! ## The scenarios -/

theorem aggregate_bill1 :
    aggregate rosterABC [bill1] =
      [(1, { UserID := 1, UserName := "A", Paid := 30, Owes := 10, Balance := 20 }),
       (2, { UserID := 2, UserName := "B", Paid := 0, Owes := 10, Balance := -10 }),
       (3, { UserID := 3, UserName := "C", Paid := 0, Owes := 10, Balance := -10 })] := by
  decide!

theorem bill1_every_order :
    ∀ v ∈ (aggregate rosterABC [bill1]).permutations,
      (optimizeTransactions (v.map Prod.snd)).any
        (fun ts => decide (ts.Perm
          [{ FromUserID := 2, FromUserName := "B", ToUserID := 1, ToUserName := "A",
             Amount := 10 },
           { FromUserID := 3, FromUserName := "C", ToUserID := 1, ToUserName := "A",
             Amount := 10 }])) = true := by
  rw [aggregate_bill1]
  simp only [List.permutations, List.permutationsAux_cons, List.permutationsAux2,
    List.permutationsAux_nil, List.foldr, List.map, id, List.append, List.nil_append,
    List.cons_append]
  decide!

/-- C1: for the roster A, B, C and the single bill of 30.00 paid by A with one
shared item, whatever order the map is visited in, the settlement has
owes 10.00 for each member, balances A = +20.00, B = -10.00, C = -10.00 and
exactly the two transactions B -> A 10.00 and C -> A 10.00. -/
theorem C1_single_shared_bill (rangeOrder : GoMap UserBalance → GoMap UserBalance)
    (hrange : ∀ m, (rangeOrder m).Perm m) :
    ∃ r, computeSettlement rangeOrder 1 rosterABC [bill1] = some r ∧
      r.Balances =
        [{ UserID := 1, UserName := "A", Paid := 30, Owes := 10, Balance := 20 },
         { UserID := 2, UserName := "B", Paid := 0, Owes := 10, Balance := -10 },
         { UserID := 3, UserName := "C", Paid := 0, Owes := 10, Balance := -10 }] ∧
      r.Transactions.Perm
        [{ FromUserID := 2, FromUserName := "B", ToUserID := 1, ToUserName := "A",
           Amount := 10 },
         { FromUserID := 3, FromUserName := "C", ToUserID := 1, ToUserName := "A",
           Amount := 10 }] := by
  obtain ⟨ts, hts, hp⟩ := option_any_some
    (bill1_every_order _ (List.mem_permutations.mpr (hrange (aggregate rosterABC [bill1]))))
  refine ⟨_, by simp only [computeSettlement, hts, Option.map_some']; rfl, ?_,
    of_decide_eq_true hp⟩
  show balanceSlice (aggregate rosterABC [bill1]) = _
  decide!

/-- Witness of C1: the map visited in storage order. -/
theorem C1_single_shared_bill_witness :
    ∃ r, computeSettlement id 1 rosterABC [bill1] = some r ∧
      r.Balances =
        [{ UserID := 1, UserName := "A", Paid := 30, Owes := 10, Balance := 20 },
         { UserID := 2, UserName := "B", Paid := 0, Owes := 10, Balance := -10 },
         { UserID := 3, UserName := "C", Paid := 0, Owes := 10, Balance := -10 }] ∧
      r.Transactions.Perm
        [{ FromUserID := 2, FromUserName := "B", ToUserID := 1, ToUserName := "A",
           Amount := 10 },
         { FromUserID := 3, FromUserName := "C", ToUserID := 1, ToUserName := "A",
           Amount := 10 }] :=
  C1_single_shared_bill id (fun m => List.Perm.refl m)

theorem splitItems_bill2 : splitItems bill2.Items = (0, [(3, 20)]) := by
  decide!

theorem bill12_every_order :
    ∀ v ∈ (aggregate rosterABC [bill1, bill2]).permutations,
      (optimizeTransactions (v.map Prod.snd)).any
        (fun ts => decide (ts.length ≤ 2 ∧
          ∀ b ∈ balanceSlice (aggregate rosterABC [bill1, bill2]),
            applyTransactions ts b.UserID b.Balance = 0)) = true := by
  have hagg : aggregate rosterABC [bill1, bill2] =
      [(1, { UserID := 1, UserName := "A", Paid := 30, Owes := 10, Balance := 20 }),
       (2, { UserID := 2, UserName := "B", Paid := 20, Owes := 10, Balance := 10 }),
       (3, { UserID := 3, UserName := "C", Paid := 0, Owes := 30, Balance := -30 })] := by
    decide!
  rw [hagg]
  simp only [List.permutations, List.permutationsAux_cons, List.permutationsAux2,
    List.permutationsAux_nil, List.foldr, List.map, id, List.append, List.nil_append,
    List.cons_append]
  decide!

/-- C2: for the roster A, B, C, bill 2 (20.00 paid by B, one personal item
owned by C) adds exactly 20.00 to the owes of C and nothing to anyone else,
whatever the balances were before; and for bills 1 and 2 together, whatever
order the map is visited in, at most two transactions are emitted and
applying them brings the net balance of all three members to zero. -/
theorem C2_shared_and_personal_bill (rangeOrder : GoMap UserBalance → GoMap UserBalance)
    (hrange : ∀ m, (rangeOrder m).Perm m) :
    (∀ balances, calculateBillOwes bill2 balances rosterABC = addOwes balances 3 20) ∧
    ∃ r, computeSettlement rangeOrder 1 rosterABC [bill1, bill2] = some r ∧
      r.Balances.map UserBalance.UserID = [1, 2, 3] ∧
      r.Transactions.length ≤ 2 ∧
      ∀ b ∈ r.Balances, applyTransactions r.Transactions b.UserID b.Balance = 0 := by
  constructor
  · intro balances
    have hroster : rosterABC.length = 3 := rfl
    simp [calculateBillOwes, splitItems_bill2, hroster]
  · obtain ⟨ts, hts, hp⟩ := option_any_some
      (bill12_every_order _
        (List.mem_permutations.mpr (hrange (aggregate rosterABC [bill1, bill2]))))
    have hp2 := of_decide_eq_true hp
    refine ⟨_, by simp only [computeSettlement, hts, Option.map_some']; rfl, ?_, hp2.1, hp2.2⟩
    show (balanceSlice (aggregate rosterABC [bill1, bill2])).map UserBalance.UserID = _
    decide!

/-- Witness of C2: the map visited in storage order. -/
theorem C2_shared_and_personal_bill_witness :
    (∀ balances, calculateBillOwes bill2 balances rosterABC = addOwes balances 3 20) ∧
    ∃ r, computeSettlement id 1 rosterABC [bill1, bill2] = some r ∧
      r.Balances.map UserBalance.UserID = [1, 2, 3] ∧
      r.Transactions.length ≤ 2 ∧
      ∀ b ∈ r.Balances, applyTransactions r.Transactions b.UserID b.Balance = 0 :=
  C2_shared_and_personal_bill id (fun m => List.Perm.refl m)

/-! ## sort.Slice -/

theorem rdropWhile_append_rtakeWhile {α : Type} (p : α → Bool) (l : List α) :
    l.rdropWhile p ++ l.rtakeWhile p = l := by
  simp [List.rdropWhile, List.rtakeWhile, ← List.reverse_append,
    List.takeWhile_append_dropWhile]

theorem sortSlice_foldl_perm {α : Type} (less : α → α → Bool) (data acc : List α) :
    (data.foldl
      (fun sorted x => sorted.rdropWhile (less x) ++ x :: sorted.rtakeWhile (less x))
      acc).Perm (acc ++ data) := by
  induction data generalizing acc with
  | nil => simp
  | cons x rest ih =>
    rw [List.foldl_cons]
    refine (ih _).trans ?_
    have h1 : (acc.rdropWhile (less x) ++ x :: acc.rtakeWhile (less x)).Perm (acc ++ [x]) := by
      refine List.perm_middle.trans ?_
      rw [rdropWhile_append_rtakeWhile]
      exact (List.perm_append_singleton x acc).symm
    simpa using h1.append_right rest

theorem sortSlice_perm {α : Type} (less : α → α → Bool) (data : List α) :
    (sortSlice less data).Perm data := by
  simpa [sortSlice] using sortSlice_foldl_perm less data []

theorem insert_sorted {α β : Type} [LinearOrder β] (key : α → β) (x : α) (sorted : List α)
    (h : sorted.Pairwise (fun a b => key a ≤ key b)) :
    (sorted.rdropWhile (fun e => decide (key x < key e)) ++
      x :: sorted.rtakeWhile (fun e => decide (key x < key e))).Pairwise
      (fun a b => key a ≤ key b) := by
  have hsplit := rdropWhile_append_rtakeWhile (fun e => decide (key x < key e)) sorted
  rw [← hsplit] at h
  obtain ⟨hD, hT, hDT⟩ := List.pairwise_append.mp h
  have hxT : ∀ t ∈ sorted.rtakeWhile (fun e => decide (key x < key e)), key x ≤ key t := by
    intro t ht
    have := List.mem_rtakeWhile_imp ht
    exact le_of_lt (of_decide_eq_true this)
  have hDx : ∀ d ∈ sorted.rdropWhile (fun e => decide (key x < key e)), key d ≤ key x := by
    intro d hd
    have hne : sorted.rdropWhile (fun e => decide (key x < key e)) ≠ [] :=
      List.ne_nil_of_mem hd
    have hlast := List.rdropWhile_last_not (fun e => decide (key x < key e)) sorted hne
    have hlx : key ((sorted.rdropWhile (fun e => decide (key x < key e))).getLast hne)
        ≤ key x := by
      simpa using hlast
    have hdl : key d
        ≤ key ((sorted.rdropWhile (fun e => decide (key x < key e))).getLast hne) := by
      have hform := List.dropLast_append_getLast hne
      rw [← hform] at hd hD
      rcases List.mem_append.mp hd with hd1 | hd1
      · exact (List.pairwise_append.mp hD).2.2 d hd1 _ (List.mem_singleton_self _)
      · rw [List.mem_singleton.mp hd1]
    exact hdl.trans hlx
  refine List.pairwise_append.mpr ⟨hD, List.pairwise_cons.mpr ⟨hxT, hT⟩, ?_⟩
  intro d hd b hb
  rcases List.mem_cons.mp hb with rfl | hb
  · exact hDx d hd
  · exact hDT d hd b hb

/-- Sorting by a key with `sort.Slice` leaves the keys in ascending order. -/
theorem sortSlice_sorted {α β : Type} [LinearOrder β] (key : α → β) (data : List α) :
    (sortSlice (fun a b => decide (key a < key b)) data).Pairwise
      (fun a b => key a ≤ key b) := by
  have hgen : ∀ acc : List α, acc.Pairwise (fun a b => key a ≤ key b) →
      (data.foldl
        (fun sorted x => sorted.rdropWhile (fun e => decide (key x < key e)) ++
          x :: sorted.rtakeWhile (fun e => decide (key x < key e)))
        acc).Pairwise (fun a b => key a ≤ key b) := by
    induction data with
    | nil => intro acc h; exact h
    | cons x rest ih =>
      intro acc h
      rw [List.foldl_cons]
      exact ih _ (insert_sorted key x acc h)
  exact hgen [] List.Pairwise.nil

/-- Sorting by a key that no two elements share gives the same slice for
every order of the input. -/
theorem sortSlice_order_independent {α β : Type} [LinearOrder β] (key : α → β)
    (l l2 : List α) (hp : l.Perm l2) (hn : (l.map key).Nodup) :
    sortSlice (fun a b => decide (key a < key b)) l =
      sortSlice (fun a b => decide (key a < key b)) l2 := by
  have strict : ∀ d : List α, d.Perm l →
      (sortSlice (fun a b => decide (key a < key b)) d).Pairwise
        (fun a b => key a < key b) := by
    intro d hd
    have h1 := sortSlice_sorted key d
    have hperm := (sortSlice_perm (fun a b => decide (key a < key b)) d).trans hd
    have h2 : (sortSlice (fun a b => decide (key a < key b)) d).Pairwise
        (fun a b => key a ≠ key b) :=
      List.pairwise_map.mp ((hperm.map key).nodup_iff.mpr hn)
    exact (h1.and h2).imp (fun h => lt_of_le_of_ne h.1 h.2)
  have hanti : IsAntisymm α (fun a b => key a < key b) :=
    ⟨fun a b h1 h2 => absurd h1 (lt_asymm h2)⟩
  exact List.eq_of_perm_of_sorted
    (((sortSlice_perm _ l).trans hp).trans (sortSlice_perm _ l2).symm)
    (strict l (List.Perm.refl l)) (strict l2 hp.symm)

/-! ## The matching loop -/

theorem matchLoop_cons (fuel : ℕ) (d : balanceInfo) (ds : List balanceInfo)
    (c : balanceInfo) (cs : List balanceInfo) :
    matchLoop (fuel + 1) (d :: ds) (c :: cs) =
      (matchLoop fuel (stepDebtors d ds c) (stepCreditors d c cs)).map
        (fun rest => stepEmitted d c ++ rest) := rfl

theorem stepAmount_le_debtor (d c : balanceInfo) : stepAmount d c ≤ d.amount := by
  unfold stepAmount
  split_ifs with h
  · exact le_of_lt h
  · exact le_refl _

theorem stepAmount_le_creditor (d c : balanceInfo) : stepAmount d c ≤ c.amount := by
  unfold stepAmount
  split_ifs with h
  · exact le_refl _
  · exact not_lt.mp h

theorem stepAmount_eq (d c : balanceInfo) :
    stepAmount d c = d.amount ∨ stepAmount d c = c.amount := by
  unfold stepAmount
  split_ifs
  · exact Or.inr rfl
  · exact Or.inl rfl

theorem stepAmount_nonneg (d c : balanceInfo) (hd : 0 ≤ d.amount) (hc : 0 ≤ c.amount) :
    0 ≤ stepAmount d c := by
  unfold stepAmount
  split_ifs <;> assumption

theorem dust_pos : (0 : ℚ) < dust := by
  unfold dust
  norm_num

/-- Every round of the matching loop advances at least one of the two pointers. -/
theorem step_length (d : balanceInfo) (ds : List balanceInfo) (c : balanceInfo)
    (cs : List balanceInfo) :
    (stepDebtors d ds c).length + (stepCreditors d c cs).length ≤ ds.length + cs.length + 1 := by
  have hpos := dust_pos
  unfold stepDebtors stepCreditors
  rcases stepAmount_eq d c with h | h
  · have h0 : d.amount - stepAmount d c ≤ dust := by rw [h]; simp; exact le_of_lt hpos
    rw [if_pos h0]
    split_ifs
    · omega
    · simp only [List.length_cons]
      omega
  · have h0 : c.amount - stepAmount d c ≤ dust := by rw [h]; simp; exact le_of_lt hpos
    rw [if_pos h0]
    split_ifs
    · omega
    · simp only [List.length_cons]
      omega

/-- The matching loop returns whenever its fuel covers both slices. -/
theorem matchLoop_total (fuel : ℕ) :
    ∀ ds cs : List balanceInfo, ds.length + cs.length ≤ fuel →
      ∃ ts, matchLoop fuel ds cs = some ts := by
  induction fuel with
  | zero =>
    intro ds cs h
    cases ds with
    | nil => exact ⟨[], by simp [matchLoop]⟩
    | cons d ds => simp at h
  | succ fuel ih =>
    intro ds cs h
    cases ds with
    | nil => exact ⟨[], by simp [matchLoop]⟩
    | cons d ds =>
      cases cs with
      | nil => exact ⟨[], by simp [matchLoop]⟩
      | cons c cs =>
        have hlen := step_length d ds c cs
        simp only [List.length_cons] at h
        obtain ⟨rest, hrest⟩ := ih (stepDebtors d ds c) (stepCreditors d c cs) (by omega)
        exact ⟨stepEmitted d c ++ rest, by rw [matchLoop_cons, hrest]; rfl⟩

/-- Induction along the rounds of the matching loop. -/
theorem matchLoop_induct (P : List balanceInfo → List balanceInfo → List Transaction → Prop)
    (hleft : ∀ cs, P [] cs []) (hright : ∀ ds, P ds [] [])
    (hstep : ∀ d ds c cs rest, P (stepDebtors d ds c) (stepCreditors d c cs) rest →
      P (d :: ds) (c :: cs) (stepEmitted d c ++ rest)) (fuel : ℕ) :
    ∀ ds cs ts, matchLoop fuel ds cs = some ts → P ds cs ts := by
  induction fuel with
  | zero =>
    intro ds cs ts h
    cases ds with
    | nil => simp [matchLoop] at h; subst h; exact hleft cs
    | cons d ds =>
      cases cs with
      | nil => simp [matchLoop] at h; subst h; exact hright _
      | cons c cs => simp [matchLoop] at h
  | succ fuel ih =>
    intro ds cs ts h
    cases ds with
    | nil => simp [matchLoop] at h; subst h; exact hleft cs
    | cons d ds =>
      cases cs with
      | nil => simp [matchLoop] at h; subst h; exact hright _
      | cons c cs =>
        rw [matchLoop_cons] at h
        cases hr : matchLoop fuel (stepDebtors d ds c) (stepCreditors d c cs) with
        | none => rw [hr] at h; simp at h
        | some rest =>
          rw [hr] at h
          simp at h
          subst h
          exact hstep d ds c cs rest (ih _ _ _ hr)

@[simp] theorem amounts_nil : amounts [] = 0 := rfl

@[simp] theorem amounts_cons (x : balanceInfo) (l : List balanceInfo) :
    amounts (x :: l) = x.amount + amounts l := by
  simp [amounts]

@[simp] theorem owedBy_nil (uid : ℕ) : owedBy [] uid = 0 := rfl

theorem owedBy_cons (x : balanceInfo) (l : List balanceInfo) (uid : ℕ) :
    owedBy (x :: l) uid = (if x.userID = uid then x.amount else 0) + owedBy l uid := by
  unfold owedBy
  by_cases h : x.userID = uid <;> simp [List.filter_cons, h]

@[simp] theorem txTotal_nil : txTotal [] = 0 := rfl

theorem txTotal_append (a b : List Transaction) : txTotal (a ++ b) = txTotal a + txTotal b := by
  simp [txTotal]

theorem sentBy_append (a b : List Transaction) (uid : ℕ) :
    sentBy (a ++ b) uid = sentBy a uid + sentBy b uid := by
  simp [sentBy]

theorem receivedBy_append (a b : List Transaction) (uid : ℕ) :
    receivedBy (a ++ b) uid = receivedBy a uid + receivedBy b uid := by
  simp [receivedBy]

@[simp] theorem sentBy_nil (uid : ℕ) : sentBy [] uid = 0 := rfl

@[simp] theorem receivedBy_nil (uid : ℕ) : receivedBy [] uid = 0 := rfl

theorem txTotal_stepEmitted (d c : balanceInfo) :
    txTotal (stepEmitted d c) = if stepAmount d c > dust then stepAmount d c else 0 := by
  unfold stepEmitted
  split_ifs <;> simp [txTotal]

theorem sentBy_stepEmitted (d c : balanceInfo) (uid : ℕ) :
    sentBy (stepEmitted d c) uid =
      if stepAmount d c > dust then (if d.userID = uid then stepAmount d c else 0) else 0 := by
  unfold stepEmitted
  split_ifs <;> simp_all [sentBy, List.filter_cons]

theorem receivedBy_stepEmitted (d c : balanceInfo) (uid : ℕ) :
    receivedBy (stepEmitted d c) uid =
      if stepAmount d c > dust then (if c.userID = uid then stepAmount d c else 0) else 0 := by
  unfold stepEmitted
  split_ifs <;> simp_all [receivedBy, List.filter_cons]

theorem length_stepEmitted (d c : balanceInfo) : (stepEmitted d c).length ≤ 1 := by
  unfold stepEmitted
  split_ifs <;> simp

theorem amounts_stepDebtors (d : balanceInfo) (ds : List balanceInfo) (c : balanceInfo) :
    amounts (stepDebtors d ds c) =
      (if d.amount - stepAmount d c ≤ dust then 0 else d.amount - stepAmount d c)
        + amounts ds := by
  unfold stepDebtors
  split_ifs <;> simp

theorem amounts_stepCreditors (d c : balanceInfo) (cs : List balanceInfo) :
    amounts (stepCreditors d c cs) =
      (if c.amount - stepAmount d c ≤ dust then 0 else c.amount - stepAmount d c)
        + amounts cs := by
  unfold stepCreditors
  split_ifs <;> simp

theorem owedBy_stepDebtors (d : balanceInfo) (ds : List balanceInfo) (c : balanceInfo)
    (uid : ℕ) :
    owedBy (stepDebtors d ds c) uid =
      (if d.amount - stepAmount d c ≤ dust then 0
        else if d.userID = uid then d.amount - stepAmount d c else 0) + owedBy ds uid := by
  unfold stepDebtors
  split_ifs <;> simp_all [owedBy_cons]

theorem owedBy_stepCreditors (d c : balanceInfo) (cs : List balanceInfo) (uid : ℕ) :
    owedBy (stepCreditors d c cs) uid =
      (if c.amount - stepAmount d c ≤ dust then 0
        else if c.userID = uid then c.amount - stepAmount d c else 0) + owedBy cs uid := by
  unfold stepCreditors
  split_ifs <;> simp_all [owedBy_cons]

theorem length_stepDebtors (d : balanceInfo) (ds : List balanceInfo) (c : balanceInfo) :
    ((stepDebtors d ds c).length : ℚ) =
      (if d.amount - stepAmount d c ≤ dust then 0 else 1) + ds.length := by
  unfold stepDebtors
  split_ifs <;> simp [add_comm]

theorem length_stepCreditors (d c : balanceInfo) (cs : List balanceInfo) :
    ((stepCreditors d c cs).length : ℚ) =
      (if c.amount - stepAmount d c ≤ dust then 0 else 1) + cs.length := by
  unfold stepCreditors
  split_ifs <;> simp [add_comm]

theorem nonneg_stepDebtors (d : balanceInfo) (ds : List balanceInfo) (c : balanceInfo)
    (h : ∀ x ∈ d :: ds, 0 ≤ x.amount) : ∀ x ∈ stepDebtors d ds c, 0 ≤ x.amount := by
  intro x hx
  unfold stepDebtors at hx
  split_ifs at hx
  · exact h x (List.mem_cons_of_mem _ hx)
  · rcases List.mem_cons.mp hx with rfl | hx
    · have := stepAmount_le_debtor d c
      simp only [sub_nonneg]
      exact this
    · exact h x (List.mem_cons_of_mem _ hx)

theorem nonneg_stepCreditors (d c : balanceInfo) (cs : List balanceInfo)
    (h : ∀ x ∈ c :: cs, 0 ≤ x.amount) : ∀ x ∈ stepCreditors d c cs, 0 ≤ x.amount := by
  intro x hx
  unfold stepCreditors at hx
  split_ifs at hx
  · exact h x (List.mem_cons_of_mem _ hx)
  · rcases List.mem_cons.mp hx with rfl | hx
    · have := stepAmount_le_creditor d c
      simp only [sub_nonneg]
      exact this
    · exact h x (List.mem_cons_of_mem _ hx)

/-- Number of transactions emitted by the matching loop. -/
theorem matchLoop_length (fuel : ℕ) (ds cs : List balanceInfo) (ts : List Transaction)
    (h : matchLoop fuel ds cs = some ts) :
    ts.length ≤ if ds = [] ∨ cs = [] then 0 else ds.length + cs.length - 1 := by
  refine matchLoop_induct
    (fun ds cs ts => ts.length ≤ if ds = [] ∨ cs = [] then 0 else ds.length + cs.length - 1)
    ?_ ?_ ?_ fuel ds cs ts h
  · intro cs; simp
  · intro ds; simp
  · intro d ds c cs rest ih
    have h1 := length_stepEmitted d c
    have h2 := step_length d ds c cs
    have h4 : ¬ (d :: ds = [] ∨ c :: cs = []) := by simp
    simp only [List.length_append, List.length_cons]
    rw [if_neg h4]
    split_ifs at ih with h3
    · omega
    · omega

theorem step_arith (D C t a b e n m u : ℚ) (hu : 0 < u) (hd : t ≤ D) (hc : t ≤ C)
    (he : t = D ∨ t = C)
    (ih : min ((if D - t ≤ u then 0 else D - t) + a) ((if C - t ≤ u then 0 else C - t) + b)
        - e ≤ u * (((if D - t ≤ u then 0 else 1) + n) + ((if C - t ≤ u then 0 else 1) + m))) :
    min (D + a) (C + b) - ((if t > u then t else 0) + e) ≤ u * ((n + 1) + (m + 1)) := by
  have hl := min_le_left (D + a) (C + b)
  have hr := min_le_right (D + a) (C + b)
  have h1' : D - t ≤ u ∨ C - t ≤ u := by
    rcases he with he | he
    · left; rw [he]; simp; exact le_of_lt hu
    · right; rw [he]; simp; exact le_of_lt hu
  rcases min_choice ((if D - t ≤ u then 0 else D - t) + a)
      ((if C - t ≤ u then 0 else C - t) + b) with hm | hm <;> rw [hm] at ih <;>
    by_cases h1 : D - t ≤ u <;> by_cases h2 : C - t ≤ u <;> by_cases h3 : t > u <;>
    simp only [h1, h2, h3, if_true, if_false] at ih ⊢ <;>
    simp only [not_lt, not_le] at * <;>
    rcases he with he | he <;> subst he <;> linarith

/-- Amount left unsettled by the matching loop on the side that runs out first. -/
theorem matchLoop_unsettled (fuel : ℕ) (ds cs : List balanceInfo) (ts : List Transaction)
    (h : matchLoop fuel ds cs = some ts) :
    min (amounts ds) (amounts cs) - txTotal ts ≤ dust * (ds.length + cs.length) := by
  refine matchLoop_induct
    (fun ds cs ts =>
      min (amounts ds) (amounts cs) - txTotal ts ≤ dust * (ds.length + cs.length))
    ?_ ?_ ?_ fuel ds cs ts h
  · intro cs
    have := min_le_left (amounts []) (amounts cs)
    have hpos := dust_pos
    have hlen : (0 : ℚ) ≤ (cs.length : ℚ) := Nat.cast_nonneg _
    simp only [amounts_nil, txTotal_nil, List.length_nil, Nat.cast_zero] at *
    nlinarith
  · intro ds
    have := min_le_right (amounts ds) (amounts [])
    have hpos := dust_pos
    have hlen : (0 : ℚ) ≤ (ds.length : ℚ) := Nat.cast_nonneg _
    simp only [amounts_nil, txTotal_nil, List.length_nil, Nat.cast_zero] at *
    nlinarith
  · intro d ds c cs rest ih
    rw [length_stepDebtors, length_stepCreditors, amounts_stepDebtors,
      amounts_stepCreditors] at ih
    simp only [amounts_cons, txTotal_append, txTotal_stepEmitted, List.length_cons,
      Nat.cast_add, Nat.cast_one]
    exact step_arith _ _ _ _ _ _ _ _ _ dust_pos (stepAmount_le_debtor d c)
      (stepAmount_le_creditor d c) (stepAmount_eq d c) ih

theorem owedBy_nonneg (l : List balanceInfo) (uid : ℕ) (h : ∀ x ∈ l, 0 ≤ x.amount) :
    0 ≤ owedBy l uid := by
  induction l with
  | nil => simp
  | cons x l ih =>
    rw [owedBy_cons]
    have h1 := h x (List.mem_cons_self _ _)
    have h2 := ih (fun y hy => h y (List.mem_cons_of_mem _ hy))
    split_ifs <;> linarith

theorem owedBy_le_amounts (l : List balanceInfo) (uid : ℕ) (h : ∀ x ∈ l, 0 ≤ x.amount) :
    owedBy l uid ≤ amounts l := by
  induction l with
  | nil => simp
  | cons x l ih =>
    rw [owedBy_cons, amounts_cons]
    have h1 := h x (List.mem_cons_self _ _)
    have h2 := ih (fun y hy => h y (List.mem_cons_of_mem _ hy))
    split_ifs <;> linarith

theorem member_arith (D t a o s e u : ℚ) (p : Prop) [Decidable p] (ht : 0 ≤ t) (hd : t ≤ D)
    (h0 : 0 ≤ s)
    (h1 : s ≤ (if D - t ≤ u then 0 else if p then D - t else 0) + o)
    (h2 : (if D - t ≤ u then 0 else if p then D - t else 0) + o - s ≤
      (if D - t ≤ u then 0 else D - t) + a - e) :
    0 ≤ (if t > u then (if p then t else 0) else 0) + s ∧
    (if t > u then (if p then t else 0) else 0) + s ≤ (if p then D else 0) + o ∧
    (if p then D else 0) + o - ((if t > u then (if p then t else 0) else 0) + s) ≤
      D + a - ((if t > u then t else 0) + e) := by
  by_cases c1 : D - t ≤ u <;> by_cases c2 : p <;> by_cases c3 : t > u <;>
    simp only [c1, c2, c3, if_true, if_false] at h1 h2 ⊢ <;>
    simp only [not_lt, not_le] at * <;>
    refine ⟨?_, ?_, ?_⟩ <;> linarith

/-- No debtor sends more than the matching loop holds for that user, and what a
single user still owes afterwards is part of what the debtors owe together. -/
theorem matchLoop_sent (fuel : ℕ) (ds cs : List balanceInfo) (ts : List Transaction)
    (h : matchLoop fuel ds cs = some ts)
    (hds : ∀ x ∈ ds, 0 ≤ x.amount) (hcs : ∀ y ∈ cs, 0 ≤ y.amount) (uid : ℕ) :
    0 ≤ sentBy ts uid ∧ sentBy ts uid ≤ owedBy ds uid ∧
      owedBy ds uid - sentBy ts uid ≤ amounts ds - txTotal ts := by
  refine matchLoop_induct
    (fun ds cs ts => (∀ x ∈ ds, 0 ≤ x.amount) → (∀ y ∈ cs, 0 ≤ y.amount) →
      0 ≤ sentBy ts uid ∧ sentBy ts uid ≤ owedBy ds uid ∧
        owedBy ds uid - sentBy ts uid ≤ amounts ds - txTotal ts)
    ?_ ?_ ?_ fuel ds cs ts h hds hcs
  · intro cs _ _
    simp
  · intro ds hd _
    have h1 := owedBy_nonneg ds uid hd
    have h2 := owedBy_le_amounts ds uid hd
    simp only [sentBy_nil, txTotal_nil, sub_zero]
    exact ⟨le_refl _, h1, h2⟩
  · intro d ds c cs rest ih hd hc
    have ih2 := ih (nonneg_stepDebtors d ds c hd) (nonneg_stepCreditors d c cs hc)
    rw [owedBy_stepDebtors, amounts_stepDebtors] at ih2
    simp only [sentBy_append, sentBy_stepEmitted, owedBy_cons, amounts_cons, txTotal_append,
      txTotal_stepEmitted]
    exact member_arith _ _ _ _ _ _ _ _
      (stepAmount_nonneg d c (hd d (List.mem_cons_self _ _)) (hc c (List.mem_cons_self _ _)))
      (stepAmount_le_debtor d c) ih2.1 ih2.2.1 ih2.2.2

/-- No creditor receives more than the matching loop holds for that user, and
what a single user is still due afterwards is part of what the creditors are
due together. -/
theorem matchLoop_received (fuel : ℕ) (ds cs : List balanceInfo) (ts : List Transaction)
    (h : matchLoop fuel ds cs = some ts)
    (hds : ∀ x ∈ ds, 0 ≤ x.amount) (hcs : ∀ y ∈ cs, 0 ≤ y.amount) (uid : ℕ) :
    0 ≤ receivedBy ts uid ∧ receivedBy ts uid ≤ owedBy cs uid ∧
      owedBy cs uid - receivedBy ts uid ≤ amounts cs - txTotal ts := by
  refine matchLoop_induct
    (fun ds cs ts => (∀ x ∈ ds, 0 ≤ x.amount) → (∀ y ∈ cs, 0 ≤ y.amount) →
      0 ≤ receivedBy ts uid ∧ receivedBy ts uid ≤ owedBy cs uid ∧
        owedBy cs uid - receivedBy ts uid ≤ amounts cs - txTotal ts)
    ?_ ?_ ?_ fuel ds cs ts h hds hcs
  · intro cs _ hc
    have h1 := owedBy_nonneg cs uid hc
    have h2 := owedBy_le_amounts cs uid hc
    simp only [receivedBy_nil, txTotal_nil, sub_zero]
    exact ⟨le_refl _, h1, h2⟩
  · intro ds _ _
    simp
  · intro d ds c cs rest ih hd hc
    have ih2 := ih (nonneg_stepDebtors d ds c hd) (nonneg_stepCreditors d c cs hc)
    rw [owedBy_stepCreditors, amounts_stepCreditors] at ih2
    simp only [receivedBy_append, receivedBy_stepEmitted, owedBy_cons, amounts_cons,
      txTotal_append, txTotal_stepEmitted]
    exact member_arith _ _ _ _ _ _ _ _
      (stepAmount_nonneg d c (hd d (List.mem_cons_self _ _)) (hc c (List.mem_cons_self _ _)))
      (stepAmount_le_creditor d c) ih2.1 ih2.2.1 ih2.2.2

/-! ## Creditors and debtors -/

theorem creditorsOf_cons (b : UserBalance) (v : List UserBalance) :
    creditorsOf (b :: v) =
      if b.Balance > 0 then
        { userID := b.UserID, userName := b.UserName, amount := b.Balance } :: creditorsOf v
      else creditorsOf v := by
  unfold creditorsOf
  by_cases h : b.Balance > 0 <;> simp [List.filter_cons, h]

theorem debtorsOf_cons (b : UserBalance) (v : List UserBalance) :
    debtorsOf (b :: v) =
      if b.Balance < 0 then
        { userID := b.UserID, userName := b.UserName, amount := |b.Balance| } :: debtorsOf v
      else debtorsOf v := by
  unfold debtorsOf
  by_cases h : b.Balance < 0
  · simp [List.filter_cons, h, le_of_lt h]
  · simp [List.filter_cons, h]

theorem creditorsOf_nonneg (v : List UserBalance) : ∀ x ∈ creditorsOf v, 0 ≤ x.amount := by
  intro x hx
  unfold creditorsOf at hx
  simp only [List.mem_map, List.mem_filter, decide_eq_true_eq] at hx
  obtain ⟨b, ⟨_, hb⟩, rfl⟩ := hx
  exact le_of_lt hb

theorem debtorsOf_nonneg (v : List UserBalance) : ∀ x ∈ debtorsOf v, 0 ≤ x.amount := by
  intro x hx
  unfold debtorsOf at hx
  simp only [List.mem_map, List.mem_filter] at hx
  obtain ⟨b, _, rfl⟩ := hx
  exact abs_nonneg _

theorem length_creditorsOf (v : List UserBalance) :
    (creditorsOf v).length = countCreditors v := by
  simp [creditorsOf, countCreditors]

theorem length_debtorsOf (v : List UserBalance) : (debtorsOf v).length = countDebtors v := by
  induction v with
  | nil => rfl
  | cons b v ih =>
    rw [debtorsOf_cons]
    unfold countDebtors at ih ⊢
    by_cases h : b.Balance < 0 <;> simp [List.filter_cons, h, ih]

/-- The nets add up to what the creditors are due minus what the debtors owe. -/
theorem sum_balance_split (v : List UserBalance) :
    (v.map UserBalance.Balance).sum = amounts (creditorsOf v) - amounts (debtorsOf v) := by
  induction v with
  | nil => simp [creditorsOf, debtorsOf]
  | cons b v ih =>
    rw [creditorsOf_cons, debtorsOf_cons, List.map_cons, List.sum_cons, ih]
    rcases lt_trichotomy b.Balance 0 with h | h | h
    · have h2 : ¬ b.Balance > 0 := not_lt.mpr (le_of_lt h)
      rw [if_neg h2, if_pos h, amounts_cons]
      simp only [abs_of_neg h]
      ring
    · have h2 : ¬ b.Balance > 0 := by rw [h]; exact lt_irrefl _
      have h3 : ¬ b.Balance < 0 := by rw [h]; exact lt_irrefl _
      rw [if_neg h2, if_neg h3, h]
      ring
    · have h3 : ¬ b.Balance < 0 := not_lt.mpr (le_of_lt h)
      rw [if_pos h, if_neg h3, amounts_cons]
      ring

theorem owedBy_creditorsOf_absent (v : List UserBalance) (uid : ℕ)
    (h : uid ∉ v.map UserBalance.UserID) : owedBy (creditorsOf v) uid = 0 := by
  induction v with
  | nil => simp [creditorsOf]
  | cons b v ih =>
    simp only [List.map_cons, List.mem_cons, not_or] at h
    rw [creditorsOf_cons]
    have hne : ¬ b.UserID = uid := fun e => h.1 e.symm
    split_ifs
    · rw [owedBy_cons]
      simp [hne, ih h.2]
    · exact ih h.2

theorem owedBy_debtorsOf_absent (v : List UserBalance) (uid : ℕ)
    (h : uid ∉ v.map UserBalance.UserID) : owedBy (debtorsOf v) uid = 0 := by
  induction v with
  | nil => simp [debtorsOf]
  | cons b v ih =>
    simp only [List.map_cons, List.mem_cons, not_or] at h
    rw [debtorsOf_cons]
    have hne : ¬ b.UserID = uid := fun e => h.1 e.symm
    split_ifs
    · rw [owedBy_cons]
      simp [hne, ih h.2]
    · exact ih h.2

/-- With one entry per user, what the creditor slice holds for a member is
that member's positive net. -/
theorem owedBy_creditorsOf (v : List UserBalance) (hn : (v.map UserBalance.UserID).Nodup)
    (b : UserBalance) (hb : b ∈ v) :
    owedBy (creditorsOf v) b.UserID = if b.Balance > 0 then b.Balance else 0 := by
  induction v with
  | nil => simp at hb
  | cons x v ih =>
    simp only [List.map_cons, List.nodup_cons] at hn
    rw [creditorsOf_cons]
    rcases List.mem_cons.mp hb with rfl | hb
    · have h0 := owedBy_creditorsOf_absent v b.UserID hn.1
      split_ifs
      · rw [owedBy_cons]
        simp [h0]
      · exact h0
    · have hne : ¬ x.UserID = b.UserID := by
        intro e
        exact hn.1 (e ▸ List.mem_map_of_mem _ hb)
      have key := ih hn.2 hb
      by_cases hx : x.Balance > 0
      · rw [if_pos hx, owedBy_cons, if_neg hne, zero_add]
        exact key
      · rw [if_neg hx]
        exact key

/-- With one entry per user, what the debtor slice holds for a member is the
absolute value of that member's negative net. -/
theorem owedBy_debtorsOf (v : List UserBalance) (hn : (v.map UserBalance.UserID).Nodup)
    (b : UserBalance) (hb : b ∈ v) :
    owedBy (debtorsOf v) b.UserID = if b.Balance < 0 then |b.Balance| else 0 := by
  induction v with
  | nil => simp at hb
  | cons x v ih =>
    simp only [List.map_cons, List.nodup_cons] at hn
    rw [debtorsOf_cons]
    rcases List.mem_cons.mp hb with rfl | hb
    · have h0 := owedBy_debtorsOf_absent v b.UserID hn.1
      split_ifs
      · rw [owedBy_cons]
        simp [h0]
      · exact h0
    · have hne : ¬ x.UserID = b.UserID := by
        intro e
        exact hn.1 (e ▸ List.mem_map_of_mem _ hb)
      have key := ih hn.2 hb
      by_cases hx : x.Balance < 0
      · rw [if_pos hx, owedBy_cons, if_neg hne, zero_add]
        exact key
      · rw [if_neg hx]
        exact key

theorem amounts_perm {l l2 : List balanceInfo} (h : l.Perm l2) : amounts l = amounts l2 :=
  (h.map _).sum_eq

theorem owedBy_perm {l l2 : List balanceInfo} (h : l.Perm l2) (uid : ℕ) :
    owedBy l uid = owedBy l2 uid :=
  ((h.filter _).map _).sum_eq

theorem nonneg_perm {l l2 : List balanceInfo} (h : l.Perm l2)
    (hl : ∀ x ∈ l2, 0 ≤ x.amount) : ∀ x ∈ l, 0 ≤ x.amount :=
  fun x hx => hl x (h.subset hx)

/-! ## optimizeTransactions -/

/-- The function `optimizeTransactions` returns on every input. -/
theorem optimizeTransactions_total (v : List UserBalance) :
    ∃ ts, optimizeTransactions v = some ts :=
  matchLoop_total _ _ _ (le_refl _)

/-- With one entry per user and nets adding up to zero, the transactions leave
every member within the dust tolerance times the number of debtors and
creditors. -/
theorem optimizeTransactions_residual (v : List UserBalance)
    (hn : (v.map UserBalance.UserID).Nodup) (hzero : (v.map UserBalance.Balance).sum = 0) :
    ∃ ts, optimizeTransactions v = some ts ∧
      ∀ b ∈ v, |applyTransactions ts b.UserID b.Balance|
        ≤ dust * ((countDebtors v : ℚ) + (countCreditors v : ℚ)) := by
  obtain ⟨ts, hts⟩ := optimizeTransactions_total v
  refine ⟨ts, hts, ?_⟩
  unfold optimizeTransactions at hts
  have hpd := sortSlice_perm amountGreater (debtorsOf v)
  have hpc := sortSlice_perm amountGreater (creditorsOf v)
  have hnd := nonneg_perm hpd (debtorsOf_nonneg v)
  have hnc := nonneg_perm hpc (creditorsOf_nonneg v)
  have hU := matchLoop_unsettled _ _ _ _ hts
  have hsplit := sum_balance_split v
  rw [hzero] at hsplit
  rw [amounts_perm hpd, amounts_perm hpc, hpd.length_eq, hpc.length_eq, length_debtorsOf,
    length_creditorsOf] at hU
  have heq : amounts (creditorsOf v) = amounts (debtorsOf v) := by linarith
  rw [heq, min_self] at hU
  intro b hb
  have hS := matchLoop_sent _ _ _ _ hts hnd hnc b.UserID
  have hR := matchLoop_received _ _ _ _ hts hnd hnc b.UserID
  rw [owedBy_perm hpd, amounts_perm hpd, owedBy_debtorsOf v hn b hb] at hS
  rw [owedBy_perm hpc, amounts_perm hpc, heq, owedBy_creditorsOf v hn b hb] at hR
  unfold applyTransactions
  rw [abs_le]
  rcases lt_trichotomy b.Balance 0 with h | h | h
  · have h2 : ¬ b.Balance > 0 := not_lt.mpr (le_of_lt h)
    rw [if_pos h, abs_of_neg h] at hS
    rw [if_neg h2] at hR
    constructor <;> linarith [hS.1, hS.2.1, hS.2.2, hR.1, hR.2.1]
  · have h2 : ¬ b.Balance > 0 := by rw [h]; exact lt_irrefl _
    have h3 : ¬ b.Balance < 0 := by rw [h]; exact lt_irrefl _
    rw [if_neg h3] at hS
    rw [if_neg h2] at hR
    constructor <;> linarith [hS.1, hS.2.1, hS.2.2, hR.1, hR.2.1, hR.2.2]
  · have h3 : ¬ b.Balance < 0 := not_lt.mpr (le_of_lt h)
    rw [if_neg h3] at hS
    rw [if_pos h] at hR
    constructor <;> linarith [hS.1, hS.2.1, hR.1, hR.2.1, hR.2.2]

/-! ## Go maps -/

theorem GoMap.keys_set {V : Type} (m : GoMap V) (k : ℕ) (v : V) :
    (m.set k v).map Prod.fst =
      if k ∈ m.map Prod.fst then m.map Prod.fst else m.map Prod.fst ++ [k] := by
  induction m with
  | nil => simp [GoMap.set]
  | cons e rest ih =>
    unfold GoMap.set
    by_cases h : e.1 = k
    · simp [h]
    · have h2 : ¬ k = e.1 := fun c => h c.symm
      simp only [h, if_false, List.map_cons, List.mem_cons, h2, false_or, ih]
      split_ifs <;> simp

theorem GoMap.nodup_set {V : Type} (m : GoMap V) (k : ℕ) (v : V)
    (h : (m.map Prod.fst).Nodup) : ((m.set k v).map Prod.fst).Nodup := by
  rw [GoMap.keys_set]
  split_ifs with hk
  · exact h
  · exact List.Nodup.append h (List.nodup_singleton k) (by simpa using hk)

theorem GoMap.mem_set {V : Type} (m : GoMap V) (k : ℕ) (v : V) (e : ℕ × V)
    (h : e ∈ m.set k v) : e = (k, v) ∨ e ∈ m := by
  induction m with
  | nil => simpa [GoMap.set] using h
  | cons x rest ih =>
    unfold GoMap.set at h
    split_ifs at h with hx
    · rcases List.mem_cons.mp h with h | h
      · exact Or.inl h
      · exact Or.inr (List.mem_cons_of_mem _ h)
    · rcases List.mem_cons.mp h with h | h
      · exact Or.inr (h ▸ List.mem_cons_self _ _)
      · rcases ih h with h | h
        · exact Or.inl h
        · exact Or.inr (List.mem_cons_of_mem _ h)

theorem GoMap.set_absent {V : Type} (m : GoMap V) (k : ℕ) (v : V)
    (h : k ∉ m.map Prod.fst) : m.set k v = m ++ [(k, v)] := by
  induction m with
  | nil => rfl
  | cons e rest ih =>
    simp only [List.map_cons, List.mem_cons, not_or] at h
    unfold GoMap.set
    have h2 : ¬ e.1 = k := fun c => h.1 c.symm
    simp [h2, ih h.2]

theorem GoMap.lookup_set {V : Type} (m : GoMap V) (k : ℕ) (v : V) (j : ℕ) :
    (m.set k v).lookup j = if j = k then some v else m.lookup j := by
  induction m with
  | nil =>
    simp only [GoMap.set, GoMap.lookup]
    by_cases h : j = k
    · simp [h]
    · have h2 : ¬ k = j := fun c => h c.symm
      simp [h, h2]
  | cons e rest ih =>
    unfold GoMap.set
    by_cases he : e.1 = k
    · by_cases h : j = k
      · simp [he, h, GoMap.lookup]
      · have h2 : ¬ k = j := fun c => h c.symm
        simp [he, h, h2, GoMap.lookup]
    · by_cases h : j = k
      · subst h
        simp [he, GoMap.lookup, ih]
      · simp only [he, if_false, GoMap.lookup, ih, h]

/-! ## The initial balances -/

theorem initBalances_foldl_inv (members : List GroupMember) (acc : GoMap UserBalance)
    (hk : (acc.map Prod.fst).Nodup)
    (hv : ∀ e ∈ acc, e.2.UserID = e.1 ∧ e.2.Paid = 0 ∧ e.2.Owes = 0) :
    ((members.foldl (fun bal member => bal.set member.UserID (zeroBalance member).2)
        acc).map Prod.fst).Nodup ∧
      ∀ e ∈ members.foldl (fun bal member => bal.set member.UserID (zeroBalance member).2) acc,
        e.2.UserID = e.1 ∧ e.2.Paid = 0 ∧ e.2.Owes = 0 := by
  induction members generalizing acc with
  | nil => exact ⟨hk, hv⟩
  | cons m rest ih =>
    rw [List.foldl_cons]
    refine ih _ (GoMap.nodup_set _ _ _ hk) ?_
    intro e he
    rcases GoMap.mem_set _ _ _ _ he with rfl | he
    · exact ⟨rfl, rfl, rfl⟩
    · exact hv e he

/-- The initial map holds each key once, every entry carries its key as user
id and has paid and owed nothing. -/
theorem initBalances_inv (members : List GroupMember) :
    ((initBalances members).map Prod.fst).Nodup ∧
      ∀ e ∈ initBalances members, e.2.UserID = e.1 ∧ e.2.Paid = 0 ∧ e.2.Owes = 0 :=
  initBalances_foldl_inv members [] List.nodup_nil (by simp)

theorem initBalances_foldl_nodup (members : List GroupMember) (acc : GoMap UserBalance)
    (hn : (members.map GroupMember.UserID).Nodup)
    (hd : ∀ m ∈ members, m.UserID ∉ acc.map Prod.fst) :
    members.foldl (fun bal member => bal.set member.UserID (zeroBalance member).2) acc =
      acc ++ members.map zeroBalance := by
  induction members generalizing acc with
  | nil => simp
  | cons m rest ih =>
    simp only [List.map_cons, List.nodup_cons] at hn
    rw [List.foldl_cons, GoMap.set_absent _ _ _ (hd m (List.mem_cons_self _ _))]
    rw [ih _ hn.2]
    · simp [zeroBalance]
    · intro x hx
      have h1 := hd x (List.mem_cons_of_mem _ hx)
      have h2 : x.UserID ≠ m.UserID := by
        intro e
        exact hn.1 (e ▸ List.mem_map_of_mem _ hx)
      simpa [h2] using h1

/-- For a roster without repeated user ids the initial map lists the members
in roster order. -/
theorem initBalances_nodup (members : List GroupMember)
    (hn : (members.map GroupMember.UserID).Nodup) :
    initBalances members = members.map zeroBalance := by
  have h := initBalances_foldl_nodup members [] hn (by simp)
  simpa [initBalances, zeroBalance] using h

/-! ## Balance updates as additions per key -/

@[simp] theorem keySum_nil (k : ℕ) : keySum [] k = 0 := rfl

theorem keySum_cons (e : ℕ × Decimal) (l : List (ℕ × Decimal)) (k : ℕ) :
    keySum (e :: l) k = (if e.1 = k then e.2 else 0) + keySum l k := by
  unfold keySum
  by_cases h : e.1 = k <;> simp [List.filter_cons, h]

theorem keySum_perm {l l2 : List (ℕ × Decimal)} (h : l.Perm l2) (k : ℕ) :
    keySum l k = keySum l2 k :=
  ((h.filter _).map _).sum_eq

theorem bump_zero (balances : GoMap UserBalance) :
    bump (fun _ => 0) (fun _ => 0) balances = balances := by
  simp [bump]

theorem bump_bump (p1 o1 p2 o2 : ℕ → Decimal) (balances : GoMap UserBalance) :
    bump p2 o2 (bump p1 o1 balances) =
      bump (fun k => p1 k + p2 k) (fun k => o1 k + o2 k) balances := by
  simp [bump, add_assoc]

theorem bump_congr (p1 o1 p2 o2 : ℕ → Decimal) (balances : GoMap UserBalance)
    (hp : ∀ k, p1 k = p2 k) (ho : ∀ k, o1 k = o2 k) :
    bump p1 o1 balances = bump p2 o2 balances := by
  have h1 : p1 = p2 := funext hp
  have h2 : o1 = o2 := funext ho
  rw [h1, h2]

theorem modify_paid_eq (balances : GoMap UserBalance) (k : ℕ) (a : Decimal) :
    balances.modify k (fun b => { b with Paid := b.Paid + a }) =
      bump (fun i => if i = k then a else 0) (fun _ => 0) balances := by
  unfold GoMap.modify bump
  apply List.map_congr_left
  intro e _
  by_cases h : e.1 = k <;> simp [h]

theorem addOwes_eq (balances : GoMap UserBalance) (k : ℕ) (a : Decimal) :
    addOwes balances k a = bump (fun _ => 0) (fun i => if k = i then a else 0) balances := by
  unfold addOwes GoMap.modify bump
  apply List.map_congr_left
  intro e _
  by_cases h : e.1 = k
  · simp [h]
  · have h2 : ¬ k = e.1 := fun c => h c.symm
    simp [h, h2]

theorem foldl_addOwes (l : List (ℕ × Decimal)) (balances : GoMap UserBalance) :
    l.foldl (fun bal e => addOwes bal e.1 e.2) balances =
      bump (fun _ => 0) (keySum l) balances := by
  induction l generalizing balances with
  | nil =>
    simp only [List.foldl_nil]
    exact (bump_zero balances).symm
  | cons e rest ih =>
    rw [List.foldl_cons, ih, addOwes_eq, bump_bump]
    apply bump_congr
    · intro k; simp
    · intro k; rw [keySum_cons]

/-- The loop over `personalTotals` gives the same balances for every order in
which the entries are visited. -/
theorem foldl_addOwes_order (l l2 : List (ℕ × Decimal)) (h : l.Perm l2)
    (balances : GoMap UserBalance) :
    l.foldl (fun bal e => addOwes bal e.1 e.2) balances =
      l2.foldl (fun bal e => addOwes bal e.1 e.2) balances := by
  rw [foldl_addOwes, foldl_addOwes]
  exact bump_congr _ _ _ _ balances (fun _ => rfl) (fun k => keySum_perm h k)

/-- The function `calculateBillOwes` adds `owesDelta` to the owed amount of
every entry and changes nothing else. -/
theorem calculateBillOwes_eq (bill : Bill) (balances : GoMap UserBalance)
    (members : List GroupMember) :
    calculateBillOwes bill balances members =
      bump (fun _ => 0) (owesDelta members bill) balances := by
  unfold calculateBillOwes owesDelta
  simp only
  rw [foldl_addOwes]
  split_ifs with h
  · have hm : members.foldl
        (fun bal member => addOwes bal member.UserID
          (Decimal.Div (splitItems bill.Items).1 (members.length : ℚ))) balances =
        (members.map (fun m =>
          (m.UserID, Decimal.Div (splitItems bill.Items).1 (members.length : ℚ)))).foldl
          (fun bal e => addOwes bal e.1 e.2) balances := by
      rw [List.foldl_map]
    rw [hm, foldl_addOwes, bump_bump]
    apply bump_congr
    · intro k; simp
    · intro k; rfl
  · apply bump_congr
    · intro k; rfl
    · intro k; simp

/-- One round of the loop over the bills adds `paidDelta` and `owesDelta` to
every entry and the bill total to the running total. -/
theorem billStep_eq (members : List GroupMember) (acc : GoMap UserBalance × Decimal)
    (bill : Bill) :
    billStep members acc bill =
      (bump (paidDelta bill) (owesDelta members bill) acc.1, acc.2 + bill.TotalAmount) := by
  unfold billStep
  simp only
  rw [calculateBillOwes_eq, modify_paid_eq, bump_bump]
  congr 1
  apply bump_congr
  · intro k; simp [paidDelta]
  · intro k; simp

/-- The loop over the bills adds to every entry the sums of `paidDelta` and of
`owesDelta` over the bills. -/
theorem foldl_billStep (members : List GroupMember) (bills : List Bill)
    (acc : GoMap UserBalance × Decimal) :
    bills.foldl (billStep members) acc =
      (bump (fun k => (bills.map (fun b => paidDelta b k)).sum)
          (fun k => (bills.map (fun b => owesDelta members b k)).sum) acc.1,
        acc.2 + (bills.map Bill.TotalAmount).sum) := by
  induction bills generalizing acc with
  | nil => simp [bump_zero]
  | cons b rest ih =>
    rw [List.foldl_cons, ih, billStep_eq]
    simp only [bump_bump, List.map_cons, List.sum_cons, add_assoc]

/-! ## The aggregated balances -/

/-- The aggregated map: the initial entries with the sums of `paidDelta` and
`owesDelta` over the bills, and the net set to paid minus owed. -/
theorem aggregate_eq (members : List GroupMember) (bills : List Bill) :
    aggregate members bills =
      finalBalances
        (bump (fun k => (bills.map (fun b => paidDelta b k)).sum)
          (fun k => (bills.map (fun b => owesDelta members b k)).sum)
          (initBalances members)) := by
  unfold aggregate
  rw [foldl_billStep]

theorem totalAmount_eq (members : List GroupMember) (bills : List Bill) :
    totalAmount members bills = (bills.map Bill.TotalAmount).sum := by
  unfold totalAmount
  rw [foldl_billStep]
  simp

/-- The aggregated map has one entry per user id. -/
theorem aggregate_userIDs_nodup (members : List GroupMember) (bills : List Bill) :
    (((aggregate members bills).map Prod.snd).map UserBalance.UserID).Nodup := by
  have hinv := initBalances_inv members
  have h : ((aggregate members bills).map Prod.snd).map UserBalance.UserID =
      (initBalances members).map Prod.fst := by
    rw [aggregate_eq]
    simp only [finalBalances, bump, List.map_map]
    apply List.map_congr_left
    intro e he
    exact (hinv.2 e he).1
  rw [h]
  exact hinv.1

/-- The slice of balances returned to the caller is the same for every order
in which the aggregated map is visited. -/
theorem balanceSlice_order (members : List GroupMember) (bills : List Bill)
    (visited : GoMap UserBalance) (h : visited.Perm (aggregate members bills)) :
    balanceSlice visited = balanceSlice (aggregate members bills) := by
  unfold balanceSlice
  exact sortSlice_order_independent UserBalance.UserID _ _ (h.map Prod.snd)
    (((h.map Prod.snd).map UserBalance.UserID).nodup_iff.mpr
      (aggregate_userIDs_nodup members bills))

/-! ## Claims on the transaction minimizer -/

/-- C3, as amended: for balances produced by the aggregator whose nets sum to
zero, visited in any order, applying the emitted transactions leaves every
member's net balance within 0.01 times the number of debtors and creditors
of zero. -/
theorem C3_residual_within_scaled_dust (members : List GroupMember) (bills : List Bill)
    (visited : List UserBalance)
    (hvisit : visited.Perm ((aggregate members bills).map Prod.snd))
    (hzero : (visited.map UserBalance.Balance).sum = 0) :
    ∃ ts, optimizeTransactions visited = some ts ∧
      ∀ b ∈ visited, |applyTransactions ts b.UserID b.Balance|
        ≤ dust * ((countDebtors visited : ℚ) + (countCreditors visited : ℚ)) :=
  optimizeTransactions_residual visited
    ((hvisit.map UserBalance.UserID).nodup_iff.mpr (aggregate_userIDs_nodup members bills))
    hzero

/-- Witness of C3: the scenario of bill 1, visited in storage order. -/
theorem C3_residual_within_scaled_dust_witness :
    ∃ ts, optimizeTransactions ((aggregate rosterABC [bill1]).map Prod.snd) = some ts ∧
      ∀ b ∈ (aggregate rosterABC [bill1]).map Prod.snd,
        |applyTransactions ts b.UserID b.Balance|
          ≤ dust * ((countDebtors ((aggregate rosterABC [bill1]).map Prod.snd) : ℚ)
              + (countCreditors ((aggregate rosterABC [bill1]).map Prod.snd) : ℚ)) :=
  C3_residual_within_scaled_dust rosterABC [bill1] _ (List.Perm.refl _) (by decide!)

/-- C3 fails as stated: for a roster of four members A, B, C, D and a bill of
0.02 paid by A with one shared item, every member owes 0.005, the nets
(+0.015, -0.005, -0.005, -0.005) sum to zero, every transfer of the matching
loop is below one cent and skipped, so no transaction is emitted and A stays
at +0.015, outside the 0.01 tolerance. -/
theorem C3_counterexample :
    (((aggregate rosterABCD [centsBill]).map Prod.snd).map UserBalance.Balance).sum = 0 ∧
    optimizeTransactions ((aggregate rosterABCD [centsBill]).map Prod.snd) = some [] ∧
    ∃ b ∈ (aggregate rosterABCD [centsBill]).map Prod.snd,
      b.UserID = 1 ∧ b.Balance = 15 / 1000 ∧
        ¬ |applyTransactions [] b.UserID b.Balance| ≤ dust := by
  decide!

/-- C4, as amended: the number of transactions emitted by optimizeTransactions
is at most #debtors + #creditors - 1 when there is at least one debtor and
one creditor, and zero otherwise. -/
theorem C4_transaction_count (visited : List UserBalance) :
    ∃ ts, optimizeTransactions visited = some ts ∧
      ts.length ≤
        if countDebtors visited = 0 ∨ countCreditors visited = 0 then 0
        else countDebtors visited + countCreditors visited - 1 := by
  obtain ⟨ts, hts⟩ := optimizeTransactions_total visited
  refine ⟨ts, hts, ?_⟩
  unfold optimizeTransactions at hts
  have h := matchLoop_length _ _ _ _ hts
  have hpd := sortSlice_perm amountGreater (debtorsOf visited)
  have hpc := sortSlice_perm amountGreater (creditorsOf visited)
  simp only [← List.length_eq_zero, hpd.length_eq, hpc.length_eq, length_debtorsOf,
    length_creditorsOf] at h
  exact h

/-- C4 fails as stated: for bills 1 and 2 of the scenarios there is one debtor
(C) and there are two creditors (A and B), and two transactions are emitted,
more than min(1, 2). -/
theorem C4_counterexample :
    countDebtors ((aggregate rosterABC [bill1, bill2]).map Prod.snd) = 1 ∧
    countCreditors ((aggregate rosterABC [bill1, bill2]).map Prod.snd) = 2 ∧
    ∃ ts, optimizeTransactions ((aggregate rosterABC [bill1, bill2]).map Prod.snd) = some ts ∧
      ¬ ts.length ≤ min (countDebtors ((aggregate rosterABC [bill1, bill2]).map Prod.snd))
        (countCreditors ((aggregate rosterABC [bill1, bill2]).map Prod.snd)) :=
  ⟨by decide!, by decide!,
    [{ FromUserID := 3, FromUserName := "C", ToUserID := 1, ToUserName := "A", Amount := 20 },
     { FromUserID := 3, FromUserName := "C", ToUserID := 2, ToUserName := "B", Amount := 10 }],
    by decide!, by decide!⟩

/-! ## The split of a bill in closed form -/

theorem keySum_absent (l : GoMap Decimal) (k : ℕ) (h : k ∉ l.map Prod.fst) :
    keySum l k = 0 := by
  induction l with
  | nil => rfl
  | cons e rest ih =>
    simp only [List.map_cons, List.mem_cons, not_or] at h
    have h2 : ¬ e.1 = k := fun c => h.1 c.symm
    rw [keySum_cons, if_neg h2, ih h.2, add_zero]

theorem lookup_absent (l : GoMap Decimal) (k : ℕ) (h : k ∉ l.map Prod.fst) :
    l.lookup k = none := by
  induction l with
  | nil => rfl
  | cons e rest ih =>
    simp only [List.map_cons, List.mem_cons, not_or] at h
    have h2 : ¬ e.1 = k := fun c => h.1 c.symm
    simp [GoMap.lookup, h2, ih h.2]

/-- On a map the sum of the amounts stored under a key is the value read there. -/
theorem keySum_eq_ptVal (l : GoMap Decimal) (k : ℕ) (h : (l.map Prod.fst).Nodup) :
    keySum l k = ptVal l k := by
  induction l with
  | nil => rfl
  | cons e rest ih =>
    simp only [List.map_cons, List.nodup_cons] at h
    rw [keySum_cons]
    unfold ptVal
    by_cases he : e.1 = k
    · rw [if_pos he, keySum_absent rest k (he ▸ h.1)]
      simp [GoMap.lookup, he]
    · rw [if_neg he, zero_add, ih h.2]
      simp [GoMap.lookup, he, ptVal]

theorem ptVal_addPersonal (pt : GoMap Decimal) (id : ℕ) (share : Decimal) (k : ℕ) :
    ptVal (addPersonal pt id share) k = ptVal pt k + (if id = k then share else 0) := by
  unfold ptVal addPersonal
  rw [GoMap.lookup_set]
  by_cases h : k = id
  · subst h
    simp
  · have h2 : ¬ id = k := fun c => h c.symm
    simp [h, h2]

theorem owners_foldl (owners : List User) (share : Decimal) (pt : GoMap Decimal)
    (h : (pt.map Prod.fst).Nodup) :
    ((owners.foldl (fun pt owner => addPersonal pt owner.ID share) pt).map Prod.fst).Nodup ∧
      ∀ k, ptVal (owners.foldl (fun pt owner => addPersonal pt owner.ID share) pt) k =
        ptVal pt k + (owners.map (fun o => if o.ID = k then share else 0)).sum := by
  induction owners generalizing pt with
  | nil => exact ⟨h, fun k => by simp⟩
  | cons o rest ih =>
    rw [List.foldl_cons]
    obtain ⟨h1, h2⟩ := ih (addPersonal pt o.ID share) (GoMap.nodup_set _ _ _ h)
    refine ⟨h1, fun k => ?_⟩
    rw [h2 k, ptVal_addPersonal, List.map_cons, List.sum_cons]
    ring

theorem itemStep_spec (acc : Decimal × GoMap Decimal) (item : BillItem)
    (h : (acc.2.map Prod.fst).Nodup) :
    (itemStep acc item).1 = acc.1 + (if item.IsShared then itemTotal item else 0) ∧
      (((itemStep acc item).2).map Prod.fst).Nodup ∧
      ∀ k, ptVal (itemStep acc item).2 k = ptVal acc.2 k + ownerShares item k := by
  unfold itemStep ownerShares
  by_cases hs : item.IsShared = true
  · simp [hs, h]
  · by_cases ho : item.Owners.length > 0
    · have hf := owners_foldl item.Owners
        (Decimal.Div (itemTotal item) (item.Owners.length : ℚ)) acc.2 h
      have hs2 : item.IsShared = false := by simpa using hs
      simp only [hs2, Bool.false_eq_true, ho, if_true, if_false, add_zero]
      exact ⟨trivial, hf.1, hf.2⟩
    · simp [hs, ho, h]

theorem items_foldl (items : List BillItem) (acc : Decimal × GoMap Decimal)
    (h : (acc.2.map Prod.fst).Nodup) :
    (items.foldl itemStep acc).1 = acc.1 + sharedSum items ∧
      (((items.foldl itemStep acc).2).map Prod.fst).Nodup ∧
      ∀ k, ptVal (items.foldl itemStep acc).2 k = ptVal acc.2 k + personalShare items k := by
  induction items generalizing acc with
  | nil => exact ⟨by simp [sharedSum], h, fun k => by simp [personalShare]⟩
  | cons item rest ih =>
    rw [List.foldl_cons]
    obtain ⟨s1, s2, s3⟩ := itemStep_spec acc item h
    obtain ⟨r1, r2, r3⟩ := ih (itemStep acc item) s2
    refine ⟨?_, r2, fun k => ?_⟩
    · rw [r1, s1]
      unfold sharedSum
      by_cases hs : item.IsShared = true
      · simp [List.filter_cons, hs, add_assoc]
      · simp [List.filter_cons, hs]
    · rw [r3 k, s3 k]
      simp only [personalShare, List.map_cons, List.sum_cons]
      ring

/-- The local `sharedTotal` is the sum of the line totals of the shared items. -/
theorem splitItems_shared (items : List BillItem) : (splitItems items).1 = sharedSum items := by
  have h := (items_foldl items (0, []) List.nodup_nil).1
  simpa [splitItems] using h

/-- What `personalTotals` holds for a key is the sum of the owner shares
dealt to that key. -/
theorem splitItems_personal (items : List BillItem) (k : ℕ) :
    keySum (splitItems items).2 k = personalShare items k := by
  obtain ⟨_, h2, h3⟩ := items_foldl items (0, []) List.nodup_nil
  unfold splitItems
  rw [keySum_eq_ptVal _ _ h2, h3 k]
  simp [ptVal, GoMap.lookup]

theorem sharedSum_perm {items items2 : List BillItem} (h : items.Perm items2) :
    sharedSum items = sharedSum items2 :=
  ((h.filter _).map _).sum_eq

theorem personalShare_perm {items items2 : List BillItem} (h : items.Perm items2) (k : ℕ) :
    personalShare items k = personalShare items2 k :=
  (h.map _).sum_eq

/-- The owed addition of a bill in terms of the shared sum and the owner shares. -/
theorem owesDelta_eq (members : List GroupMember) (bill : Bill) (k : ℕ) :
    owesDelta members bill k =
      (if members.length > 0 ∧ sharedSum bill.Items > 0 then
          keySum (members.map (fun m =>
            (m.UserID, Decimal.Div (sharedSum bill.Items) (members.length : ℚ)))) k
        else 0)
      + personalShare bill.Items k := by
  unfold owesDelta
  rw [splitItems_shared, splitItems_personal]

/-! ## Claims on the aggregation -/

theorem ownerShares_orphan (z : BillItem) (hs : z.IsShared = false) (ho : z.Owners = [])
    (k : ℕ) : ownerShares z k = 0 := by
  simp [ownerShares, hs, ho]

theorem owesDelta_orphans (members : List GroupMember) (bill : Bill)
    (h : ∀ item ∈ bill.Items, item.IsShared = false ∧ item.Owners = []) (k : ℕ) :
    owesDelta members bill k = 0 := by
  have h1 : sharedSum bill.Items = 0 := by
    unfold sharedSum
    have hf : bill.Items.filter (fun item => item.IsShared) = [] := by
      rw [List.filter_eq_nil_iff]
      intro item hi
      simp [(h item hi).1]
    rw [hf]
    rfl
  have h2 : personalShare bill.Items k = 0 := by
    unfold personalShare
    apply List.sum_eq_zero
    intro x hx
    obtain ⟨item, hi, rfl⟩ := List.mem_map.mp hx
    exact ownerShares_orphan item (h item hi).1 (h item hi).2 k
  rw [owesDelta_eq, h1, h2]
  simp

/-- C7: a non-shared item with no owners can be dropped from any bill without
changing what calculateBillOwes does; a bill made only of such items leaves
all owed amounts as they were; in the aggregation such a bill, processed
after any other bills, raises the paid amount and the net of its payer by
the bill total and changes no other entry; and processed alone it leaves
the payer with a net equal to the bill total and everyone else at zero. -/
theorem C7_item_without_owners (members : List GroupMember) (bills : List Bill)
    (other bill : Bill) (pre post : List BillItem) (z : BillItem)
    (balances : GoMap UserBalance)
    (hz : z.IsShared = false ∧ z.Owners = [])
    (hbill : ∀ item ∈ bill.Items, item.IsShared = false ∧ item.Owners = []) :
    calculateBillOwes { other with Items := pre ++ z :: post } balances members =
        calculateBillOwes { other with Items := pre ++ post } balances members ∧
    calculateBillOwes bill balances members = balances ∧
    aggregate members (bills ++ [bill]) =
        (aggregate members bills).map (fun e =>
          (e.1, if e.1 = bill.PaidByID then
                  { e.2 with Paid := e.2.Paid + bill.TotalAmount,
                             Balance := e.2.Balance + bill.TotalAmount }
                else e.2)) ∧
    ∀ e ∈ aggregate members [bill],
        e.2.Owes = 0 ∧ e.2.Paid = (if e.1 = bill.PaidByID then bill.TotalAmount else 0) ∧
          e.2.Balance = e.2.Paid := by
  refine ⟨?_, ?_, ?_, ?_⟩
  · rw [calculateBillOwes_eq, calculateBillOwes_eq]
    apply bump_congr
    · intro k; rfl
    · intro k
      rw [owesDelta_eq, owesDelta_eq]
      have h1 : sharedSum (pre ++ z :: post) = sharedSum (pre ++ post) := by
        simp [sharedSum, List.filter_append, List.filter_cons, hz.1]
      have h2 : personalShare (pre ++ z :: post) k = personalShare (pre ++ post) k := by
        simp [personalShare, ownerShares_orphan z hz.1 hz.2 k]
      simp only [h1, h2]
  · rw [calculateBillOwes_eq]
    rw [bump_congr _ _ (fun _ => 0) (fun _ => 0) balances (fun _ => rfl)
      (owesDelta_orphans members bill hbill)]
    exact bump_zero balances
  · rw [aggregate_eq, aggregate_eq]
    simp only [finalBalances, bump, List.map_map, List.map_append, List.sum_append,
      List.map_cons, List.map_nil, List.sum_cons, List.sum_nil,
      owesDelta_orphans members bill hbill, add_zero]
    apply List.map_congr_left
    intro e _
    by_cases hk : e.1 = bill.PaidByID
    · simp only [Function.comp, hk, paidDelta, if_true]
      congr 1
      simp only [UserBalance.mk.injEq, true_and]
      refine ⟨by ring, by ring⟩
    · simp [Function.comp, hk, paidDelta]
  · intro e he
    rw [aggregate_eq] at he
    simp only [finalBalances, bump, List.map_map, List.mem_map] at he
    obtain ⟨x, hx, rfl⟩ := he
    obtain ⟨_, hp, ho⟩ := (initBalances_inv members).2 x hx
    simp [hp, ho, owesDelta_orphans members bill hbill, paidDelta]

/-- Witness of C7: the roster A, B, C, bill 1 followed by a bill of 30.00 paid
by A whose only item has no owner. -/
theorem C7_item_without_owners_witness :
    calculateBillOwes
        { bill1 with Items := [] ++
            { Amount := 30, Quantity := 1, IsShared := false, Owners := [] } :: [] }
        [] rosterABC =
        calculateBillOwes { bill1 with Items := [] ++ [] } [] rosterABC ∧
    calculateBillOwes orphanBill [] rosterABC = [] ∧
    aggregate rosterABC ([bill1] ++ [orphanBill]) =
        (aggregate rosterABC [bill1]).map (fun e =>
          (e.1, if e.1 = orphanBill.PaidByID then
                  { e.2 with Paid := e.2.Paid + orphanBill.TotalAmount,
                             Balance := e.2.Balance + orphanBill.TotalAmount }
                else e.2)) ∧
    ∀ e ∈ aggregate rosterABC [orphanBill],
        e.2.Owes = 0 ∧
          e.2.Paid = (if e.1 = orphanBill.PaidByID then orphanBill.TotalAmount else 0) ∧
          e.2.Balance = e.2.Paid :=
  C7_item_without_owners rosterABC [bill1] bill1 orphanBill [] []
    { Amount := 30, Quantity := 1, IsShared := false, Owners := [] } []
    ⟨rfl, rfl⟩ (by decide)

theorem forall₂_sum_eq {α : Type} (R : α → α → Prop) (f : α → ℚ) (l l2 : List α)
    (h : List.Forall₂ R l l2) (hf : ∀ a b, R a b → f a = f b) :
    (l.map f).sum = (l2.map f).sum := by
  induction h with
  | nil => rfl
  | cons hab _ ih => simp [hf _ _ hab, ih]

theorem owesDelta_sameUpToItemOrder (members : List GroupMember) (b b2 : Bill)
    (h : sameUpToItemOrder b b2) (k : ℕ) :
    owesDelta members b k = owesDelta members b2 k := by
  obtain ⟨_, _, _, _, hp⟩ := h
  rw [owesDelta_eq, owesDelta_eq, sharedSum_perm hp, personalShare_perm hp]

theorem paidDelta_sameUpToItemOrder (b b2 : Bill) (h : sameUpToItemOrder b b2) (k : ℕ) :
    paidDelta b k = paidDelta b2 k := by
  obtain ⟨_, _, ht, hp, _⟩ := h
  simp [paidDelta, ht, hp]

/-- C10: permuting the list of bills and permuting the items inside the bills
changes neither the aggregated balances (paid, owes and net of every
member) nor the total amount, and for a given visiting order of the
balances map the whole settlement result is the same. -/
theorem C10_order_of_bills_and_items (members : List GroupMember)
    (bills bills2 bills3 : List Bill) (hbills : bills.Perm bills2)
    (hitems : List.Forall₂ sameUpToItemOrder bills2 bills3) :
    aggregate members bills = aggregate members bills3 ∧
    totalAmount members bills = totalAmount members bills3 ∧
    ∀ rangeOrder groupID,
      computeSettlement rangeOrder groupID members bills =
        computeSettlement rangeOrder groupID members bills3 := by
  have hagg : aggregate members bills = aggregate members bills3 := by
    rw [aggregate_eq, aggregate_eq]
    congr 1
    apply bump_congr
    · intro k
      rw [(hbills.map _).sum_eq]
      exact forall₂_sum_eq _ _ _ _ hitems (fun a b hab => paidDelta_sameUpToItemOrder a b hab k)
    · intro k
      rw [(hbills.map _).sum_eq]
      exact forall₂_sum_eq _ _ _ _ hitems
        (fun a b hab => owesDelta_sameUpToItemOrder members a b hab k)
  have htot : totalAmount members bills = totalAmount members bills3 := by
    rw [totalAmount_eq, totalAmount_eq, (hbills.map _).sum_eq]
    exact forall₂_sum_eq _ _ _ _ hitems (fun a b hab => hab.2.2.1)
  refine ⟨hagg, htot, fun rangeOrder groupID => ?_⟩
  unfold computeSettlement
  simp only [hagg, htot, hbills.length_eq, hitems.length_eq]

/-- Witness of C10: bills 1 and `mixedBill` swapped, and the two items of
`mixedBill` swapped. -/
theorem C10_order_of_bills_and_items_witness :
    aggregate rosterABC [bill1, mixedBill] = aggregate rosterABC [mixedBillSwapped, bill1] ∧
    totalAmount rosterABC [bill1, mixedBill] = totalAmount rosterABC [mixedBillSwapped, bill1] ∧
    ∀ rangeOrder groupID,
      computeSettlement rangeOrder groupID rosterABC [bill1, mixedBill] =
        computeSettlement rangeOrder groupID rosterABC [mixedBillSwapped, bill1] :=
  C10_order_of_bills_and_items rosterABC [bill1, mixedBill] [mixedBill, bill1]
    [mixedBillSwapped, bill1] (List.Perm.swap _ _ _)
    (List.Forall₂.cons ⟨rfl, rfl, rfl, rfl, List.Perm.swap _ _ _⟩
      (List.Forall₂.cons ⟨rfl, rfl, rfl, rfl, List.Perm.refl _⟩ List.Forall₂.nil))

/-! ## The reference definition -/

theorem sum_map_ite_filter {α : Type} (l : List α) (p : α → Bool) (g : α → ℚ) :
    (l.map (fun x => if p x = true then g x else 0)).sum = ((l.filter p).map g).sum := by
  induction l with
  | nil => rfl
  | cons x rest ih =>
    by_cases h : p x = true <;> simp [List.filter_cons, h, ih]

theorem sum_indicator_nodup {α : Type} (l : List α) (f : α → ℕ) (k : ℕ) (s : ℚ)
    (h : (l.map f).Nodup) :
    (l.map (fun x => if f x = k then s else 0)).sum = if k ∈ l.map f then s else 0 := by
  induction l with
  | nil => simp
  | cons x rest ih =>
    simp only [List.map_cons, List.nodup_cons] at h
    simp only [List.map_cons, List.sum_cons, List.mem_cons, ih h.2]
    by_cases hx : f x = k
    · have hk : k ∉ rest.map f := hx ▸ h.1
      simp [hx, hk]
    · have hx2 : ¬ k = f x := fun c => hx c.symm
      simp [hx, hx2]

theorem paid_sum_eq_refPaid (bills : List Bill) (k : ℕ) :
    (bills.map (fun b => paidDelta b k)).sum = refPaid bills k := by
  unfold refPaid
  rw [← sum_map_ite_filter]
  apply congrArg
  apply List.map_congr_left
  intro b _
  by_cases h : k = b.PaidByID
  · simp [paidDelta, h]
  · have h2 : ¬ b.PaidByID = k := fun c => h c.symm
    simp [paidDelta, h, h2]

theorem keySum_members (members : List GroupMember) (share : Decimal) (k : ℕ)
    (hn : (members.map GroupMember.UserID).Nodup) (hk : k ∈ members.map GroupMember.UserID) :
    keySum (members.map (fun m => (m.UserID, share))) k = share := by
  have h : keySum (members.map (fun m => (m.UserID, share))) k =
      (members.map (fun m => if m.UserID = k then share else 0)).sum := by
    induction members with
    | nil => rfl
    | cons m rest ih =>
      simp only [List.map_cons, List.nodup_cons] at hn
      rw [List.map_cons, keySum_cons]
      simp only [List.map_cons, List.sum_cons]
      by_cases hm : m.UserID = k
      · have hr : k ∉ rest.map GroupMember.UserID := hm ▸ hn.1
        have h0 : keySum (rest.map (fun m => (m.UserID, share))) k = 0 :=
          keySum_absent _ _ (by simpa [List.map_map, Function.comp] using hr)
        have h1 := sum_indicator_nodup rest GroupMember.UserID k share hn.2
        rw [h0, h1, if_neg hr]
      · have hk2 : k ∈ rest.map GroupMember.UserID := by
          rcases List.mem_cons.mp hk with h | h
          · exact absurd h.symm hm
          · exact h
        rw [ih hn.2 hk2]
  rw [h, sum_indicator_nodup members GroupMember.UserID k share hn, if_pos hk]

theorem personalShare_eq_refPersonal (bill : Bill) (k : ℕ)
    (ho : ∀ item ∈ bill.Items, (item.Owners.map User.ID).Nodup) :
    personalShare bill.Items k = refPersonal bill k := by
  unfold personalShare refPersonal
  rw [← sum_map_ite_filter]
  apply congrArg
  apply List.map_congr_left
  intro item hi
  unfold ownerShares
  rw [sum_indicator_nodup item.Owners User.ID k _ (ho item hi)]
  by_cases hs : item.IsShared = true
  · simp [hs]
  · have hs2 : item.IsShared = false := by simpa using hs
    by_cases hk : k ∈ item.Owners.map User.ID
    · have hlen : item.Owners.length > 0 := by
        cases hO : item.Owners with
        | nil => simp [hO] at hk
        | cons o os => simp
      simp [hs2, hk, hlen, refLineTotal, itemTotal]
    · simp [hs2, hk]

theorem lookup_map_nodup {V : Type} (members : List GroupMember) (g : GroupMember → V)
    (hn : (members.map GroupMember.UserID).Nodup) (m : GroupMember) (hm : m ∈ members) :
    GoMap.lookup (members.map (fun x => (x.UserID, g x))) m.UserID = some (g m) := by
  induction members with
  | nil => simp at hm
  | cons x rest ih =>
    simp only [List.map_cons, List.nodup_cons] at hn
    simp only [List.map_cons, GoMap.lookup]
    rcases List.mem_cons.mp hm with rfl | hm
    · simp
    · have hne : ¬ x.UserID = m.UserID := by
        intro e
        exact hn.1 (e ▸ List.mem_map_of_mem _ hm)
      rw [if_neg hne]
      exact ih hn.2 hm

theorem owes_sum_eq_refOwesPositive (members : List GroupMember) (bills : List Bill) (k : ℕ)
    (hroster : (members.map GroupMember.UserID).Nodup)
    (howners : ∀ bill ∈ bills, ∀ item ∈ bill.Items, (item.Owners.map User.ID).Nodup)
    (hk : k ∈ members.map GroupMember.UserID) :
    (bills.map (fun b => owesDelta members b k)).sum = refOwesPositive members bills k := by
  unfold refOwesPositive
  apply congrArg
  apply List.map_congr_left
  intro b hb
  have hlen : members.length > 0 := by
    cases hM : members with
    | nil => simp [hM] at hk
    | cons x xs => simp
  have hshared : sharedSum b.Items = refSharedTotal b := rfl
  rw [owesDelta_eq, personalShare_eq_refPersonal b k (howners b hb), hshared,
    keySum_members members _ k hroster hk]
  simp [hlen]

/-- C6, as amended: for a roster of distinct members and bills whose items
list each owner once, the entry of every member in the aggregated balances
has paid = sum of TotalAmount over the bills paid by that member, owes = sum
over the bills of (shared total / roster size, counted only when the shared
total of the bill is positive) plus the member's personal shares (line total
/ number of owners for each non-shared item owned), and net = paid - owes,
the division being the decimal division rounded to 16 fractional digits. -/
theorem C6_balances_match_reference (members : List GroupMember) (bills : List Bill)
    (hroster : (members.map GroupMember.UserID).Nodup)
    (howners : ∀ bill ∈ bills, ∀ item ∈ bill.Items, (item.Owners.map User.ID).Nodup)
    (m : GroupMember) (hm : m ∈ members) :
    (aggregate members bills).lookup m.UserID =
      some { UserID := m.UserID, UserName := m.UserName,
             Paid := refPaid bills m.UserID,
             Owes := refOwesPositive members bills m.UserID,
             Balance := refPaid bills m.UserID - refOwesPositive members bills m.UserID } := by
  have hk : m.UserID ∈ members.map GroupMember.UserID := List.mem_map_of_mem _ hm
  rw [aggregate_eq, initBalances_nodup members hroster]
  simp only [finalBalances, bump, List.map_map]
  have hlist : members.map
      ((fun e : ℕ × UserBalance => (e.1, { e.2 with Balance := e.2.Paid - e.2.Owes })) ∘
        (fun e : ℕ × UserBalance =>
          (e.1, { e.2 with
            Paid := e.2.Paid + (bills.map (fun b => paidDelta b e.1)).sum,
            Owes := e.2.Owes + (bills.map (fun b => owesDelta members b e.1)).sum })) ∘
        zeroBalance) =
      members.map (fun x => (x.UserID,
        ({ UserID := x.UserID, UserName := x.UserName,
           Paid := 0 + (bills.map (fun b => paidDelta b x.UserID)).sum,
           Owes := 0 + (bills.map (fun b => owesDelta members b x.UserID)).sum,
           Balance := 0 + (bills.map (fun b => paidDelta b x.UserID)).sum
             - (0 + (bills.map (fun b => owesDelta members b x.UserID)).sum) } :
          UserBalance))) := by
    apply List.map_congr_left
    intro x _
    rfl
  rw [hlist, lookup_map_nodup members _ hroster m hm]
  simp only [zero_add, paid_sum_eq_refPaid,
    owes_sum_eq_refOwesPositive members bills m.UserID hroster howners hk]

/-- Witness of C6: member B of the roster A, B, C with bills 1 and 2. -/
theorem C6_balances_match_reference_witness :
    (aggregate rosterABC [bill1, bill2]).lookup 2 =
      some { UserID := 2, UserName := "B",
             Paid := refPaid [bill1, bill2] 2,
             Owes := refOwesPositive rosterABC [bill1, bill2] 2,
             Balance := refPaid [bill1, bill2] 2 - refOwesPositive rosterABC [bill1, bill2] 2 } :=
  C6_balances_match_reference rosterABC [bill1, bill2] (by decide) (by decide)
    { UserID := 2, UserName := "B" } (by decide)

/-- C6 fails as stated: for the roster A, B, C and a bill of -30.00 with one
shared item of -30.00, the shared total is negative, nothing is added to
anyone's owes, and B owes 0 where the reference definition gives -10.00. -/
theorem C6_counterexample :
    (aggregate rosterABC [refundBill]).lookup 2 =
      some { UserID := 2, UserName := "B", Paid := 0, Owes := 0, Balance := 0 } ∧
    refSharedTotal refundBill = -30 ∧
    refOwes rosterABC [refundBill] 2 = -10 := by
  decide!

/-! ## Rounding of the decimal division -/

theorem roundHalfAway_error (x : ℚ) : |((Decimal.roundHalfAway x : ℤ) : ℚ) - x| ≤ 1 / 2 := by
  unfold Decimal.roundHalfAway
  rw [abs_le]
  split_ifs with h
  · have h1 := Int.floor_le (x + 1 / 2)
    have h2 := Int.lt_floor_add_one (x + 1 / 2)
    constructor <;> linarith
  · have h1 := Int.floor_le (-x + 1 / 2)
    have h2 := Int.lt_floor_add_one (-x + 1 / 2)
    push_cast
    constructor <;> linarith

/-- The decimal division is within half a unit of the sixteenth digit of the
exact quotient. -/
theorem div_error (d d2 : Decimal) : |Decimal.Div d d2 - d / d2| ≤ divisionError := by
  have h := roundHalfAway_error (d / d2 * 10 ^ Decimal.DivisionPrecision)
  have hp : (0 : ℚ) < 10 ^ Decimal.DivisionPrecision := by positivity
  have he : Decimal.Div d d2 - d / d2 =
      (((Decimal.roundHalfAway (d / d2 * 10 ^ Decimal.DivisionPrecision) : ℤ) : ℚ)
        - d / d2 * 10 ^ Decimal.DivisionPrecision) / 10 ^ Decimal.DivisionPrecision := by
    unfold Decimal.Div
    field_simp
    ring
  rw [he, abs_div, abs_of_pos hp, div_le_iff₀ hp]
  have hd : divisionError * 10 ^ Decimal.DivisionPrecision = 1 / 2 := by
    unfold divisionError Decimal.DivisionPrecision
    norm_num
  rw [hd]
  exact h

/-- Dealing a total out in `n` equal decimal shares misses the total by at most
`n` rounding errors. -/
theorem share_error (total : Decimal) (n : ℕ) (hn : 0 < n) :
    |(n : ℚ) * Decimal.Div total (n : ℚ) - total| ≤ (n : ℚ) * divisionError := by
  have hq : (0 : ℚ) < (n : ℚ) := by exact_mod_cast hn
  have he : (n : ℚ) * Decimal.Div total (n : ℚ) - total =
      (n : ℚ) * (Decimal.Div total (n : ℚ) - total / (n : ℚ)) := by
    field_simp
    ring
  rw [he, abs_mul, abs_of_pos hq]
  exact mul_le_mul_of_nonneg_left (div_error total (n : ℚ)) (le_of_lt hq)

/-! ## Sums over the roster -/

theorem sum_sum_comm {α β : Type} (l1 : List α) (l2 : List β) (f : α → β → ℚ) :
    (l1.map (fun a => (l2.map (fun b => f a b)).sum)).sum =
      (l2.map (fun b => (l1.map (fun a => f a b)).sum)).sum := by
  induction l1 with
  | nil => simp
  | cons a rest ih =>
    simp only [List.map_cons, List.sum_cons, ih, List.sum_map_add]

theorem sum_map_const_eq {α : Type} (l : List α) (c : ℚ) :
    (l.map (fun _ => c)).sum = (l.length : ℚ) * c := by
  induction l with
  | nil => simp
  | cons a rest ih =>
    simp only [List.map_cons, List.sum_cons, ih, List.length_cons]
    push_cast
    ring

/-- Over a roster of distinct members that contains all owners, the owner
shares of a non-shared item add up to one share per owner. -/
theorem roster_ownerShares (members : List GroupMember) (item : BillItem)
    (hroster : (members.map GroupMember.UserID).Nodup)
    (hin : ∀ o ∈ item.Owners, o.ID ∈ members.map GroupMember.UserID) :
    (members.map (fun m => ownerShares item m.UserID)).sum =
      if item.IsShared then 0
      else (item.Owners.length : ℚ) * Decimal.Div (itemTotal item) (item.Owners.length : ℚ) := by
  unfold ownerShares
  by_cases hs : item.IsShared = true
  · simp [hs]
  · have hs2 : item.IsShared = false := by simpa using hs
    simp only [hs2, Bool.false_eq_true, if_false]
    by_cases hlen : item.Owners.length > 0
    · simp only [hlen, if_true]
      rw [sum_sum_comm]
      have hinner : ∀ o ∈ item.Owners,
          (members.map (fun m =>
            if o.ID = m.UserID then Decimal.Div (itemTotal item) (item.Owners.length : ℚ)
            else 0)).sum = Decimal.Div (itemTotal item) (item.Owners.length : ℚ) := by
        intro o ho
        have h := sum_indicator_nodup members GroupMember.UserID o.ID
          (Decimal.Div (itemTotal item) (item.Owners.length : ℚ)) hroster
        rw [if_pos (hin o ho)] at h
        have hf : ∀ m : GroupMember,
            (if o.ID = m.UserID then Decimal.Div (itemTotal item) (item.Owners.length : ℚ)
              else 0) =
            (if m.UserID = o.ID then Decimal.Div (itemTotal item) (item.Owners.length : ℚ)
              else 0) := fun m => if_congr eq_comm rfl rfl
        simp only [hf]
        exact h
      rw [List.map_congr_left hinner, sum_map_const_eq]
    · have h0 : item.Owners.length = 0 := by omega
      simp [h0]

theorem roster_personalShare (members : List GroupMember) (items : List BillItem) :
    (members.map (fun m => personalShare items m.UserID)).sum =
      (items.map (fun item => (members.map (fun m => ownerShares item m.UserID)).sum)).sum := by
  unfold personalShare
  rw [sum_sum_comm]

/-- Over the roster the personal shares of a bill add up to the line totals of
its non-shared items, up to one rounding error per owner share. -/
theorem roster_personal_error (members : List GroupMember) (items : List BillItem)
    (hroster : (members.map GroupMember.UserID).Nodup)
    (hitems : ∀ item ∈ items, item.IsShared = false →
      item.Owners ≠ [] ∧ ∀ o ∈ item.Owners, o.ID ∈ members.map GroupMember.UserID) :
    |(members.map (fun m => personalShare items m.UserID)).sum - personalTotal items|
      ≤ (personalOwners items : ℚ) * divisionError := by
  rw [roster_personalShare]
  induction items with
  | nil => simp [personalTotal, personalOwners]
  | cons item rest ih =>
    have ih2 := ih (fun i hi => hitems i (List.mem_cons_of_mem _ hi))
    by_cases hs : item.IsShared = true
    · have hsum : (members.map (fun m => ownerShares item m.UserID)).sum = 0 := by
        apply List.sum_eq_zero
        intro x hx
        obtain ⟨m, _, rfl⟩ := List.mem_map.mp hx
        simp [ownerShares, hs]
      have hpt : personalTotal (item :: rest) = personalTotal rest := by
        simp [personalTotal, List.filter_cons, hs]
      have hpo : personalOwners (item :: rest) = personalOwners rest := by
        simp [personalOwners, List.filter_cons, hs]
      rw [List.map_cons, List.sum_cons, hsum, zero_add, hpt, hpo]
      exact ih2
    · have hs2 : item.IsShared = false := by simpa using hs
      obtain ⟨hne, hin⟩ := hitems item (List.mem_cons_self _ _) hs2
      have hlen : 0 < item.Owners.length := List.length_pos.mpr hne
      have hsum := roster_ownerShares members item hroster hin
      simp only [hs2, Bool.false_eq_true, if_false] at hsum
      have herr := share_error (itemTotal item) item.Owners.length hlen
      have hpt : personalTotal (item :: rest) = itemTotal item + personalTotal rest := by
        simp [personalTotal, List.filter_cons, hs2]
      have hpo : (personalOwners (item :: rest) : ℚ) =
          (item.Owners.length : ℚ) + (personalOwners rest : ℚ) := by
        simp [personalOwners, List.filter_cons, hs2]
      rw [List.map_cons, List.sum_cons, hsum, hpt, hpo]
      rw [abs_le] at herr ih2 ⊢
      constructor <;> nlinarith [herr.1, herr.2, ih2.1, ih2.2]

theorem itemsTotal_split (bill : Bill) :
    itemsTotal bill = sharedSum bill.Items + personalTotal bill.Items := by
  unfold itemsTotal sharedSum personalTotal
  induction bill.Items with
  | nil => simp
  | cons item rest ih =>
    by_cases hs : item.IsShared = true
    · simp [List.filter_cons, hs, ih]
      ring
    · simp [List.filter_cons, hs, ih]
      ring

/-- What a bill adds to the owed amounts of the whole roster is the sum of its
line totals, up to one rounding error per share. -/
theorem rosterOwes_error (members : List GroupMember) (bill : Bill)
    (hroster : (members.map GroupMember.UserID).Nodup) (hlen : 0 < members.length)
    (hshared : 0 ≤ sharedSum bill.Items)
    (hitems : ∀ item ∈ bill.Items, item.IsShared = false →
      item.Owners ≠ [] ∧ ∀ o ∈ item.Owners, o.ID ∈ members.map GroupMember.UserID) :
    |rosterOwes members bill - itemsTotal bill|
      ≤ (billShares members bill : ℚ) * divisionError := by
  have hpers := roster_personal_error members bill.Items hroster hitems
  have hsplit : rosterOwes members bill =
      (if sharedSum bill.Items > 0 then
        (members.length : ℚ) * Decimal.Div (sharedSum bill.Items) (members.length : ℚ) else 0)
      + (members.map (fun m => personalShare bill.Items m.UserID)).sum := by
    unfold rosterOwes
    by_cases hpos : sharedSum bill.Items > 0
    · rw [if_pos hpos, ← sum_map_const_eq members, ← List.sum_map_add]
      apply congrArg
      apply List.map_congr_left
      intro m hm
      rw [owesDelta_eq, keySum_members members _ m.UserID hroster (List.mem_map_of_mem _ hm)]
      simp [hlen, hpos]
    · rw [if_neg hpos, zero_add]
      apply congrArg
      apply List.map_congr_left
      intro m _
      rw [owesDelta_eq]
      simp [hpos]
  have herr := share_error (sharedSum bill.Items) members.length hlen
  have hcast : (billShares members bill : ℚ) =
      (members.length : ℚ) + (personalOwners bill.Items : ℚ) := by
    simp [billShares]
  have heps : (0 : ℚ) ≤ divisionError := by unfold divisionError; norm_num
  have hn : (0 : ℚ) ≤ (members.length : ℚ) := Nat.cast_nonneg _
  rw [hsplit, itemsTotal_split, hcast]
  rw [abs_le] at herr hpers ⊢
  by_cases hpos : sharedSum bill.Items > 0
  · simp only [hpos, if_true]
    constructor <;> nlinarith [herr.1, herr.2, hpers.1, hpers.2]
  · have hz : sharedSum bill.Items = 0 := le_antisymm (not_lt.mp hpos) hshared
    rw [if_neg hpos, hz]
    constructor <;> nlinarith [hpers.1, hpers.2, mul_nonneg hn heps]

theorem abs_sum_map_le {α : Type} (l : List α) (f g : α → ℚ) (h : ∀ x ∈ l, |f x| ≤ g x) :
    |(l.map f).sum| ≤ (l.map g).sum := by
  induction l with
  | nil => simp
  | cons a rest ih =>
    simp only [List.map_cons, List.sum_cons]
    have h1 := h a (List.mem_cons_self _ _)
    have h2 := ih (fun x hx => h x (List.mem_cons_of_mem _ hx))
    exact (abs_add _ _).trans (add_le_add h1 h2)

theorem shareCount_cast (members : List GroupMember) (bills : List Bill) :
    (bills.map (fun b => (billShares members b : ℚ) * divisionError)).sum =
      (shareCount members bills : ℚ) * divisionError := by
  unfold shareCount
  induction bills with
  | nil => simp
  | cons b rest ih =>
    simp only [List.map_cons, List.sum_cons, ih]
    push_cast
    ring

/-- For a roster of distinct members the paid amounts of the aggregated
balances add up to the totals of the bills paid by roster members, and the
owed amounts to what the bills add to the roster. -/
theorem aggregate_sums (members : List GroupMember) (bills : List Bill)
    (hroster : (members.map GroupMember.UserID).Nodup)
    (hpayer : ∀ bill ∈ bills, bill.PaidByID ∈ members.map GroupMember.UserID) :
    sumPaid (aggregate members bills) = (bills.map Bill.TotalAmount).sum ∧
      sumOwes (aggregate members bills) = (bills.map (rosterOwes members)).sum := by
  rw [aggregate_eq, initBalances_nodup members hroster]
  unfold sumPaid sumOwes rosterOwes
  simp only [finalBalances, bump, List.map_map]
  constructor
  · have h1 : members.map
        ((fun e : ℕ × UserBalance => e.2.Paid) ∘
          (fun e : ℕ × UserBalance => (e.1, { e.2 with Balance := e.2.Paid - e.2.Owes })) ∘
          (fun e : ℕ × UserBalance =>
            (e.1, { e.2 with
              Paid := e.2.Paid + (bills.map (fun b => paidDelta b e.1)).sum,
              Owes := e.2.Owes + (bills.map (fun b => owesDelta members b e.1)).sum })) ∘
          zeroBalance) =
        members.map (fun m => (bills.map (fun b => paidDelta b m.UserID)).sum) := by
      apply List.map_congr_left
      intro m _
      simp [zeroBalance]
    rw [h1, sum_sum_comm]
    apply congrArg
    apply List.map_congr_left
    intro b hb
    have h := sum_indicator_nodup members GroupMember.UserID b.PaidByID b.TotalAmount hroster
    rw [if_pos (hpayer b hb)] at h
    exact h
  · have h1 : members.map
        ((fun e : ℕ × UserBalance => e.2.Owes) ∘
          (fun e : ℕ × UserBalance => (e.1, { e.2 with Balance := e.2.Paid - e.2.Owes })) ∘
          (fun e : ℕ × UserBalance =>
            (e.1, { e.2 with
              Paid := e.2.Paid + (bills.map (fun b => paidDelta b e.1)).sum,
              Owes := e.2.Owes + (bills.map (fun b => owesDelta members b e.1)).sum })) ∘
          zeroBalance) =
        members.map (fun m => (bills.map (fun b => owesDelta members b m.UserID)).sum) := by
      apply List.map_congr_left
      intro m _
      simp [zeroBalance]
    rw [h1, sum_sum_comm]

theorem sum_map_sub_eq {α : Type} (l : List α) (f g : α → ℚ) :
    (l.map f).sum - (l.map g).sum = (l.map (fun x => f x - g x)).sum := by
  induction l with
  | nil => simp
  | cons a rest ih =>
    simp only [List.map_cons, List.sum_cons, ← ih]
    ring

/-- C5, as amended: for a roster of distinct members and bills in which every
payer is a roster member, every bill total equals the sum of the line totals
of its items, no bill has a negative shared total, and every non-shared item
has at least one owner and only roster members as owners, the sums of paid
and of owes over the aggregated balances differ by at most one rounding
error of the decimal division (0.5e-16) per share dealt out, hence by at most
0.01 as long as at most 2e14 shares are dealt out. -/
theorem C5_paid_equals_owes (members : List GroupMember) (bills : List Bill)
    (hroster : (members.map GroupMember.UserID).Nodup)
    (hpayer : ∀ bill ∈ bills, bill.PaidByID ∈ members.map GroupMember.UserID)
    (htotal : ∀ bill ∈ bills, bill.TotalAmount = itemsTotal bill)
    (hshared : ∀ bill ∈ bills, 0 ≤ sharedSum bill.Items)
    (hitems : ∀ bill ∈ bills, ∀ item ∈ bill.Items, item.IsShared = false →
      item.Owners ≠ [] ∧ ∀ o ∈ item.Owners, o.ID ∈ members.map GroupMember.UserID)
    (hcount : shareCount members bills ≤ 2 * 10 ^ 14) :
    |sumPaid (aggregate members bills) - sumOwes (aggregate members bills)|
        ≤ (shareCount members bills : ℚ) * divisionError ∧
    |sumPaid (aggregate members bills) - sumOwes (aggregate members bills)| ≤ dust := by
  obtain ⟨hp, ho⟩ := aggregate_sums members bills hroster hpayer
  have hbound : |sumPaid (aggregate members bills) - sumOwes (aggregate members bills)|
      ≤ (shareCount members bills : ℚ) * divisionError := by
    rw [hp, ho, sum_map_sub_eq, ← shareCount_cast]
    apply abs_sum_map_le
    intro b hb
    have hlen : 0 < members.length := by
      cases hM : members with
      | nil =>
        have := hpayer b hb
        simp [hM] at this
      | cons x xs => simp
    have h := rosterOwes_error members b hroster hlen (hshared b hb) (hitems b hb)
    rw [htotal b hb, abs_sub_comm]
    exact h
  refine ⟨hbound, hbound.trans ?_⟩
  have hc : (shareCount members bills : ℚ) ≤ 2 * 10 ^ 14 := by exact_mod_cast hcount
  unfold divisionError dust
  have h2 : (shareCount members bills : ℚ) * (1 / (2 * 10 ^ 16)) ≤
      (2 * 10 ^ 14) * (1 / (2 * 10 ^ 16)) :=
    mul_le_mul_of_nonneg_right hc (by norm_num)
  refine h2.trans ?_
  norm_num

/-- Witness of C5: the roster A, B, C with bills 1 and 2. -/
theorem C5_paid_equals_owes_witness :
    |sumPaid (aggregate rosterABC [bill1, bill2]) - sumOwes (aggregate rosterABC [bill1, bill2])|
        ≤ (shareCount rosterABC [bill1, bill2] : ℚ) * divisionError ∧
    |sumPaid (aggregate rosterABC [bill1, bill2]) - sumOwes (aggregate rosterABC [bill1, bill2])|
        ≤ dust :=
  C5_paid_equals_owes rosterABC [bill1, bill2] (by decide) (by decide) (by decide!)
    (by decide!) (by decide) (by decide!)

/-- C5 fails as stated: for the roster A, B, C and a bill of 30.00 paid by A
whose only item is personal and has no owner (so no shared item is split
otherwise than across the full roster), paid sums to 30.00 and owes to 0. -/
theorem C5_counterexample :
    sumPaid (aggregate rosterABC [orphanBill]) = 30 ∧
    sumOwes (aggregate rosterABC [orphanBill]) = 0 ∧
    ¬ |sumPaid (aggregate rosterABC [orphanBill]) - sumOwes (aggregate rosterABC [orphanBill])|
        ≤ dust := by
  decide!

/-! ## Order of the transactions -/

/-- C8 at the balances A = +20.00, B = -10.00, C = -10.00: visited in the
order A, B, C the loop emits B -> A before C -> A, visited in the order
C, A, B it emits C -> A before B -> A, although B has the smaller id. -/
theorem C8_ties_follow_visiting_order :
    optimizeTransactions
        [{ UserID := 1, UserName := "A", Paid := 30, Owes := 10, Balance := 20 },
         { UserID := 2, UserName := "B", Paid := 0, Owes := 10, Balance := -10 },
         { UserID := 3, UserName := "C", Paid := 0, Owes := 10, Balance := -10 }] =
      some
        [{ FromUserID := 2, FromUserName := "B", ToUserID := 1, ToUserName := "A",
           Amount := 10 },
         { FromUserID := 3, FromUserName := "C", ToUserID := 1, ToUserName := "A",
           Amount := 10 }] ∧
    optimizeTransactions
        [{ UserID := 3, UserName := "C", Paid := 0, Owes := 10, Balance := -10 },
         { UserID := 1, UserName := "A", Paid := 30, Owes := 10, Balance := 20 },
         { UserID := 2, UserName := "B", Paid := 0, Owes := 10, Balance := -10 }] =
      some
        [{ FromUserID := 3, FromUserName := "C", ToUserID := 1, ToUserName := "A",
           Amount := 10 },
         { FromUserID := 2, FromUserName := "B", ToUserID := 1, ToUserName := "A",
           Amount := 10 }] := by
  decide!

/-- C9 at the roster A, B, C with bill 1: two runs on the same input, one
visiting the balances map as A, B, C and one as C, A, B, return the same
balances and different transaction lists. -/
theorem C9_two_runs_differ :
    ∃ r1 r2,
      computeSettlement id 1 rosterABC [bill1] = some r1 ∧
      computeSettlement (fun m => m.rotate 2) 1 rosterABC [bill1] = some r2 ∧
      r1.Balances = r2.Balances ∧ r1.TotalAmount = r2.TotalAmount ∧
      r1.Transactions =
        [{ FromUserID := 2, FromUserName := "B", ToUserID := 1, ToUserName := "A",
           Amount := 10 },
         { FromUserID := 3, FromUserName := "C", ToUserID := 1, ToUserName := "A",
           Amount := 10 }] ∧
      r2.Transactions =
        [{ FromUserID := 3, FromUserName := "C", ToUserID := 1, ToUserName := "A",
           Amount := 10 },
         { FromUserID := 2, FromUserName := "B", ToUserID := 1, ToUserName := "A",
           Amount := 10 }] ∧
      r1.Transactions ≠ r2.Transactions :=
  ⟨{ GroupID := 1, BillCount := 1, TotalAmount := 30,
     Balances :=
       [{ UserID := 1, UserName := "A", Paid := 30, Owes := 10, Balance := 20 },
        { UserID := 2, UserName := "B", Paid := 0, Owes := 10, Balance := -10 },
        { UserID := 3, UserName := "C", Paid := 0, Owes := 10, Balance := -10 }],
     Transactions :=
       [{ FromUserID := 2, FromUserName := "B", ToUserID := 1, ToUserName := "A",
          Amount := 10 },
        { FromUserID := 3, FromUserName := "C", ToUserID := 1, ToUserName := "A",
          Amount := 10 }] },
   { GroupID := 1, BillCount := 1, TotalAmount := 30,
     Balances :=
       [{ UserID := 1, UserName := "A", Paid := 30, Owes := 10, Balance := 20 },
        { UserID := 2, UserName := "B", Paid := 0, Owes := 10, Balance := -10 },
        { UserID := 3, UserName := "C", Paid := 0, Owes := 10, Balance := -10 }],
     Transactions :=
       [{ FromUserID := 3, FromUserName := "C", ToUserID := 1, ToUserName := "A",
          Amount := 10 },
        { FromUserID := 2, FromUserName := "B", ToUserID := 1, ToUserName := "A",
          Amount := 10 }] },
   by decide!, by decide!, rfl, rfl, rfl, rfl, by decide!⟩

/-! ## The returned balances list -/

theorem aggregate_userIDs (members : List GroupMember) (bills : List Bill) :
    ((aggregate members bills).map Prod.snd).map UserBalance.UserID =
      (initBalances members).map Prod.fst := by
  have hinv := initBalances_inv members
  rw [aggregate_eq]
  simp only [finalBalances, bump, List.map_map]
  apply List.map_congr_left
  intro e he
  exact (hinv.2 e he).1

theorem initBalances_foldl_keys (members : List GroupMember) (acc : GoMap UserBalance)
    (k : ℕ) :
    k ∈ (members.foldl (fun bal member => bal.set member.UserID (zeroBalance member).2)
        acc).map Prod.fst ↔
      k ∈ acc.map Prod.fst ∨ k ∈ members.map GroupMember.UserID := by
  induction members generalizing acc with
  | nil => simp
  | cons m rest ih =>
    rw [List.foldl_cons, ih, GoMap.keys_set]
    by_cases hm : m.UserID ∈ acc.map Prod.fst
    · rw [if_pos hm]
      simp only [List.map_cons, List.mem_cons]
      constructor
      · rintro (h | h)
        · exact Or.inl h
        · exact Or.inr (Or.inr h)
      · rintro (h | h | h)
        · exact Or.inl h
        · exact Or.inl (h ▸ hm)
        · exact Or.inr h
    · rw [if_neg hm]
      simp only [List.map_cons, List.mem_cons, List.mem_append, List.mem_singleton]
      tauto

/-- The keys of the initial map are the user ids of the roster. -/
theorem initBalances_keys (members : List GroupMember) (k : ℕ) :
    k ∈ (initBalances members).map Prod.fst ↔ k ∈ members.map GroupMember.UserID := by
  have h := initBalances_foldl_keys members [] k
  simpa [initBalances, zeroBalance] using h

theorem owesDelta_untouched (members : List GroupMember) (bill : Bill) (k : ℕ)
    (h : ∀ item ∈ bill.Items, item.IsShared = false ∧ k ∉ item.Owners.map User.ID) :
    owesDelta members bill k = 0 := by
  have h1 : sharedSum bill.Items = 0 := by
    unfold sharedSum
    have hf : bill.Items.filter (fun item => item.IsShared) = [] := by
      rw [List.filter_eq_nil_iff]
      intro item hi
      simp [(h item hi).1]
    rw [hf]
    rfl
  have h2 : personalShare bill.Items k = 0 := by
    unfold personalShare
    apply List.sum_eq_zero
    intro x hx
    obtain ⟨item, hi, rfl⟩ := List.mem_map.mp hx
    unfold ownerShares
    rw [if_neg (by simp [(h item hi).1])]
    split_ifs
    · apply List.sum_eq_zero
      intro y hy
      obtain ⟨o, ho, rfl⟩ := List.mem_map.mp hy
      have hne : ¬ o.ID = k := fun e => (h item hi).2 (e ▸ List.mem_map_of_mem _ ho)
      rw [if_neg hne]
    · rfl
  rw [owesDelta_eq, h1, h2]
  simp

/-- C11: the Balances list returned by CalculateSettlement is sorted by user id
in strictly ascending order (so no user id occurs twice), its user ids are
exactly the user ids of the roster, and a member touched by no bill has
paid = owes = balance = 0. -/
theorem C11_balances_list (rangeOrder : GoMap UserBalance → GoMap UserBalance)
    (groupID : ℕ) (members : List GroupMember) (bills : List Bill) :
    ∃ r, computeSettlement rangeOrder groupID members bills = some r ∧
      (r.Balances.map UserBalance.UserID).Pairwise (fun a b => a < b) ∧
      (∀ uid, uid ∈ r.Balances.map UserBalance.UserID ↔
        uid ∈ members.map GroupMember.UserID) ∧
      ∀ b ∈ r.Balances, untouchedBy bills b.UserID →
        b.Paid = 0 ∧ b.Owes = 0 ∧ b.Balance = 0 := by
  obtain ⟨ts, hts⟩ :=
    optimizeTransactions_total ((rangeOrder (aggregate members bills)).map Prod.snd)
  have hperm := sortSlice_perm (fun a b : UserBalance => decide (a.UserID < b.UserID))
    ((aggregate members bills).map Prod.snd)
  refine ⟨_, by simp only [computeSettlement, hts, Option.map_some']; rfl, ?_, ?_, ?_⟩
  · show ((balanceSlice (aggregate members bills)).map UserBalance.UserID).Pairwise _
    unfold balanceSlice
    rw [List.pairwise_map]
    have h1 := sortSlice_sorted UserBalance.UserID ((aggregate members bills).map Prod.snd)
    have h2 : (sortSlice (fun a b : UserBalance => decide (a.UserID < b.UserID))
        ((aggregate members bills).map Prod.snd)).Pairwise
        (fun a b => a.UserID ≠ b.UserID) :=
      List.pairwise_map.mp
        ((hperm.map UserBalance.UserID).nodup_iff.mpr (aggregate_userIDs_nodup members bills))
    exact (h1.and h2).imp (fun h => lt_of_le_of_ne h.1 h.2)
  · intro uid
    show uid ∈ (balanceSlice (aggregate members bills)).map UserBalance.UserID ↔ _
    unfold balanceSlice
    rw [(hperm.map UserBalance.UserID).mem_iff, aggregate_userIDs, initBalances_keys]
  · intro b hb hun
    have hb2 : b ∈ (aggregate members bills).map Prod.snd := hperm.subset hb
    rw [aggregate_eq] at hb2
    simp only [finalBalances, bump, List.map_map, List.mem_map] at hb2
    obtain ⟨e, he, rfl⟩ := hb2
    obtain ⟨hid, hp, ho⟩ := (initBalances_inv members).2 e he
    have hun2 : untouchedBy bills e.1 := by
      simpa [Function.comp, hid] using hun
    have hpaid : (bills.map (fun b => paidDelta b e.1)).sum = 0 := by
      apply List.sum_eq_zero
      intro x hx
      obtain ⟨bill, hbill, rfl⟩ := List.mem_map.mp hx
      have hne : ¬ e.1 = bill.PaidByID := fun c => (hun2 bill hbill).1 c.symm
      simp [paidDelta, hne]
    have howes : (bills.map (fun b => owesDelta members b e.1)).sum = 0 := by
      apply List.sum_eq_zero
      intro x hx
      obtain ⟨bill, hbill, rfl⟩ := List.mem_map.mp hx
      exact owesDelta_untouched members bill e.1 (hun2 bill hbill).2
    simp [Function.comp, hp, ho, hpaid, howes]

/-! ## The emitted transactions -/

/-- The transactions returned by the matching loop are those of its rounds,
in order. -/
theorem matchLoop_rounds (fuel : ℕ) :
    ∀ ds cs ts, matchLoop fuel ds cs = some ts →
      ts = (matchRounds fuel ds cs).flatMap (fun r => stepEmitted r.1 r.2) := by
  induction fuel with
  | zero =>
    intro ds cs ts h
    cases ds with
    | nil => simp [matchLoop] at h; subst h; simp [matchRounds]
    | cons d ds =>
      cases cs with
      | nil => simp [matchLoop] at h; subst h; simp [matchRounds]
      | cons c cs => simp [matchLoop] at h
  | succ fuel ih =>
    intro ds cs ts h
    cases ds with
    | nil => simp [matchLoop] at h; subst h; simp [matchRounds]
    | cons d ds =>
      cases cs with
      | nil => simp [matchLoop] at h; subst h; simp [matchRounds]
      | cons c cs =>
        rw [matchLoop_cons] at h
        cases hr : matchLoop fuel (stepDebtors d ds c) (stepCreditors d c cs) with
        | none => rw [hr] at h; simp at h
        | some rest =>
          rw [hr] at h
          simp at h
          subst h
          rw [ih _ _ _ hr]
          simp [matchRounds, List.flatMap_cons]

theorem stepDebtors_ids (d : balanceInfo) (ds : List balanceInfo) (c : balanceInfo) (k : ℕ)
    (h : k ∈ (stepDebtors d ds c).map balanceInfo.userID) :
    k ∈ (d :: ds).map balanceInfo.userID := by
  unfold stepDebtors at h
  split_ifs at h
  · exact List.mem_cons_of_mem _ h
  · simpa using h

theorem stepCreditors_ids (d c : balanceInfo) (cs : List balanceInfo) (k : ℕ)
    (h : k ∈ (stepCreditors d c cs).map balanceInfo.userID) :
    k ∈ (c :: cs).map balanceInfo.userID := by
  unfold stepCreditors at h
  split_ifs at h
  · exact List.mem_cons_of_mem _ h
  · simpa using h

/-- The heads of every round carry user ids of the slices the loop started from. -/
theorem matchRounds_ids (fuel : ℕ) :
    ∀ ds cs, ∀ r ∈ matchRounds fuel ds cs,
      r.1.userID ∈ ds.map balanceInfo.userID ∧ r.2.userID ∈ cs.map balanceInfo.userID := by
  induction fuel with
  | zero =>
    intro ds cs r hr
    cases ds with
    | nil => simp [matchRounds] at hr
    | cons d ds =>
      cases cs with
      | nil => simp [matchRounds] at hr
      | cons c cs => simp [matchRounds] at hr
  | succ fuel ih =>
    intro ds cs r hr
    cases ds with
    | nil => simp [matchRounds] at hr
    | cons d ds =>
      cases cs with
      | nil => simp [matchRounds] at hr
      | cons c cs =>
        simp only [matchRounds, List.mem_cons] at hr
        rcases hr with rfl | hr
        · simp
        · obtain ⟨h1, h2⟩ := ih _ _ r hr
          exact ⟨stepDebtors_ids d ds c _ h1, stepCreditors_ids d c cs _ h2⟩

theorem mem_stepEmitted (d c : balanceInfo) (t : Transaction) (h : t ∈ stepEmitted d c) :
    t.FromUserID = d.userID ∧ t.ToUserID = c.userID ∧ t.Amount = min d.amount c.amount ∧
      t.Amount > dust := by
  unfold stepEmitted at h
  split_ifs at h with hgt
  · rw [List.mem_singleton] at h
    subst h
    refine ⟨rfl, rfl, ?_, hgt⟩
    show stepAmount d c = min d.amount c.amount
    unfold stepAmount
    split_ifs with hlt
    · exact (min_eq_right (le_of_lt hlt)).symm
    · exact (min_eq_left (not_lt.mp hlt)).symm
  · simp at h

theorem mem_debtorsOf_ids (visited : List UserBalance) (k : ℕ)
    (h : k ∈ (debtorsOf visited).map balanceInfo.userID) :
    ∃ b ∈ visited, b.UserID = k ∧ b.Balance < 0 := by
  unfold debtorsOf at h
  simp only [List.map_map, List.mem_map, List.mem_filter, decide_eq_true_eq,
    Function.comp] at h
  obtain ⟨b, ⟨hb, _, hneg⟩, rfl⟩ := h
  exact ⟨b, hb, rfl, hneg⟩

theorem mem_creditorsOf_ids (visited : List UserBalance) (k : ℕ)
    (h : k ∈ (creditorsOf visited).map balanceInfo.userID) :
    ∃ b ∈ visited, b.UserID = k ∧ b.Balance > 0 := by
  unfold creditorsOf at h
  simp only [List.map_map, List.mem_map, List.mem_filter, decide_eq_true_eq,
    Function.comp] at h
  obtain ⟨b, ⟨hb, hpos⟩, rfl⟩ := h
  exact ⟨b, hb, rfl, hpos⟩

/-- C12: every transaction emitted by optimizeTransactions has an amount
strictly greater than the dust tolerance 0.01 (hence positive), its sender is
a member with a negative net balance, its receiver is a member with a
positive net balance, and it is emitted in a round of the matching loop whose
head debtor is its sender, whose head creditor is its receiver, and in which
its amount is the minimum of the amounts remaining in the two; the list is
what the rounds emit, in order. -/
theorem C12_emitted_transactions (visited : List UserBalance) :
    ∃ ts, optimizeTransactions visited = some ts ∧
      ts = (matchRounds
            ((sortSlice amountGreater (debtorsOf visited)).length +
              (sortSlice amountGreater (creditorsOf visited)).length)
            (sortSlice amountGreater (debtorsOf visited))
            (sortSlice amountGreater (creditorsOf visited))).flatMap
          (fun r => stepEmitted r.1 r.2) ∧
      ∀ t ∈ ts, t.Amount > dust ∧ t.Amount > 0 ∧
        (∃ b ∈ visited, b.UserID = t.FromUserID ∧ b.Balance < 0) ∧
        (∃ b ∈ visited, b.UserID = t.ToUserID ∧ b.Balance > 0) ∧
        ∃ r ∈ matchRounds
            ((sortSlice amountGreater (debtorsOf visited)).length +
              (sortSlice amountGreater (creditorsOf visited)).length)
            (sortSlice amountGreater (debtorsOf visited))
            (sortSlice amountGreater (creditorsOf visited)),
          t.FromUserID = r.1.userID ∧ t.ToUserID = r.2.userID ∧
            t.Amount = min r.1.amount r.2.amount := by
  obtain ⟨ts, hts⟩ := optimizeTransactions_total visited
  have heq : ts = _ := matchLoop_rounds _ _ _ _ (by unfold optimizeTransactions at hts; exact hts)
  refine ⟨ts, hts, by simpa using heq, ?_⟩
  intro t ht
  rw [heq, List.mem_flatMap] at ht
  obtain ⟨r, hr, hte⟩ := ht
  obtain ⟨hfrom, hto, hamt, hgt⟩ := mem_stepEmitted r.1 r.2 t hte
  obtain ⟨hd, hc⟩ := matchRounds_ids _ _ _ r hr
  have hpd := sortSlice_perm amountGreater (debtorsOf visited)
  have hpc := sortSlice_perm amountGreater (creditorsOf visited)
  have hd2 := mem_debtorsOf_ids visited _ ((hpd.map balanceInfo.userID).subset hd)
  have hc2 := mem_creditorsOf_ids visited _ ((hpc.map balanceInfo.userID).subset hc)
  rw [← hfrom] at hd2
  rw [← hto] at hc2
  exact ⟨hgt, lt_trans dust_pos hgt, hd2, hc2, r, hr, hfrom, hto, hamt⟩

/-! ## Bills that are not pending -/

/-- A bill returned by `GetBillByID` is the row the query finds, and the caller
is a member of its group. -/
theorem GetBillByID_ok {faults : Faults} {store : Store} {billID userID : ℕ} {b : BillRow}
    (h : GetBillByID faults store billID userID = .ok b) :
    store.firstBill billID = some b ∧ faults .loadBill = false ∧
      IsUserMember store b.GroupID userID = true := by
  unfold GetBillByID at h
  split at h
  · cases h
  · split at h
    · cases h
    · rename_i bill hb
      split at h
      · cases h
      · rename_i hm
        cases h
        refine ⟨hb, by simpa using ‹¬ faults .loadBill = true›, by simpa using hm⟩

/-- A member of the bill's group gets the bill when the query succeeds. -/
theorem GetBillByID_of_member {faults : Faults} {store : Store} {billID userID : ℕ}
    {bill : BillRow} (hbill : store.firstBill billID = some bill)
    (hload : faults .loadBill = false)
    (hmem : IsUserMember store bill.GroupID userID = true) :
    GetBillByID faults store billID userID = .ok bill := by
  simp [GetBillByID, hbill, hload, hmem]

/-- C20: on a bill whose status is not pending, UpdateBill, DeleteBill,
AddBillItem, UpdateBillItem and DeleteBillItem each return an error and the
store after the call is the store before it (the bill, its items and its item
owners included), for every caller and whatever store call fails; for a
member of the group, the payer and the admins included, the error is the one
that names the finalized or settled bill. -/
theorem C20_locked_bill (faults : Faults) (store : Store) (billID userID itemID : ℕ)
    (bill : BillRow) (updateReq : UpdateBillRequest) (itemReq : CreateBillItemRequest)
    (hbill : store.firstBill billID = some bill) (hstatus : bill.Status ≠ "pending") :
    (∃ e, UpdateBill faults store billID userID updateReq = (store, .error e)) ∧
    (∃ e, DeleteBill faults store billID userID = (store, .error e)) ∧
    (∃ e, AddBillItem faults store billID userID itemReq = (store, .error e)) ∧
    (∃ e, UpdateBillItem faults store billID itemID userID itemReq = (store, .error e)) ∧
    (∃ e, DeleteBillItem faults store billID itemID userID = (store, .error e)) ∧
    (faults .loadBill = false → IsUserMember store bill.GroupID userID = true →
      UpdateBill faults store billID userID updateReq =
        (store, .error "cannot update finalized or settled bill") ∧
      DeleteBill faults store billID userID =
        (store, .error "cannot delete finalized or settled bill") ∧
      AddBillItem faults store billID userID itemReq =
        (store, .error "cannot add items to finalized or settled bill") ∧
      UpdateBillItem faults store billID itemID userID itemReq =
        (store, .error "cannot update items in finalized or settled bill") ∧
      DeleteBillItem faults store billID itemID userID =
        (store, .error "cannot delete items from finalized or settled bill")) := by
  have key : ∀ b, GetBillByID faults store billID userID = .ok b → b.Status ≠ "pending" := by
    intro b hb
    have := (GetBillByID_ok hb).1
    rw [hbill] at this
    cases this
    exact hstatus
  refine ⟨?_, ?_, ?_, ?_, ?_, ?_⟩
  · unfold UpdateBill
    cases h : GetBillByID faults store billID userID with
    | error e => exact ⟨e, rfl⟩
    | ok b => exact ⟨"cannot update finalized or settled bill", by simp [key b h]⟩
  · unfold DeleteBill
    cases h : GetBillByID faults store billID userID with
    | error e => exact ⟨e, rfl⟩
    | ok b => exact ⟨"cannot delete finalized or settled bill", by simp [key b h]⟩
  · unfold AddBillItem
    cases h : GetBillByID faults store billID userID with
    | error e => exact ⟨e, rfl⟩
    | ok b => exact ⟨"cannot add items to finalized or settled bill", by simp [key b h]⟩
  · unfold UpdateBillItem
    cases h : GetBillByID faults store billID userID with
    | error e => exact ⟨e, rfl⟩
    | ok b => exact ⟨"cannot update items in finalized or settled bill", by simp [key b h]⟩
  · unfold DeleteBillItem
    cases h : GetBillByID faults store billID userID with
    | error e => exact ⟨e, rfl⟩
    | ok b => exact ⟨"cannot delete items from finalized or settled bill", by simp [key b h]⟩
  · intro hload hmem
    have hg := GetBillByID_of_member hbill hload hmem
    refine ⟨?_, ?_, ?_, ?_, ?_⟩
    · simp [UpdateBill, hg, hstatus]
    · simp [DeleteBill, hg, hstatus]
    · simp [AddBillItem, hg, hstatus]
    · simp [UpdateBillItem, hg, hstatus]
    · simp [DeleteBillItem, hg, hstatus]

/-- Witness of C20: bill 1 of the two groups is finalized; Ann, its payer and
the admin of its group, can neither update it nor add an item to it. -/
theorem C20_locked_bill_witness :
    UpdateBill noFaults storeTwoGroups 1 1
        { Title := "Food", Description := "", TotalAmount := 31, BillDate := 1 } =
      (storeTwoGroups, .error "cannot update finalized or settled bill") ∧
    AddBillItem noFaults storeTwoGroups 1 1
        { Name := "tea", Description := "", Amount := 1, Quantity := 1, IsShared := true,
          OwnerIDs := [] } =
      (storeTwoGroups, .error "cannot add items to finalized or settled bill") :=
  have h := (C20_locked_bill noFaults storeTwoGroups 1 1 1
    { ID := 1, GroupID := 1, Title := "Groceries", Description := "",
      TotalAmount := 30, PaidByID := 1, BillDate := 1,
      Status := "finalized", Deleted := false }
    { Title := "Food", Description := "", TotalAmount := 31, BillDate := 1 }
    { Name := "tea", Description := "", Amount := 1, Quantity := 1, IsShared := true,
      OwnerIDs := [] }
    (by decide!) (by decide)).2.2.2.2.2 rfl (by decide)
  ⟨h.1, h.2.2.1⟩

/-! ## Confirming a settlement -/

/-- After a row has been overwritten, the query by id finds the new row. -/
theorem find?_replace {l : List SettlementRow} {k : ℕ} {s0 s' : SettlementRow}
    (h : l.find? (fun s => decide (s.ID = k)) = some s0) (hid : s'.ID = k) :
    (l.map (fun s => if s.ID = s'.ID then s' else s)).find? (fun s => decide (s.ID = k)) =
      some s' := by
  induction l with
  | nil => simp at h
  | cons a l ih =>
    simp only [List.map_cons, List.find?_cons] at h ⊢
    by_cases ha : a.ID = k
    · have hs : a.ID = s'.ID := ha.trans hid.symm
      simp [hs, hid]
    · have hne : ¬ a.ID = s'.ID := fun e => ha (e.trans hid)
      simp only [ha, decide_False] at h
      simp only [if_neg hne, ha, decide_False]
      exact ih h

/-- The settlement found by id has that id. -/
theorem firstSettlement_id {store : Store} {settlementID : ℕ} {settlement : SettlementRow}
    (h : store.firstSettlement settlementID = some settlement) :
    settlement.ID = settlementID := by
  have := List.find?_some h
  simpa using this

/-- The bills preloaded with a settlement are linked to it. -/
theorem preloadBills_subset (store : Store) (settlementID : ℕ) :
    ∀ billID ∈ store.preloadBills settlementID, billID ∈ store.linkedBillIDs settlementID := by
  intro billID h
  exact (List.mem_filter.mp h).1

/-- The bills linked to a settlement after its `Save` are those linked to it
before. -/
theorem linkedBillIDs_saveSettlement (store : Store) (settlement : SettlementRow)
    (settlementID billID : ℕ) :
    billID ∈ (store.saveSettlement settlement
        (store.preloadBills settlementID)).linkedBillIDs settlementID ↔
      billID ∈ store.linkedBillIDs settlementID := by
  constructor
  · intro h
    simp only [Store.linkedBillIDs, Store.saveSettlement, List.filter_append, List.map_append,
      List.mem_append] at h
    rcases h with h | h
    · exact h
    · simp only [List.mem_map, List.mem_filter] at h
      obtain ⟨l, ⟨hl, -⟩, rfl⟩ := h
      obtain ⟨b, hb, rfl⟩ := hl
      exact preloadBills_subset store settlementID b hb
  · intro h
    simp only [Store.linkedBillIDs, Store.saveSettlement, List.filter_append, List.map_append,
      List.mem_append]
    exact Or.inl h

/-- The checks of `ConfirmSettlement` on a pending settlement for a caller who
may confirm it. -/
theorem confirmCheck_pending {faults : Faults} {store : Store}
    {settlementID userID : ℕ} {settlement : SettlementRow}
    (hfound : store.firstSettlement settlementID = some settlement)
    (hpending : settlement.Status = "pending")
    (hauth : settlement.CreatedByID = userID ∨
      IsUserAdmin store settlement.GroupID userID = true)
    (hload : faults .loadSettlement = false) :
    confirmCheck faults store settlementID userID =
      .ok (settlement, store.preloadBills settlementID) := by
  have hauth' : ¬ (settlement.CreatedByID ≠ userID ∧
      ¬ IsUserAdmin store settlement.GroupID userID = true) := by
    rintro ⟨h1, h2⟩
    rcases hauth with h | h
    · exact h1 h
    · exact h2 h
  simp only [confirmCheck, hload, hfound, Bool.false_eq_true, ↓reduceIte]
  rw [if_neg hauth', if_neg (not_not.mpr hpending)]

/-- What the checks of `ConfirmSettlement` have found when they pass. -/
theorem confirmCheck_ok {faults : Faults} {store : Store} {settlementID userID : ℕ}
    {loaded : SettlementRow × List ℕ}
    (h : confirmCheck faults store settlementID userID = .ok loaded) :
    store.firstSettlement settlementID = some loaded.1 ∧ loaded.1.Status = "pending" ∧
      loaded.2 = store.preloadBills settlementID := by
  unfold confirmCheck at h
  by_cases hl : faults .loadSettlement = true
  · simp [hl] at h
  · simp only [hl, Bool.false_eq_true, ↓reduceIte] at h
    cases hf : store.firstSettlement settlementID with
    | none => simp [hf] at h
    | some settlement =>
      simp only [hf] at h
      split_ifs at h with h1 h2
      simp only [Except.ok.injEq] at h
      subst h
      exact ⟨rfl, not_not.mp h2, rfl⟩

/-- What `ConfirmSettlement` does to a pending settlement for a caller who
may confirm it, when the calls whose error it looks at succeed. -/
theorem ConfirmSettlement_pending {faults : Faults} {now : ℕ} {store : Store}
    {settlementID userID : ℕ} {settlement : SettlementRow}
    (hfound : store.firstSettlement settlementID = some settlement)
    (hpending : settlement.Status = "pending")
    (hauth : settlement.CreatedByID = userID ∨
      IsUserAdmin store settlement.GroupID userID = true)
    (hload : faults .loadSettlement = false) (hsave : faults .saveSettlement = false)
    (hupdate : faults .updateBills = false) :
    ConfirmSettlement faults now store settlementID userID =
      (if faults .commit then store
       else (store.saveSettlement
          { settlement with Status := "confirmed", SettledAt := some now }
          (store.preloadBills settlementID)).updateBillStatus
          ((store.saveSettlement
              { settlement with Status := "confirmed", SettledAt := some now }
              (store.preloadBills settlementID)).linkedBillIDs settlementID)
          "settled",
       .ok ()) := by
  simp only [ConfirmSettlement, confirmCheck_pending hfound hpending hauth hload, confirmWrite,
    hsave, hupdate, Bool.false_eq_true, ↓reduceIte]

/-- What a successful `ConfirmSettlement` has written when the commit has not
failed: the settlement was pending and its row is now confirmed with the
settlement time, every linked bill that is not deleted is settled, and every
other bill row is as before. -/
theorem ConfirmSettlement_success {faults : Faults} {now : ℕ} {store store' : Store}
    {settlementID userID : ℕ}
    (hok : ConfirmSettlement faults now store settlementID userID = (store', .ok ()))
    (hcommit : faults .commit = false) :
    ∃ settlement, store.firstSettlement settlementID = some settlement ∧
      settlement.Status = "pending" ∧
      store'.settlements = store.settlements.map (fun s =>
        if s.ID = settlementID then
          { settlement with Status := "confirmed", SettledAt := some now } else s) ∧
      store'.bills = store.bills.map (fun b =>
        if b.ID ∈ store.linkedBillIDs settlementID ∧ b.Deleted = false then
          { b with Status := "settled" } else b) := by
  unfold ConfirmSettlement at hok
  cases hc : confirmCheck faults store settlementID userID with
  | error e => simp [hc] at hok
  | ok loaded =>
    obtain ⟨hfound, hpending, hpre⟩ := confirmCheck_ok hc
    have hid := firstSettlement_id hfound
    simp only [hc, confirmWrite, hcommit, Bool.false_eq_true, ↓reduceIte] at hok
    split_ifs at hok with h1 h2
    all_goals simp only [Prod.mk.injEq, reduceCtorEq, and_false, and_true] at hok
    subst hok
    refine ⟨loaded.1, hfound, hpending, ?_, ?_⟩
    · simp [Store.updateBillStatus, Store.saveSettlement, hid]
    · simp only [Store.updateBillStatus]
      have hb : (store.saveSettlement
          { loaded.1 with Status := "confirmed", SettledAt := some now } loaded.2).bills =
          store.bills := rfl
      rw [hb]
      refine List.map_congr_left (fun b _ => ?_)
      have hiff := linkedBillIDs_saveSettlement store
        { loaded.1 with Status := "confirmed", SettledAt := some now } settlementID b.ID
      rw [← hpre] at hiff
      dsimp only at hiff ⊢
      simp only [hiff]

/-- C13: on a settlement whose status is not pending, ConfirmSettlement returns
an error and the store after the call is the store before it; the error is
"settlement is not pending" for the creator of the settlement and for an
admin of the group, and the permission error for every other caller. Two
successive confirm calls on a pending settlement by such a caller, the
checked store calls of the first one and its commit succeeding: the first
succeeds and the second fails with "settlement is not pending" and changes
nothing. -/
theorem C13_confirm_only_pending (faults faults2 : Faults) (now now2 : ℕ) (store : Store)
    (settlementID userID : ℕ) (settlement : SettlementRow)
    (hfound : store.firstSettlement settlementID = some settlement) :
    (settlement.Status ≠ "pending" →
      (∃ e, ConfirmSettlement faults now store settlementID userID = (store, .error e)) ∧
      (faults .loadSettlement = false →
        (settlement.CreatedByID = userID ∨
          IsUserAdmin store settlement.GroupID userID = true) →
        ConfirmSettlement faults now store settlementID userID =
          (store, .error "settlement is not pending")) ∧
      (faults .loadSettlement = false → settlement.CreatedByID ≠ userID →
        IsUserAdmin store settlement.GroupID userID = false →
        ConfirmSettlement faults now store settlementID userID =
          (store, .error "only settlement creator or group admin can confirm settlement"))) ∧
    (settlement.Status = "pending" →
      (settlement.CreatedByID = userID ∨
        IsUserAdmin store settlement.GroupID userID = true) →
      faults .loadSettlement = false → faults .saveSettlement = false →
      faults .updateBills = false → faults .commit = false →
      faults2 .loadSettlement = false →
      (ConfirmSettlement faults now store settlementID userID).2 = .ok () ∧
      ConfirmSettlement faults2 now2
          (ConfirmSettlement faults now store settlementID userID).1 settlementID userID =
        ((ConfirmSettlement faults now store settlementID userID).1,
          .error "settlement is not pending")) := by
  refine ⟨fun hstatus => ⟨?_, ?_, ?_⟩, ?_⟩
  · unfold ConfirmSettlement confirmCheck
    by_cases hload : faults .loadSettlement = true
    · exact ⟨"settlement not found", by simp [hload]⟩
    · by_cases hauth : settlement.CreatedByID ≠ userID ∧
          ¬ IsUserAdmin store settlement.GroupID userID = true
      · exact ⟨"only settlement creator or group admin can confirm settlement",
          by simp [hload, hfound, hauth]⟩
      · have hload' : faults .loadSettlement = false := by simpa using hload
        exact ⟨"settlement is not pending", by
          simp only [hload', hfound, Bool.false_eq_true, ↓reduceIte]
          rw [if_neg hauth, if_pos hstatus]⟩
  · intro hload hauth
    have hauth' : ¬ (settlement.CreatedByID ≠ userID ∧
        ¬ IsUserAdmin store settlement.GroupID userID = true) := by
      rintro ⟨h1, h2⟩
      rcases hauth with h | h
      · exact h1 h
      · exact h2 h
    simp only [ConfirmSettlement, confirmCheck, hload, hfound, Bool.false_eq_true, ↓reduceIte]
    rw [if_neg hauth', if_pos hstatus]
  · intro hload hcreator hadmin
    simp [ConfirmSettlement, confirmCheck, hload, hfound, hcreator, hadmin]
  · intro hpending hauth hload hsave hupdate hcommit hload2
    rw [ConfirmSettlement_pending hfound hpending hauth hload hsave hupdate]
    simp only [hcommit]
    refine ⟨trivial, ?_⟩
    have hid := firstSettlement_id hfound
    have hfound2 : Store.firstSettlement
        ((store.saveSettlement
          { settlement with Status := "confirmed", SettledAt := some now }
          (store.preloadBills settlementID)).updateBillStatus
          ((store.saveSettlement
              { settlement with Status := "confirmed", SettledAt := some now }
              (store.preloadBills settlementID)).linkedBillIDs settlementID)
          "settled") settlementID =
        some { settlement with Status := "confirmed", SettledAt := some now } := by
      unfold Store.firstSettlement Store.updateBillStatus Store.saveSettlement
      exact find?_replace hfound hid
    have hauth' : ¬ (settlement.CreatedByID ≠ userID ∧
        ¬ IsUserAdmin store settlement.GroupID userID = true) := by
      rintro ⟨h1, h2⟩
      rcases hauth with h | h
      · exact h1 h
      · exact h2 h
    simp only [ConfirmSettlement, confirmCheck, hload2, hfound2, Bool.false_eq_true, ↓reduceIte]
    simp only [IsUserAdmin, Store.updateBillStatus, Store.saveSettlement] at hauth' ⊢
    rw [if_neg hauth', if_pos (by decide)]

/-- Witness of C13: Ann confirms the pending settlement 1 twice, and confirms
the settlement that is already confirmed. -/
theorem C13_confirm_only_pending_witness :
    ((ConfirmSettlement noFaults 5 storePendingSettlement 1 1).2 = .ok () ∧
      ConfirmSettlement noFaults 6
          (ConfirmSettlement noFaults 5 storePendingSettlement 1 1).1 1 1 =
        ((ConfirmSettlement noFaults 5 storePendingSettlement 1 1).1,
          .error "settlement is not pending")) ∧
    ConfirmSettlement noFaults 6 storeConfirmedSettlement 1 1 =
      (storeConfirmedSettlement, .error "settlement is not pending") :=
  ⟨(C13_confirm_only_pending noFaults noFaults 5 6 storePendingSettlement 1 1
      { ID := 1, GroupID := 1, CreatedByID := 1, Status := "pending", SettledAt := none }
      (by decide!)).2 rfl (Or.inl rfl) rfl rfl rfl rfl rfl,
   ((C13_confirm_only_pending noFaults noFaults 6 6 storeConfirmedSettlement 1 1
      { ID := 1, GroupID := 1, CreatedByID := 1, Status := "confirmed", SettledAt := some 5 }
      (by decide!)).1 (by decide)).2.1 rfl (Or.inl rfl)⟩

/-- Counterexample to C13: settlement 1 is confirmed; Bob, who neither created
it nor is an admin of the group, calls ConfirmSettlement and gets the
permission error, not "settlement is not pending". -/
theorem C13_counterexample :
    (ConfirmSettlement noFaults 9 storeConfirmedSettlement 1 2).2 =
      .error "only settlement creator or group admin can confirm settlement" ∧
    (ConfirmSettlement noFaults 9 storeConfirmedSettlement 1 2).2 ≠
      .error "settlement is not pending" := by
  decide!

/-- C14, failing input: Ann confirms the pending settlement 1 and the commit
fails. ConfirmSettlement returns success, and in the resulting store the
settlement is still pending and the linked bill 1 is still finalized. -/
theorem C14_success_without_commit :
    (ConfirmSettlement (onlyFault .commit) 5 storePendingSettlement 1 1).2 = .ok () ∧
    ((ConfirmSettlement (onlyFault .commit) 5 storePendingSettlement 1 1).1.firstSettlement 1).map
      SettlementRow.Status = some "pending" ∧
    ((ConfirmSettlement (onlyFault .commit) 5 storePendingSettlement 1 1).1.firstBill 1).map
      BillRow.Status = some "finalized" := by
  decide!

/-- C15, failing input: Ann confirms the pending settlement 1. When the save
of the settlement or the update of the bill statuses fails, ConfirmSettlement
returns the error of that call and the store is as before. When the commit
fails, whatever the time of the call, it returns success and the store is as
before all the same: no error is returned for the failed commit. -/
theorem C15_commit_error_dropped :
    ConfirmSettlement (onlyFault .saveSettlement) 5 storePendingSettlement 1 1 =
      (storePendingSettlement, .error "failed to update settlement") ∧
    ConfirmSettlement (onlyFault .updateBills) 5 storePendingSettlement 1 1 =
      (storePendingSettlement, .error "failed to update bill statuses") ∧
    (∀ now, ConfirmSettlement (onlyFault .commit) now storePendingSettlement 1 1 =
      (storePendingSettlement, .ok ())) ∧
    (∀ now, (ConfirmSettlement (onlyFault .commit) now storePendingSettlement 1 1).2 ≠
      .error "failed to commit transaction") := by
  refine ⟨by decide!, by decide!, fun now => ?_, fun now => ?_⟩
  · rw [ConfirmSettlement_pending
      (show storePendingSettlement.firstSettlement 1 = some
        { ID := 1, GroupID := 1, CreatedByID := 1, Status := "pending", SettledAt := none }
        from by decide!) rfl (Or.inl rfl) rfl rfl rfl]
    rfl
  · rw [ConfirmSettlement_pending
      (show storePendingSettlement.firstSettlement 1 = some
        { ID := 1, GroupID := 1, CreatedByID := 1, Status := "pending", SettledAt := none }
        from by decide!) rfl (Or.inl rfl) rfl rfl rfl]
    simp

/-- C17, failing input: Ann asks for the settlement of group 1 over bill 1 and
bill 2, which belongs to group 2, and over bill 1 and the id 99 of no bill.
Both calls return the settlement of bill 1 alone and no error. -/
theorem C17_foreign_bills_dropped :
    CalculateSettlement noFaults id storeTwoGroups 1 { GroupID := 1, BillIDs := [1, 2] } =
      some (.ok resultBill1) ∧
    CalculateSettlement noFaults id storeTwoGroups 1 { GroupID := 1, BillIDs := [1, 99] } =
      some (.ok resultBill1) := by
  decide!

/-- Counterexample to C19: bill 3 is pending. Bob has its settlement calculated
and created, then confirms it: the bill is settled without ever having been
finalized. -/
theorem C19_counterexample :
    (storeTwoGroups.firstBill 3).map BillRow.Status = some "pending" ∧
    CalculateSettlement noFaults id storeTwoGroups 2 { GroupID := 1, BillIDs := [3] } =
      some (.ok resultBill3) ∧
    (CreateSettlement noFaults storeTwoGroups 2 { GroupID := 1, BillIDs := [3] }
      resultBill3).2 =
      .ok { ID := 1, GroupID := 1, CreatedByID := 2, Status := "pending", SettledAt := none } ∧
    (ConfirmSettlement noFaults 5
      (CreateSettlement noFaults storeTwoGroups 2 { GroupID := 1, BillIDs := [3] }
        resultBill3).1 1 2).2 = .ok () ∧
    ((ConfirmSettlement noFaults 5
      (CreateSettlement noFaults storeTwoGroups 2 { GroupID := 1, BillIDs := [3] }
        resultBill3).1 1 2).1.firstBill 3).map BillRow.Status = some "settled" := by
  decide!

/-! ## Creating a settlement, and the bills of a calculation -/

/-- Counterexample to C16: Ann has the settlement of bill 4, 10.00 shared by
three, calculated and created. The result has two transactions of
3.3333333333333333; the two transactions stored have the amount 3.33. -/
theorem C16_counterexample :
    CalculateSettlement noFaults id storeThirds 1 { GroupID := 1, BillIDs := [4] } =
      some (.ok resultThirds) ∧
    resultThirds.Transactions.map Transaction.Amount =
      [33333333333333333 / 10000000000000000, 33333333333333333 / 10000000000000000] ∧
    (CreateSettlement noFaults storeThirds 1 { GroupID := 1, BillIDs := [4] } resultThirds).2 =
      .ok { ID := 1, GroupID := 1, CreatedByID := 1, Status := "pending", SettledAt := none } ∧
    (CreateSettlement noFaults storeThirds 1 { GroupID := 1, BillIDs := [4] }
      resultThirds).1.settlementTransactions =
      [{ SettlementID := 1, FromUserID := 2, ToUserID := 1, Amount := 333 / 100,
         Status := "pending" },
       { SettlementID := 1, FromUserID := 3, ToUserID := 1, Amount := 333 / 100,
         Status := "pending" }] ∧
    (CreateSettlement noFaults storeThirds 1 { GroupID := 1, BillIDs := [4] }
      resultThirds).1.settlementTransactions.map SettlementTransactionRow.Amount ≠
      resultThirds.Transactions.map Transaction.Amount := by
  decide!

/-- C16: when CreateSettlement succeeds, the settlements of the store are those
before followed by one new settlement, pending, with the group id and the
creator as given; the bill links are those before followed by one link per
requested bill id, the stored transactions those before followed by one per
transaction of the result, with its sender and receiver, with its amount
rounded to 2 fractional digits, and with status pending; the bills, their
status included, the items, the item owners and the members are unchanged.
The same call with no failing store call succeeds with the same outcome. -/
theorem C16_create_settlement (faults : Faults) (store store' : Store) (userID : ℕ)
    (req : CalculateSettlementRequest) (result : SettlementResult) (settlement : SettlementRow)
    (hok : CreateSettlement faults store userID req result = (store', .ok settlement)) :
    settlement = { ID := store.nextSettlementID, GroupID := req.GroupID,
                   CreatedByID := userID, Status := "pending", SettledAt := none } ∧
    store'.settlements = store.settlements ++ [settlement] ∧
    store'.settlementBills = store.settlementBills ++
      req.BillIDs.map (fun billID => { SettlementID := settlement.ID, BillID := billID }) ∧
    store'.settlementTransactions = store.settlementTransactions ++
      result.Transactions.map (fun trans =>
        { SettlementID := settlement.ID, FromUserID := trans.FromUserID,
          ToUserID := trans.ToUserID, Amount := Decimal.column trans.Amount,
          Status := "pending" }) ∧
    store'.bills = store.bills ∧ store'.items = store.items ∧
    store'.itemOwners = store.itemOwners ∧ store'.members = store.members ∧
    CreateSettlement noFaults store userID req result = (store', .ok settlement) := by
  unfold CreateSettlement at hok
  split_ifs at hok with h1 h2 h3 h4 h5
  all_goals simp only [Prod.mk.injEq, Except.ok.injEq, reduceCtorEq, and_false] at hok
  obtain ⟨hs, hr⟩ := hok
  subst hs hr
  refine ⟨rfl, rfl, rfl, rfl, rfl, rfl, rfl, rfl, ?_⟩
  simp [CreateSettlement, noFaults]

/-- Witness of C16: Ann creates the settlement of bill 1 in the store of the
two groups, and the settlement of bill 4, whose two transactions are stored
with the amount 3.33. -/
theorem C16_create_settlement_witness :
    (CreateSettlement noFaults storeTwoGroups 1 { GroupID := 1, BillIDs := [1] } resultBill1 =
      (storePendingSettlement,
        .ok { ID := 1, GroupID := 1, CreatedByID := 1, Status := "pending", SettledAt := none }) ∧
    storePendingSettlement.settlementBills = storeTwoGroups.settlementBills ++
      [{ SettlementID := 1, BillID := 1 }] ∧
    storePendingSettlement.bills = storeTwoGroups.bills) ∧
    (CreateSettlement noFaults storeThirds 1 { GroupID := 1, BillIDs := [4] }
      resultThirds).1.settlementTransactions = storeThirds.settlementTransactions ++
      resultThirds.Transactions.map (fun trans =>
        { SettlementID := 1, FromUserID := trans.FromUserID,
          ToUserID := trans.ToUserID, Amount := Decimal.column trans.Amount,
          Status := "pending" }) :=
  have h := C16_create_settlement noFaults storeTwoGroups storePendingSettlement 1
    { GroupID := 1, BillIDs := [1] } resultBill1
    { ID := 1, GroupID := 1, CreatedByID := 1, Status := "pending", SettledAt := none }
    (by decide!)
  ⟨⟨h.2.2.2.2.2.2.2.2, h.2.2.1, h.2.2.2.2.1⟩,
    (C16_create_settlement noFaults storeThirds
      (CreateSettlement noFaults storeThirds 1 { GroupID := 1, BillIDs := [4] } resultThirds).1 1
      { GroupID := 1, BillIDs := [4] } resultThirds
      { ID := 1, GroupID := 1, CreatedByID := 1, Status := "pending", SettledAt := none }
      (by decide!)).2.2.2.1⟩

/-- Every bill the query of `CalculateSettlement` returns belongs to the
requested group: the loop that looks for a bill of another group finds none. -/
theorem findBills_group (store : Store) (req : CalculateSettlementRequest) :
    (store.findBills req).find? (fun bill => decide (bill.GroupID ≠ req.GroupID)) = none := by
  rw [List.find?_eq_none]
  intro b hb
  simp only [Store.findBills, List.mem_filter, decide_eq_true_eq] at hb
  simp [hb.2.2.1]

/-- C18: for a caller who is a member of the group and with no store failure,
CalculateSettlement returns the error "no bills found" if and only if no
requested bill id is the id of a bill of the requested group that is not
deleted. -/
theorem C18_no_bills_found (faults : Faults)
    (rangeOrder : GoMap UserBalance → GoMap UserBalance) (store : Store) (userID : ℕ)
    (req : CalculateSettlementRequest)
    (hmember : IsUserMember store req.GroupID userID = true)
    (hfetch : faults .fetchBills = false) (hmembers : faults .getMembers = false) :
    CalculateSettlement faults rangeOrder store userID req = some (.error "no bills found") ↔
      ∀ billID ∈ req.BillIDs, ∀ b ∈ store.bills,
        ¬ (b.ID = billID ∧ b.GroupID = req.GroupID ∧ b.Deleted = false) := by
  have hempty : store.findBills req = [] ↔
      ∀ billID ∈ req.BillIDs, ∀ b ∈ store.bills,
        ¬ (b.ID = billID ∧ b.GroupID = req.GroupID ∧ b.Deleted = false) := by
    simp only [Store.findBills, List.filter_eq_nil_iff, decide_eq_true_eq]
    constructor
    · intro h billID hid b hb hc
      exact h b hb ⟨hc.1 ▸ hid, hc.2⟩
    · intro h b hb hc
      exact h b.ID hc.1 b hb ⟨rfl, hc.2⟩
  rw [← hempty]
  unfold CalculateSettlement
  simp only [hmember, hfetch, not_true_eq_false, Bool.false_eq_true, ↓reduceIte,
    List.length_eq_zero, findBills_group]
  by_cases he : store.findBills req = []
  · simp [he]
  · simp only [he, ↓reduceIte, iff_false]
    simp only [GetGroupMembers, hmember, hmembers, not_true_eq_false, Bool.false_eq_true,
      ↓reduceIte]
    cases computeSettlement rangeOrder req.GroupID
      (List.map (loadMember store)
        (List.filter (fun m => decide (m.GroupID = req.GroupID)) store.members))
      (List.map store.loadBill (store.findBills req)) <;> simp

/-- Witness of C18: Ann asks for the settlement of group 1 over bill 2, of
group 2, and the id 99 of no bill. -/
theorem C18_no_bills_found_witness :
    CalculateSettlement noFaults id storeTwoGroups 1 { GroupID := 1, BillIDs := [2, 99] } =
      some (.error "no bills found") :=
  (C18_no_bills_found noFaults id storeTwoGroups 1 { GroupID := 1, BillIDs := [2, 99] }
    (by decide) rfl rfl).mpr (by decide)

/-! ## The status of a bill over the operations -/

/-- Leaving a row as it is is an allowed change. -/
theorem statusStep_refl (op : Operation) (store : Store) (a : BillRow) :
    statusStep op store a a :=
  ⟨rfl, Or.inl rfl⟩

/-- Overwriting the row of a bill that was read from the table changes that
row only, when ids are unique. -/
theorem saveBill_rows {l : List BillRow} (hnd : (l.map BillRow.ID).Nodup)
    {bill new : BillRow} (hmem : bill ∈ l) {k : ℕ} (hid : k = bill.ID)
    {P : BillRow → BillRow → Prop} (hP : P bill new) (hrefl : ∀ a, P a a) :
    ∀ a ∈ l, P a (if a.ID = k ∧ a.Deleted = false then new else a) := by
  intro a ha
  split_ifs with hc
  · have : a = bill := List.inj_on_of_nodup_map hnd ha hmem (hc.1.trans hid)
    rw [this]
    exact hP
  · exact hrefl a

/-- The bill found by the query is a row of the table. -/
theorem firstBill_mem {store : Store} {billID : ℕ} {bill : BillRow}
    (h : store.firstBill billID = some bill) : bill ∈ store.bills :=
  List.mem_of_find?_eq_some h

/-- Writing a preloaded item leaves the bills as they are. -/
theorem upsertItem_bills (store : Store) (item : ItemRow) :
    (store.upsertItem item).bills = store.bills ∧
      (store.upsertItem item).nextBillID = store.nextBillID := by
  unfold Store.upsertItem
  split <;> exact ⟨rfl, rfl⟩

/-- Writing the preloaded items leaves the bills as they are. -/
theorem foldl_upsertItem_bills (billID : ℕ) (items : List (ItemRow × List User)) :
    ∀ store : Store,
      (items.foldl (fun s p => s.upsertItem { p.1 with BillID := billID }) store).bills =
        store.bills ∧
      (items.foldl (fun s p => s.upsertItem { p.1 with BillID := billID }) store).nextBillID =
        store.nextBillID := by
  induction items with
  | nil => intro store; exact ⟨rfl, rfl⟩
  | cons p items ih =>
    intro store
    rw [List.foldl_cons]
    obtain ⟨h1, h2⟩ := ih (store.upsertItem { p.1 with BillID := billID })
    obtain ⟨h3, h4⟩ := upsertItem_bills store { p.1 with BillID := billID }
    exact ⟨h1.trans h3, h2.trans h4⟩

/-- The bills table after `Save(&bill)`: the row of the bill is overwritten,
its total as the column keeps it. -/
theorem saveBill_bills (store : Store) (bill : BillRow) (items : List (ItemRow × List User)) :
    (store.saveBill bill items).bills = store.bills.map
        (fun b => if b.ID = bill.ID ∧ b.Deleted = false then
          { bill with TotalAmount := Decimal.column bill.TotalAmount } else b) ∧
      (store.saveBill bill items).nextBillID = store.nextBillID := by
  unfold Store.saveBill
  exact foldl_upsertItem_bills bill.ID items _

/-- An operation that leaves the store as it is. -/
theorem billsStep_same (op : Operation) (store : Store) : billsStep op store store :=
  Or.inl ⟨id, by simp, rfl, fun a _ => statusStep_refl op store a⟩

/-- An operation that overwrites the row of a bill it has read. -/
theorem billsStep_save (op : Operation) {store changed : Store}
    (hnd : (store.bills.map BillRow.ID).Nodup) (hb : changed.bills = store.bills)
    (hn : changed.nextBillID = store.nextBillID)
    {bill new : BillRow} (items : List (ItemRow × List User)) (hmem : bill ∈ store.bills)
    (hs : statusStep op store bill new) :
    billsStep op store (changed.saveBill new items) := by
  obtain ⟨h1, h2⟩ := saveBill_bills changed new items
  refine Or.inl ⟨fun a => if a.ID = new.ID ∧ a.Deleted = false then
      { new with TotalAmount := Decimal.column new.TotalAmount } else a,
    by rw [h1, hb], h2.trans hn, ?_⟩
  have hs' : statusStep op store bill
      { new with TotalAmount := Decimal.column new.TotalAmount } := ⟨hs.1, hs.2⟩
  exact saveBill_rows hnd hmem hs.1 hs' (statusStep_refl op store)

/-- The bills table after `UpdateBill`. -/
theorem step_updateBill (faults : Faults) (billID userID : ℕ) (req : UpdateBillRequest)
    (store : Store) (hnd : (store.bills.map BillRow.ID).Nodup) :
    billsStep (.updateBill faults billID userID req) store
      (UpdateBill faults store billID userID req).1 := by
  unfold UpdateBill
  cases hg : GetBillByID faults store billID userID with
  | error e => exact billsStep_same _ _
  | ok bill =>
    have hmem := firstBill_mem (GetBillByID_ok hg).1
    simp only
    repeat' split
    all_goals try dsimp only
    all_goals first
      | exact billsStep_same _ _
      | refine billsStep_save _ hnd ?_ ?_ _ hmem ⟨rfl, Or.inl rfl⟩ <;> rfl

/-- The bills table after `DeleteBill`. -/
theorem step_deleteBill (faults : Faults) (billID userID : ℕ) (store : Store) :
    billsStep (.deleteBill faults billID userID) store
      (DeleteBill faults store billID userID).1 := by
  unfold DeleteBill
  cases hg : GetBillByID faults store billID userID with
  | error e => exact billsStep_same _ _
  | ok bill =>
    simp only
    repeat' split
    all_goals first
      | exact billsStep_same _ _
      | refine Or.inl ⟨fun b => if b.ID = bill.ID ∧ b.Deleted = false then
            { b with Deleted := true } else b, rfl, rfl, fun a _ => ?_⟩
        beta_reduce
        split_ifs
        · exact ⟨rfl, Or.inl rfl⟩
        · exact statusStep_refl _ _ a

/-- The bills table after `FinalizeBill` on a pending bill. -/
theorem step_finalizeBill (faults : Faults) (billID userID : ℕ)
    (store : Store) (hnd : (store.bills.map BillRow.ID).Nodup)
    (hadm : (Operation.finalizeBill faults billID userID).refinalizes store = false) :
    billsStep (.finalizeBill faults billID userID) store
      (FinalizeBill faults store billID userID).1 := by
  unfold FinalizeBill
  cases hg : GetBillByID faults store billID userID with
  | error e => exact billsStep_same _ _
  | ok bill =>
    have hfound := (GetBillByID_ok hg).1
    have hmem := firstBill_mem hfound
    have hpending : bill.Status = "pending" := by
      simp only [Operation.refinalizes, hfound, decide_eq_false_iff_not, not_not] at hadm
      exact hadm
    simp only
    repeat' split
    all_goals try dsimp only
    all_goals first
      | exact billsStep_same _ _
      | refine billsStep_save _ hnd ?_ ?_ _ hmem ⟨rfl, Or.inr (Or.inl ⟨rfl, hpending, rfl⟩)⟩ <;>
          rfl

/-- The bills table after `AddBillItem`. -/
theorem step_addBillItem (faults : Faults) (billID userID : ℕ) (req : CreateBillItemRequest)
    (store : Store) (hnd : (store.bills.map BillRow.ID).Nodup) :
    billsStep (.addBillItem faults billID userID req) store
      (AddBillItem faults store billID userID req).1 := by
  unfold AddBillItem
  cases hg : GetBillByID faults store billID userID with
  | error e => exact billsStep_same _ _
  | ok bill =>
    have hmem := firstBill_mem (GetBillByID_ok hg).1
    simp only
    repeat' split
    all_goals try dsimp only
    all_goals first
      | exact billsStep_same _ _
      | refine billsStep_save _ hnd ?_ ?_ _ hmem ⟨rfl, Or.inl rfl⟩ <;> rfl

/-- The bills table after `UpdateBillItem`. -/
theorem step_updateBillItem (faults : Faults) (billID itemID userID : ℕ)
    (req : CreateBillItemRequest)
    (store : Store) (hnd : (store.bills.map BillRow.ID).Nodup) :
    billsStep (.updateBillItem faults billID itemID userID req) store
      (UpdateBillItem faults store billID itemID userID req).1 := by
  unfold UpdateBillItem
  cases hg : GetBillByID faults store billID userID with
  | error e => exact billsStep_same _ _
  | ok bill =>
    have hmem := firstBill_mem (GetBillByID_ok hg).1
    simp only
    repeat' split
    all_goals try dsimp only
    all_goals first
      | exact billsStep_same _ _
      | refine billsStep_save _ hnd ?_ ?_ _ hmem ⟨rfl, Or.inl rfl⟩ <;> rfl

/-- The bills table after `DeleteBillItem`. -/
theorem step_deleteBillItem (faults : Faults) (billID itemID userID : ℕ)
    (store : Store) (hnd : (store.bills.map BillRow.ID).Nodup) :
    billsStep (.deleteBillItem faults billID itemID userID) store
      (DeleteBillItem faults store billID itemID userID).1 := by
  unfold DeleteBillItem
  cases hg : GetBillByID faults store billID userID with
  | error e => exact billsStep_same _ _
  | ok bill =>
    have hmem := firstBill_mem (GetBillByID_ok hg).1
    simp only
    repeat' split
    all_goals try dsimp only
    all_goals first
      | exact billsStep_same _ _
      | refine billsStep_save _ hnd ?_ ?_ _ hmem ⟨rfl, Or.inl rfl⟩ <;> rfl

/-- The bills table after `CreateBill`. -/
theorem step_createBill (faults : Faults) (now userID : ℕ) (req : CreateBillRequest)
    (store : Store) :
    billsStep (.createBill faults now userID req) store
      (CreateBill faults now store userID req).1 := by
  unfold CreateBill
  simp only
  repeat' split
  all_goals first
    | exact billsStep_same _ _
    | exact Or.inr ⟨rfl, _, rfl, rfl, rfl, rfl⟩

/-- The bills table after `CreateSettlement`. -/
theorem step_createSettlement (faults : Faults) (userID : ℕ)
    (req : CalculateSettlementRequest) (result : SettlementResult) (store : Store) :
    billsStep (.createSettlement faults userID req result) store
      (CreateSettlement faults store userID req result).1 := by
  unfold CreateSettlement
  simp only
  repeat' split
  all_goals exact billsStep_same _ _

/-- The bills table after the status update of `ConfirmSettlement`. -/
theorem billsStep_settle (faults : Faults) (now settlementID userID : ℕ)
    {store saved : Store} (hb : saved.bills = store.bills)
    (hn : saved.nextBillID = store.nextBillID) (billIDs : List ℕ)
    (hlinked : ∀ billID ∈ billIDs, billID ∈ store.linkedBillIDs settlementID) :
    billsStep (.confirmSettlement faults now settlementID userID) store
      (saved.updateBillStatus billIDs "settled") := by
  refine Or.inl ⟨fun b => if b.ID ∈ billIDs ∧ b.Deleted = false then
      { b with Status := "settled" } else b, by simp [Store.updateBillStatus, hb], hn,
    fun a _ => ?_⟩
  beta_reduce
  split_ifs with h
  · exact ⟨rfl, Or.inr (Or.inr ⟨by simpa [Operation.settles] using hlinked a.ID h.1, rfl⟩)⟩
  · exact statusStep_refl _ _ a

/-- The bills table after `ConfirmSettlement`. -/
theorem step_confirmSettlement (faults : Faults) (now settlementID userID : ℕ)
    (store : Store) :
    billsStep (.confirmSettlement faults now settlementID userID) store
      (ConfirmSettlement faults now store settlementID userID).1 := by
  unfold ConfirmSettlement
  cases hc : confirmCheck faults store settlementID userID with
  | error e => exact billsStep_same _ _
  | ok loaded =>
    obtain ⟨-, -, hpre⟩ := confirmCheck_ok hc
    simp only [confirmWrite]
    split_ifs
    all_goals try dsimp only
    all_goals first
      | exact billsStep_same _ _
      | refine billsStep_settle faults now settlementID userID ?_ ?_ _ (fun billID h => ?_)
        · rfl
        · rfl
        · rw [hpre] at h
          exact (linkedBillIDs_saveSettlement store _ settlementID billID).mp h

/-- The bills table after any operation that is not a call of `FinalizeBill`
on a bill that is not pending. -/
theorem run_billsStep (op : Operation) (store : Store)
    (hnd : (store.bills.map BillRow.ID).Nodup) (hadm : op.refinalizes store = false) :
    billsStep op store (op.run store) := by
  cases op with
  | createBill faults now userID req => exact step_createBill faults now userID req store
  | updateBill faults billID userID req => exact step_updateBill faults billID userID req store hnd
  | deleteBill faults billID userID => exact step_deleteBill faults billID userID store
  | addBillItem faults billID userID req =>
    exact step_addBillItem faults billID userID req store hnd
  | updateBillItem faults billID itemID userID req =>
    exact step_updateBillItem faults billID itemID userID req store hnd
  | deleteBillItem faults billID itemID userID =>
    exact step_deleteBillItem faults billID itemID userID store hnd
  | finalizeBill faults billID userID =>
    exact step_finalizeBill faults billID userID store hnd hadm
  | createSettlement faults userID req result =>
    exact step_createSettlement faults userID req result store
  | confirmSettlement faults now settlementID userID =>
    exact step_confirmSettlement faults now settlementID userID store

/-- Bill ids stay those of a primary key with a sequence. -/
theorem billsStep_keys {op : Operation} {store store' : Store} (hkeys : store.billKeys)
    (hstep : billsStep op store store') : store'.billKeys := by
  rcases hstep with ⟨f, hb, hn, hf⟩ | ⟨_, b, hb, hid, _, hn⟩
  · have hids : store'.bills.map BillRow.ID = store.bills.map BillRow.ID := by
      rw [hb, List.map_map]
      exact List.map_congr_left (fun a ha => (hf a ha).1)
    refine ⟨hids ▸ hkeys.1, fun b hbm => ?_⟩
    rw [hb, List.mem_map] at hbm
    obtain ⟨a, ha, rfl⟩ := hbm
    rw [hn, (hf a ha).1]
    exact hkeys.2 a ha
  · refine ⟨?_, fun c hc => ?_⟩
    · rw [hb, List.map_append, List.map_cons, List.map_nil]
      refine List.Nodup.append hkeys.1 (List.nodup_singleton _) ?_
      intro x hx hx'
      rw [List.mem_singleton] at hx'
      rw [List.mem_map] at hx
      obtain ⟨a, ha, rfl⟩ := hx
      have := hkeys.2 a ha
      omega
    · rw [hb, List.mem_append, List.mem_singleton] at hc
      rw [hn]
      rcases hc with hc | rfl
      · exact Nat.lt_succ_of_lt (hkeys.2 c hc)
      · omega

/-- Every bill is still in the table after the operation, changed as allowed. -/
theorem billsStep_image {op : Operation} {store store' : Store}
    (hstep : billsStep op store store') :
    ∀ a ∈ store.bills, ∃ b ∈ store'.bills, statusStep op store a b := by
  intro a ha
  rcases hstep with ⟨f, hb, _, hf⟩ | ⟨_, b, hb, _, _, _⟩
  · exact ⟨f a, hb ▸ List.mem_map_of_mem f ha, hf a ha⟩
  · exact ⟨a, hb ▸ List.mem_append_left _ ha, statusStep_refl op store a⟩

/-- Every bill in the table after the operation was there before or has just
been created, pending. -/
theorem billsStep_origin {op : Operation} {store store' : Store}
    (hstep : billsStep op store store') :
    ∀ b ∈ store'.bills, (∃ a ∈ store.bills, a.ID = b.ID) ∨
      (op.isCreateBill = true ∧ b.ID = store.nextBillID ∧ b.Status = "pending") := by
  intro b hbm
  rcases hstep with ⟨f, hb, _, hf⟩ | ⟨hop, c, hb, hid, hst, _⟩
  · rw [hb, List.mem_map] at hbm
    obtain ⟨a, ha, rfl⟩ := hbm
    exact Or.inl ⟨a, ha, (hf a ha).1.symm⟩
  · rw [hb, List.mem_append, List.mem_singleton] at hbm
    rcases hbm with hbm | rfl
    · exact Or.inl ⟨b, hbm, rfl⟩
    · exact Or.inr ⟨hop, hid, hst⟩

/-- The statuses stay among pending, finalized and settled. -/
theorem billsStep_statuses {op : Operation} {store store' : Store}
    (hdom : store.billStatuses) (hstep : billsStep op store store') :
    store'.billStatuses := by
  intro b hbm
  rcases hstep with ⟨f, hb, _, hf⟩ | ⟨_, c, hb, _, hst, _⟩
  · rw [hb, List.mem_map] at hbm
    obtain ⟨a, ha, rfl⟩ := hbm
    rcases (hf a ha).2 with h | ⟨_, _, h⟩ | ⟨_, h⟩
    · rw [h]; exact hdom a ha
    · exact Or.inr (Or.inl h)
    · exact Or.inr (Or.inr h)
  · rw [hb, List.mem_append, List.mem_singleton] at hbm
    rcases hbm with hbm | rfl
    · exact hdom b hbm
    · exact Or.inl hst

/-- An allowed change does not lead back to pending. -/
theorem statusStep_not_pending {op : Operation} {store : Store} {a b : BillRow}
    (h : statusStep op store a b) (ha : a.Status ≠ "pending") : b.Status ≠ "pending" := by
  rcases h.2 with h | ⟨_, _, h⟩ | ⟨_, h⟩
  · rw [h]; exact ha
  · rw [h]; decide
  · rw [h]; decide

/-- An allowed change leaves a settled bill settled. -/
theorem statusStep_settled {op : Operation} {store : Store} {a b : BillRow}
    (h : statusStep op store a b) (ha : a.Status = "settled") : b.Status = "settled" := by
  rcases h.2 with h | ⟨_, hp, _⟩ | ⟨_, h⟩
  · rw [h]; exact ha
  · rw [ha] at hp; exact absurd hp (by decide)
  · exact h

/-- A property of the status that every allowed change keeps is kept by any
list of operations none of which is a call of `FinalizeBill` on a bill that is
not pending. -/
theorem runAll_keeps (P : String → Prop)
    (hP : ∀ (op : Operation) (store : Store) (a b : BillRow),
      statusStep op store a b → P a.Status → P b.Status)
    (ops : List Operation) :
    ∀ store : Store, store.billKeys → Operation.noneRefinalizes ops store →
      ∀ a ∈ store.bills, P a.Status →
      ∀ b ∈ (Operation.runAll ops store).bills, b.ID = a.ID → P b.Status := by
  induction ops with
  | nil =>
    intro store hkeys _ a ha hst b hb hid
    have : b = a := List.inj_on_of_nodup_map hkeys.1 hb ha hid
    rw [this]
    exact hst
  | cons op ops ih =>
    intro store hkeys hadm a ha hst b hb hid
    have hstep := run_billsStep op store hkeys.1 hadm.1
    obtain ⟨a', ha', hs⟩ := billsStep_image hstep a ha
    exact ih (op.run store) (billsStep_keys hkeys hstep) hadm.2 a' ha'
      (hP op store a a' hs hst) b hb (hid.trans hs.1.symm)

/-- C19: from a store whose bill ids are unique and below the next id and
whose bills have the statuses pending, finalized and settled, every
operation of the bill and settlement services (DeleteBill included) other
than a call of FinalizeBill on a bill that is not pending keeps the ids and
the statuses so, keeps every bill, and leaves its status as it was unless the
operation is FinalizeBill and the status goes from pending to finalized, or
the operation is ConfirmSettlement on a settlement the bill is linked to and
the status goes from pending or finalized to settled; a bill that was not in
the store before has been created by CreateBill and is pending; and over any
list of operations none of which is a call of FinalizeBill on a bill that is
not pending, a settled bill stays settled and a bill whose status is not
pending does not become pending. -/
theorem C19_status_changes (op : Operation) (ops : List Operation) (store : Store)
    (hkeys : store.billKeys) (hdom : store.billStatuses)
    (hop : op.refinalizes store = false) (hops : Operation.noneRefinalizes ops store) :
    (op.run store).billKeys ∧ (op.run store).billStatuses ∧
    (∀ a ∈ store.bills, ∃ b ∈ (op.run store).bills, b.ID = a.ID ∧
      (b.Status = a.Status ∨
        (op.isFinalizeBill = true ∧ a.Status = "pending" ∧ b.Status = "finalized") ∨
        (op.settles store a.ID = true ∧ (a.Status = "pending" ∨ a.Status = "finalized") ∧
          b.Status = "settled"))) ∧
    (∀ b ∈ (op.run store).bills, (∃ a ∈ store.bills, a.ID = b.ID) ∨
      (op.isCreateBill = true ∧ b.ID = store.nextBillID ∧ b.Status = "pending")) ∧
    (∀ a ∈ store.bills, a.Status = "settled" →
      ∀ b ∈ (Operation.runAll ops store).bills, b.ID = a.ID → b.Status = "settled") ∧
    (∀ a ∈ store.bills, a.Status ≠ "pending" →
      ∀ b ∈ (Operation.runAll ops store).bills, b.ID = a.ID → b.Status ≠ "pending") := by
  have hstep := run_billsStep op store hkeys.1 hop
  refine ⟨billsStep_keys hkeys hstep, billsStep_statuses hdom hstep, fun a ha => ?_,
    billsStep_origin hstep,
    runAll_keeps (fun s => s = "settled") (fun _ _ _ _ h => statusStep_settled h) ops store
      hkeys hops,
    runAll_keeps (fun s => s ≠ "pending") (fun _ _ _ _ h => statusStep_not_pending h) ops store
      hkeys hops⟩
  obtain ⟨b, hb, hid, hs⟩ := billsStep_image hstep a ha
  refine ⟨b, hb, hid, ?_⟩
  rcases hs with h | h | ⟨h1, h2⟩
  · exact Or.inl h
  · exact Or.inr (Or.inl h)
  · rcases hdom a ha with h | h | h
    · exact Or.inr (Or.inr ⟨h1, Or.inl h, h2⟩)
    · exact Or.inr (Or.inr ⟨h1, Or.inr h, h2⟩)
    · exact Or.inl (h2.trans h.symm)

/-- Witness of C19: in the store with the confirmed settlement, whose bill 1
is settled, Bob finalizes his pending bill 3; bill 1 is still settled after
Bob has finalized bill 3 and Ann has then called UpdateBill on bill 1. -/
theorem C19_status_changes_witness :
    storeConfirmedSettlement.billKeys ∧ storeConfirmedSettlement.billStatuses ∧
    (Operation.finalizeBill noFaults 3 2).refinalizes storeConfirmedSettlement = false ∧
    ((Operation.finalizeBill noFaults 3 2).run storeConfirmedSettlement).billKeys ∧
    ((Operation.finalizeBill noFaults 3 2).run storeConfirmedSettlement).billStatuses ∧
    (∀ b ∈ (Operation.runAll [.finalizeBill noFaults 3 2, .updateBill noFaults 1 1
        { Title := "Food", Description := "", TotalAmount := 31, BillDate := 1 }]
        storeConfirmedSettlement).bills, b.ID = 1 → b.Status = "settled") :=
  have hkeys : storeConfirmedSettlement.billKeys := ⟨by decide, by decide⟩
  have hdom : storeConfirmedSettlement.billStatuses := by
    unfold Store.billStatuses
    decide!
  have hop : (Operation.finalizeBill noFaults 3 2).refinalizes storeConfirmedSettlement =
      false := by decide!
  have h := C19_status_changes (.finalizeBill noFaults 3 2)
    [.finalizeBill noFaults 3 2, .updateBill noFaults 1 1
      { Title := "Food", Description := "", TotalAmount := 31, BillDate := 1 }]
    storeConfirmedSettlement hkeys hdom hop ⟨hop, by decide!, trivial⟩
  ⟨hkeys, hdom, hop, h.1, h.2.1,
    h.2.2.2.2.1
      { ID := 1, GroupID := 1, Title := "Groceries", Description := "",
        TotalAmount := 30, PaidByID := 1, BillDate := 1,
        Status := "settled", Deleted := false } (by decide!) rfl⟩

/-! ## Password validation -/

/-- C24: ValidatePassword returns an error if and only if the byte length of
the password is less than 6 or greater than 100; the passwords of the tests,
of lengths 11, 6 and 100, are accepted and those of lengths 4 and 101 are
rejected. -/
theorem C24_password_length (password : GoString) :
    ((∃ e, ValidatePassword password = .error e) ↔
      password.length < 6 ∨ password.length > 100) ∧
    (ValidatePassword password = .ok () ↔
      6 ≤ password.length ∧ password.length ≤ 100) ∧
    ValidatePassword [112, 97, 115, 115, 119, 111, 114, 100, 49, 50, 51] = .ok () ∧
    ValidatePassword [49, 50, 51, 52, 53, 54] = .ok () ∧
    ValidatePassword (List.replicate 100 0) = .ok () ∧
    ValidatePassword [112, 97, 115, 115] =
      .error "password must be at least 6 characters long" ∧
    ValidatePassword (List.replicate 101 0) =
      .error "password must not exceed 100 characters" := by
  refine ⟨?_, ?_, by decide, by decide, by decide, by decide, by decide⟩
  · unfold ValidatePassword
    split_ifs with h1 h2
    · simp [h1]
    · simp [h2]
    · simp only [reduceCtorEq, exists_false, false_iff, not_or]
      exact ⟨h1, h2⟩
  · unfold ValidatePassword
    split_ifs with h1 h2
    · simp only [reduceCtorEq, false_iff, not_and, not_le]
      omega
    · simp only [reduceCtorEq, false_iff, not_and, not_le]
      omega
    · simp only [true_iff]
      omega

/-! ## Termination of the matching loop -/

/-- Every round of the matching loop drops the head debtor or the head
creditor: the side that holds the minimum is left with 0. -/
theorem step_advances (d : balanceInfo) (ds : List balanceInfo) (c : balanceInfo)
    (cs : List balanceInfo) : stepDebtors d ds c = ds ∨ stepCreditors d c cs = cs := by
  have hpos := dust_pos
  unfold stepDebtors stepCreditors
  rcases stepAmount_eq d c with h | h
  · left
    rw [if_pos (by rw [h]; simp; exact le_of_lt hpos)]
  · right
    rw [if_pos (by rw [h]; simp; exact le_of_lt hpos)]

/-- The number of rounds is below the number of debtors and creditors. -/
theorem matchRounds_length (fuel : ℕ) :
    ∀ ds cs : List balanceInfo, (matchRounds fuel ds cs).length ≤
      if ds = [] ∨ cs = [] then 0 else ds.length + cs.length - 1 := by
  induction fuel with
  | zero =>
    intro ds cs
    cases ds with
    | nil => simp [matchRounds]
    | cons d ds => cases cs <;> simp [matchRounds]
  | succ fuel ih =>
    intro ds cs
    cases ds with
    | nil => simp [matchRounds]
    | cons d ds =>
      cases cs with
      | nil => simp [matchRounds]
      | cons c cs =>
        have h1 := ih (stepDebtors d ds c) (stepCreditors d c cs)
        have h2 := step_length d ds c cs
        have h4 : ¬ (d :: ds = [] ∨ c :: cs = []) := by simp
        rw [if_neg h4]
        simp only [matchRounds, List.length_cons]
        split_ifs at h1 with h3
        · omega
        · have h5 : (stepDebtors d ds c).length ≠ 0 := fun e =>
            h3 (Or.inl (List.length_eq_zero.mp e))
          have h6 : (stepCreditors d c cs).length ≠ 0 := fun e =>
            h3 (Or.inr (List.length_eq_zero.mp e))
          omega

/-- A loop that has returned returns the same with more fuel, after the same
rounds. -/
theorem matchLoop_more_fuel (fuel : ℕ) :
    ∀ ds cs ts, matchLoop fuel ds cs = some ts → ∀ k,
      matchLoop (fuel + k) ds cs = some ts ∧
        matchRounds (fuel + k) ds cs = matchRounds fuel ds cs := by
  induction fuel with
  | zero =>
    intro ds cs ts h k
    cases ds with
    | nil =>
      cases k <;> simp_all [matchLoop, matchRounds]
    | cons d ds =>
      cases cs with
      | nil => cases k <;> simp_all [matchLoop, matchRounds]
      | cons c cs => simp [matchLoop] at h
  | succ fuel ih =>
    intro ds cs ts h k
    cases ds with
    | nil => simp_all [matchLoop, matchRounds]
    | cons d ds =>
      cases cs with
      | nil => simp_all [matchLoop, matchRounds]
      | cons c cs =>
        rw [matchLoop_cons] at h
        cases hr : matchLoop fuel (stepDebtors d ds c) (stepCreditors d c cs) with
        | none => rw [hr] at h; simp at h
        | some rest =>
          have := ih _ _ _ hr k
          rw [show fuel + 1 + k = (fuel + k) + 1 by omega, matchLoop_cons, this.1, ← h, hr]
          simp [matchRounds, this.2]

/-- The transactions are at most as many as the rounds. -/
theorem flatMap_stepEmitted_length (rounds : List (balanceInfo × balanceInfo)) :
    (rounds.flatMap (fun r => stepEmitted r.1 r.2)).length ≤ rounds.length := by
  induction rounds with
  | nil => simp
  | cons r rounds ih =>
    have := length_stepEmitted r.1 r.2
    simp only [List.flatMap_cons, List.length_append, List.length_cons]
    omega

/-- C26: optimizeTransactions returns on every input, and with any more fuel
the loop returns the same after the same rounds. Every round drops the head
debtor or the head creditor, so the rounds are at most
debtors + creditors - 1 when there is a debtor and a creditor and none
otherwise, and the transactions are at most as many as the rounds. -/
theorem C26_matching_terminates (visited : List UserBalance) :
    (∀ d ds c cs, stepDebtors d ds c = ds ∨ stepCreditors d c cs = cs) ∧
    ∃ ts, optimizeTransactions visited = some ts ∧
      (∀ k, matchLoop (countDebtors visited + countCreditors visited + k)
          (sortSlice amountGreater (debtorsOf visited))
          (sortSlice amountGreater (creditorsOf visited)) = some ts ∧
        matchRounds (countDebtors visited + countCreditors visited + k)
          (sortSlice amountGreater (debtorsOf visited))
          (sortSlice amountGreater (creditorsOf visited)) =
        matchRounds (countDebtors visited + countCreditors visited)
          (sortSlice amountGreater (debtorsOf visited))
          (sortSlice amountGreater (creditorsOf visited))) ∧
      (matchRounds (countDebtors visited + countCreditors visited)
          (sortSlice amountGreater (debtorsOf visited))
          (sortSlice amountGreater (creditorsOf visited))).length ≤
        (if countDebtors visited = 0 ∨ countCreditors visited = 0 then 0
         else countDebtors visited + countCreditors visited - 1) ∧
      ts.length ≤ (matchRounds (countDebtors visited + countCreditors visited)
          (sortSlice amountGreater (debtorsOf visited))
          (sortSlice amountGreater (creditorsOf visited))).length := by
  refine ⟨step_advances, ?_⟩
  obtain ⟨ts, hts⟩ := optimizeTransactions_total visited
  refine ⟨ts, hts, ?_⟩
  have hpd := sortSlice_perm amountGreater (debtorsOf visited)
  have hpc := sortSlice_perm amountGreater (creditorsOf visited)
  have hd : (sortSlice amountGreater (debtorsOf visited)).length = countDebtors visited := by
    rw [hpd.length_eq, length_debtorsOf]
  have hc : (sortSlice amountGreater (creditorsOf visited)).length =
      countCreditors visited := by
    rw [hpc.length_eq, length_creditorsOf]
  unfold optimizeTransactions at hts
  simp only [hd, hc] at hts
  refine ⟨fun k => matchLoop_more_fuel _ _ _ _ hts k, ?_, ?_⟩
  · have h := matchRounds_length (countDebtors visited + countCreditors visited)
      (sortSlice amountGreater (debtorsOf visited))
      (sortSlice amountGreater (creditorsOf visited))
    simp only [← List.length_eq_zero, hd, hc] at h
    exact h
  · rw [matchLoop_rounds _ _ _ _ hts]
    exact flatMap_stepEmitted_length _

/-! ## No member is over-settled -/

/-- The sender of an emitted transaction has a negative net balance and its
receiver a positive one. -/
theorem optimizeTransactions_sides (visited : List UserBalance) (ts : List Transaction)
    (hts : optimizeTransactions visited = some ts) :
    ∀ t ∈ ts, (∃ b ∈ visited, b.UserID = t.FromUserID ∧ b.Balance < 0) ∧
      (∃ b ∈ visited, b.UserID = t.ToUserID ∧ b.Balance > 0) := by
  unfold optimizeTransactions at hts
  have heq := matchLoop_rounds _ _ _ _ hts
  intro t ht
  rw [heq, List.mem_flatMap] at ht
  obtain ⟨r, hr, hte⟩ := ht
  obtain ⟨hfrom, hto, -, -⟩ := mem_stepEmitted r.1 r.2 t hte
  obtain ⟨hd, hc⟩ := matchRounds_ids _ _ _ r hr
  have hpd := sortSlice_perm amountGreater (debtorsOf visited)
  have hpc := sortSlice_perm amountGreater (creditorsOf visited)
  have hd2 := mem_debtorsOf_ids visited _ ((hpd.map balanceInfo.userID).subset hd)
  have hc2 := mem_creditorsOf_ids visited _ ((hpc.map balanceInfo.userID).subset hc)
  rw [← hfrom] at hd2
  rw [← hto] at hc2
  exact ⟨hd2, hc2⟩

/-- C27: with one balance per member, the amounts of the emitted transactions
sent by a member with a negative net add up to at most the absolute net, the
amounts received by a member with a positive net add up to at most the net,
no sender of a transaction is the receiver of a transaction (of the same one
in particular), and a member with net zero is on no side of a transaction. -/
theorem C27_never_over_settles (visited : List UserBalance)
    (hn : (visited.map UserBalance.UserID).Nodup) :
    ∃ ts, optimizeTransactions visited = some ts ∧
      (∀ b ∈ visited, b.Balance < 0 → sentBy ts b.UserID ≤ |b.Balance|) ∧
      (∀ b ∈ visited, b.Balance > 0 → receivedBy ts b.UserID ≤ b.Balance) ∧
      (∀ t ∈ ts, ∀ t2 ∈ ts, t.FromUserID ≠ t2.ToUserID) ∧
      (∀ t ∈ ts, t.FromUserID ≠ t.ToUserID) ∧
      (∀ b ∈ visited, b.Balance = 0 →
        ∀ t ∈ ts, t.FromUserID ≠ b.UserID ∧ t.ToUserID ≠ b.UserID) := by
  obtain ⟨ts, hts⟩ := optimizeTransactions_total visited
  have hsides := optimizeTransactions_sides visited ts hts
  have hinj := List.inj_on_of_nodup_map hn
  have hcross : ∀ t ∈ ts, ∀ t2 ∈ ts, t.FromUserID ≠ t2.ToUserID := by
    intro t ht t2 ht2 he
    obtain ⟨b1, hb1, hid1, hneg⟩ := (hsides t ht).1
    obtain ⟨b2, hb2, hid2, hpos⟩ := (hsides t2 ht2).2
    have : b1 = b2 := hinj hb1 hb2 (by rw [hid1, hid2, he])
    subst this
    linarith
  refine ⟨ts, hts, ?_, ?_, hcross, fun t ht => hcross t ht t ht, ?_⟩
  · intro b hb hneg
    unfold optimizeTransactions at hts
    have hpd := sortSlice_perm amountGreater (debtorsOf visited)
    have hpc := sortSlice_perm amountGreater (creditorsOf visited)
    have h := (matchLoop_sent _ _ _ _ hts
      (nonneg_perm hpd (debtorsOf_nonneg visited))
      (nonneg_perm hpc (creditorsOf_nonneg visited)) b.UserID).2.1
    rw [owedBy_perm hpd, owedBy_debtorsOf visited hn b hb, if_pos hneg] at h
    exact h
  · intro b hb hpos
    unfold optimizeTransactions at hts
    have hpd := sortSlice_perm amountGreater (debtorsOf visited)
    have hpc := sortSlice_perm amountGreater (creditorsOf visited)
    have h := (matchLoop_received _ _ _ _ hts
      (nonneg_perm hpd (debtorsOf_nonneg visited))
      (nonneg_perm hpc (creditorsOf_nonneg visited)) b.UserID).2.1
    rw [owedBy_perm hpc, owedBy_creditorsOf visited hn b hb, if_pos hpos] at h
    exact h
  · intro b hb hzero t ht
    constructor
    · intro he
      obtain ⟨b1, hb1, hid1, hneg⟩ := (hsides t ht).1
      have : b1 = b := hinj hb1 hb (by rw [hid1, he])
      subst this
      linarith
    · intro he
      obtain ⟨b2, hb2, hid2, hpos⟩ := (hsides t ht).2
      have : b2 = b := hinj hb2 hb (by rw [hid2, he])
      subst this
      linarith

/-- Witness of C27: the balances of bill 1, Ann +20.00, Bob -10.00, Cy -10.00. -/
theorem C27_never_over_settles_witness :
    (resultBill1.Balances.map UserBalance.UserID).Nodup ∧
    ∃ ts, optimizeTransactions resultBill1.Balances = some ts ∧
      (∀ t ∈ ts, ∀ t2 ∈ ts, t.FromUserID ≠ t2.ToUserID) ∧
      (∀ t ∈ ts, t.FromUserID ≠ t.ToUserID) :=
  have hn : (resultBill1.Balances.map UserBalance.UserID).Nodup := by decide
  match C27_never_over_settles resultBill1.Balances hn with
  | ⟨ts, hts, _, _, h3, h4, _⟩ => ⟨hn, ts, hts, h3, h4⟩

/-! ## The items that are stored -/

/-- What the item loop of `CreateBill` returns when it returns without error:
the rows of the request items, and the sum of their amount x quantity. -/
theorem createBillItems_result (faults : Faults) (store : Store) (groupID billID : ℕ)
    (reqItems : List CreateBillItemRequest) :
    ∀ i nextID items owners total,
      createBillItems faults store groupID billID reqItems i nextID =
        .ok (items, owners, total) →
      items = storedItems billID nextID reqItems ∧ total = requestTotal reqItems := by
  induction reqItems with
  | nil =>
    intro i nextID items owners total h
    simp only [createBillItems, Except.ok.injEq, Prod.mk.injEq] at h
    obtain ⟨rfl, -, rfl⟩ := h
    exact ⟨rfl, by simp [requestTotal]⟩
  | cons r rest ih =>
    intro i nextID items owners total h
    have hq : (if r.Quantity = 0 then (1 : ℤ) else r.Quantity) = storedQuantity r := rfl
    unfold createBillItems at h
    simp only [hq] at h
    by_cases hf : faults (.createItem i) = true
    · simp [hf] at h
    · simp only [hf, Bool.false_eq_true, ↓reduceIte] at h
      split at h
      · cases h
      · split at h
        · cases h
        · rename_i items' owners' total' hrest
          simp only [Except.ok.injEq, Prod.mk.injEq] at h
          obtain ⟨rfl, -, rfl⟩ := h
          obtain ⟨hi, ht⟩ := ih _ _ _ _ _ hrest
          subst hi ht
          exact ⟨rfl, by simp [requestTotal]⟩

/-- A successful `CreateBill` has appended the bill of the request and the
rows of its items, and the total of the request is within the tolerance of
the sum of the items. -/
theorem CreateBill_success {faults : Faults} {now : ℕ} {store store' : Store} {userID : ℕ}
    {req : CreateBillRequest} {bill : BillRow}
    (hok : CreateBill faults now store userID req = (store', .ok bill)) :
    bill = storedBill now store userID req ∧
    store'.bills = store.bills ++ [bill] ∧
    store'.items = store.items ++ storedItems store.nextBillID store.nextItemID req.Items ∧
    |req.TotalAmount - requestTotal req.Items| < dust := by
  unfold CreateBill at hok
  by_cases h1 : ¬ IsUserMember store req.GroupID userID = true
  · rw [if_pos h1] at hok
    cases hok
  rw [if_neg h1] at hok
  simp only at hok
  by_cases h2 : faults .createBill = true
  · rw [if_pos h2] at hok
    cases hok
  rw [if_neg h2] at hok
  cases hitems : createBillItems faults store req.GroupID store.nextBillID req.Items 0
      store.nextItemID with
  | error e =>
    rw [hitems] at hok
    cases hok
  | ok r =>
    obtain ⟨items, owners, itemsTotal⟩ := r
    obtain ⟨hi, ht⟩ := createBillItems_result _ _ _ _ _ _ _ _ _ _ hitems
    subst hi ht
    rw [hitems] at hok
    simp only at hok
    by_cases h3 : ¬ |req.TotalAmount - requestTotal req.Items| < dust
    · rw [if_pos h3] at hok
      cases hok
    rw [if_neg h3] at hok
    by_cases h4 : faults .commit = true
    · rw [if_pos h4] at hok
      cases hok
    rw [if_neg h4] at hok
    by_cases h5 : faults .reload = true
    · rw [if_pos h5] at hok
      cases hok
    rw [if_neg h5] at hok
    simp only [Prod.mk.injEq, Except.ok.injEq] at hok
    obtain ⟨rfl, rfl⟩ := hok
    exact ⟨rfl, rfl, rfl, not_not.mp h3⟩

/-- The stored quantity of a request item is never 0. -/
theorem storedQuantity_ne_zero (itemReq : CreateBillItemRequest) :
    storedQuantity itemReq ≠ 0 := by
  unfold storedQuantity
  split_ifs with h
  · decide
  · exact h

/-- The rows written for request items carry their amounts, as the column
keeps them, and their stored quantities. -/
theorem mem_storedItems (billID : ℕ) (reqItems : List CreateBillItemRequest) :
    ∀ nextID, ∀ item ∈ storedItems billID nextID reqItems,
      ∃ itemReq ∈ reqItems, item.Amount = Decimal.column itemReq.Amount ∧
        item.Quantity = storedQuantity itemReq := by
  induction reqItems with
  | nil => intro nextID item h; simp [storedItems] at h
  | cons r rest ih =>
    intro nextID item h
    simp only [storedItems, List.mem_cons] at h
    rcases h with rfl | h
    · exact ⟨r, List.mem_cons_self _ _, rfl, rfl⟩
    · obtain ⟨q, hq, h1, h2⟩ := ih _ item h
      exact ⟨q, List.mem_cons_of_mem _ hq, h1, h2⟩

/-- The bill found by id has that id and is not deleted. -/
theorem firstBill_spec {store : Store} {billID : ℕ} {bill : BillRow}
    (h : store.firstBill billID = some bill) : bill.ID = billID ∧ bill.Deleted = false := by
  have := List.find?_some h
  simpa using this

/-- The item found by id in a bill has that id and belongs to the bill. -/
theorem firstItem_spec {store : Store} {itemID billID : ℕ} {item : ItemRow}
    (h : store.firstItem itemID billID = some item) :
    item.ID = itemID ∧ item.BillID = billID ∧ item ∈ store.items := by
  have h1 := List.find?_some h
  have h2 := List.mem_of_find?_eq_some h
  simp only [decide_eq_true_eq] at h1
  exact ⟨h1.1, h1.2, h2⟩

/-- Writing a preloaded item keeps every stored row that belongs to the bill
of the item. -/
theorem upsertItem_mem {store : Store} {item row : ItemRow} (hrow : row ∈ store.items)
    (hbill : row.BillID = item.BillID) : row ∈ (store.upsertItem item).items := by
  unfold Store.upsertItem
  split
  · refine List.mem_map.mpr ⟨row, hrow, ?_⟩
    split_ifs
    · rw [← hbill]
    · rfl
  · exact List.mem_append_left _ hrow

/-- Writing the preloaded items of a bill keeps every stored row that belongs
to the bill. -/
theorem foldl_upsertItem_mem (billID : ℕ) (items : List (ItemRow × List User))
    {row : ItemRow} (hbill : row.BillID = billID) :
    ∀ store : Store, row ∈ store.items →
      row ∈ (items.foldl (fun s p => s.upsertItem { p.1 with BillID := billID }) store).items := by
  induction items with
  | nil => intro store h; exact h
  | cons p items ih =>
    intro store h
    rw [List.foldl_cons]
    exact ih _ (upsertItem_mem h hbill)

/-- The call `Save(&bill)` keeps every stored item row that belongs to the
bill. -/
theorem saveBill_mem_items {store : Store} {bill : BillRow} {row : ItemRow}
    (items : List (ItemRow × List User)) (hrow : row ∈ store.items)
    (hbill : row.BillID = bill.ID) : row ∈ (store.saveBill bill items).items := by
  unfold Store.saveBill
  exact foldl_upsertItem_mem bill.ID items hbill _ hrow

/-- After a preloaded item has been written, a row with its id is stored. -/
theorem upsertItem_has_id (store : Store) (item : ItemRow) :
    ∃ row ∈ (store.upsertItem item).items, row.ID = item.ID := by
  unfold Store.upsertItem
  split
  · rename_i h
    obtain ⟨row, hrow, hid⟩ := List.any_eq_true.mp h
    have hid' : row.ID = item.ID := by simpa using hid
    exact ⟨{ row with BillID := item.BillID },
      List.mem_map.mpr ⟨row, hrow, by rw [if_pos hid']⟩, hid'⟩
  · exact ⟨_, List.mem_append_right _ (List.mem_singleton.mpr rfl), rfl⟩

/-- Writing a preloaded item keeps the ids that are stored. -/
theorem upsertItem_keeps_id {store : Store} (item : ItemRow) {k : ℕ}
    (h : ∃ row ∈ store.items, row.ID = k) :
    ∃ row ∈ (store.upsertItem item).items, row.ID = k := by
  obtain ⟨row, hrow, hid⟩ := h
  unfold Store.upsertItem
  split
  · by_cases hc : row.ID = item.ID
    · exact ⟨{ row with BillID := item.BillID },
        List.mem_map.mpr ⟨row, hrow, by rw [if_pos hc]⟩, hid⟩
    · exact ⟨row, List.mem_map.mpr ⟨row, hrow, by rw [if_neg hc]⟩, hid⟩
  · exact ⟨row, List.mem_append_left _ hrow, hid⟩

/-- After the preloaded items have been written, a row is stored under the id
of each of them. -/
theorem foldl_upsertItem_has_id (billID : ℕ) (items : List (ItemRow × List User))
    (k : ℕ) :
    ∀ store : Store, ((∃ p ∈ items, p.1.ID = k) ∨ ∃ row ∈ store.items, row.ID = k) →
      ∃ row ∈ (items.foldl (fun s p => s.upsertItem { p.1 with BillID := billID })
        store).items, row.ID = k := by
  induction items with
  | nil =>
    intro store h
    rcases h with ⟨p, hp, -⟩ | h
    · simp at hp
    · exact h
  | cons q items ih =>
    intro store h
    rw [List.foldl_cons]
    apply ih
    rcases h with ⟨p, hp, hk⟩ | h
    · rcases List.mem_cons.mp hp with rfl | hp
      · exact Or.inr (hk ▸ upsertItem_has_id store { p.1 with BillID := billID })
      · exact Or.inl ⟨p, hp, hk⟩
    · exact Or.inr (upsertItem_keeps_id _ h)

/-- After `Save(&bill)` a row is stored under the id of every preloaded item. -/
theorem saveBill_has_id (store : Store) (bill : BillRow) (items : List (ItemRow × List User))
    {p : ItemRow × List User} (hp : p ∈ items) :
    ∃ row ∈ (store.saveBill bill items).items, row.ID = p.1.ID := by
  unfold Store.saveBill
  exact foldl_upsertItem_has_id bill.ID items p.1.ID _ (Or.inl ⟨p, hp, rfl⟩)

/-- What a successful `AddBillItem` has written: nothing when its commit has
failed; otherwise the row of the request item is stored, its amount as the
column keeps it, and the total of the bill is raised by the line total of
the request. -/
theorem AddBillItem_success {faults : Faults} {store store' : Store} {billID userID : ℕ}
    {req : CreateBillItemRequest} {item : ItemRow}
    (hok : AddBillItem faults store billID userID req = (store', .ok item)) :
    ∃ bill, store.firstBill billID = some bill ∧ bill.Status = "pending" ∧
      (faults .commit = true → store' = store) ∧
      (faults .commit = false →
        storedItem billID store.nextItemID req ∈ store'.items ∧
        store'.bills = store.bills.map (fun b =>
          if b.ID = bill.ID ∧ b.Deleted = false then
            { bill with
              TotalAmount :=
                Decimal.column (bill.TotalAmount + req.Amount * (storedQuantity req : ℚ)) }
          else b)) := by
  have hq : (if req.Quantity = 0 then (1 : ℤ) else req.Quantity) = storedQuantity req := rfl
  unfold AddBillItem at hok
  cases hg : GetBillByID faults store billID userID with
  | error e => simp [hg] at hok
  | ok bill =>
    have hfirst := (GetBillByID_ok hg).1
    simp only [hg, hq] at hok
    by_cases h1 : bill.Status ≠ "pending"
    · rw [if_pos h1] at hok
      cases hok
    rw [if_neg h1] at hok
    by_cases h2 : bill.PaidByID ≠ userID ∧ ¬ IsUserAdmin store bill.GroupID userID = true
    · rw [if_pos h2] at hok
      cases hok
    rw [if_neg h2] at hok
    by_cases h3 : faults (.createItem 0) = true
    · rw [if_pos h3] at hok
      cases hok
    rw [if_neg h3] at hok
    cases howners : ownerRows faults store bill.GroupID store.nextItemID 0 req.IsShared
        req.OwnerIDs with
    | error e =>
      rw [howners] at hok
      cases hok
    | ok owners =>
      rw [howners] at hok
      simp only at hok
      by_cases h4 : faults .saveBill = true
      · rw [if_pos h4] at hok
        cases hok
      rw [if_neg h4] at hok
      simp only [Prod.mk.injEq, Except.ok.injEq] at hok
      obtain ⟨hs, -⟩ := hok
      refine ⟨bill, hfirst, not_not.mp h1, fun h => ?_, fun h => ?_⟩
      · rw [← hs, if_pos h]
      · rw [if_neg (by simp [h])] at hs
        subst hs
        refine ⟨saveBill_mem_items _ ?_ (firstBill_spec hfirst).1.symm, ?_⟩
        · exact List.mem_append_right _ (List.mem_singleton.mpr rfl)
        · exact (saveBill_bills _ _ _).1

/-- What a successful `UpdateBillItem` has written: nothing when its commit
has failed; otherwise the row of the item with the values of the request is
stored, the amount as the column keeps it and the quantity as given, and the
total of the bill is changed by the difference of the line totals. -/
theorem UpdateBillItem_success {faults : Faults} {store store' : Store}
    {billID itemID userID : ℕ} {req : CreateBillItemRequest} {item : ItemRow}
    (hok : UpdateBillItem faults store billID itemID userID req = (store', .ok item)) :
    ∃ bill old, store.firstBill billID = some bill ∧ bill.Status = "pending" ∧
      store.firstItem itemID billID = some old ∧
      (faults .commit = true → store' = store) ∧
      (faults .commit = false →
        updatedItem old req ∈ store'.items ∧
        store'.bills = store.bills.map (fun b =>
          if b.ID = bill.ID ∧ b.Deleted = false then
            { bill with
              TotalAmount := Decimal.column
                (bill.TotalAmount + (req.Amount * (req.Quantity : ℚ) - lineTotal old)) }
          else b)) := by
  unfold UpdateBillItem at hok
  cases hg : GetBillByID faults store billID userID with
  | error e => simp [hg] at hok
  | ok bill =>
    have hfirst := (GetBillByID_ok hg).1
    simp only [hg] at hok
    by_cases h1 : bill.Status ≠ "pending"
    · rw [if_pos h1] at hok
      cases hok
    rw [if_neg h1] at hok
    by_cases h2 : bill.PaidByID ≠ userID ∧ ¬ IsUserAdmin store bill.GroupID userID = true
    · rw [if_pos h2] at hok
      cases hok
    rw [if_neg h2] at hok
    cases hold : (if faults .loadItem = true then none else store.firstItem itemID billID) with
    | none =>
      rw [hold] at hok
      cases hok
    | some old =>
      have hold' : store.firstItem itemID billID = some old := by
        by_cases hl : faults .loadItem = true
        · simp [hl] at hold
        · simpa [hl] using hold
      obtain ⟨-, holdbill, holdmem⟩ := firstItem_spec hold'
      rw [hold] at hok
      simp only at hok
      by_cases h3 : faults .saveItem = true
      · rw [if_pos h3] at hok
        cases hok
      rw [if_neg h3] at hok
      cases howners : ownerRows faults store bill.GroupID old.ID 0 req.IsShared
          req.OwnerIDs with
      | error e =>
        rw [howners] at hok
        cases hok
      | ok owners =>
        rw [howners] at hok
        simp only at hok
        by_cases h4 : faults .saveBill = true
        · rw [if_pos h4] at hok
          cases hok
        rw [if_neg h4] at hok
        simp only [Prod.mk.injEq, Except.ok.injEq] at hok
        obtain ⟨hs, -⟩ := hok
        refine ⟨bill, old, hfirst, not_not.mp h1, hold', fun h => ?_, fun h => ?_⟩
        · rw [← hs, if_pos h]
        · rw [if_neg (by simp [h])] at hs
          subst hs
          refine ⟨saveBill_mem_items _ ?_
            (holdbill.trans (firstBill_spec hfirst).1.symm), ?_⟩
          · exact List.mem_map.mpr ⟨old, holdmem, by rw [if_pos rfl]; rfl⟩
          · exact (saveBill_bills _ _ _).1

/-- What a successful `DeleteBillItem` has written: nothing when its commit
has failed; otherwise the total of the bill is lowered by the line total of
the item, and a row is still stored under the id of the item, the save of
the bill having written its preloaded items. -/
theorem DeleteBillItem_success {faults : Faults} {store store' : Store}
    {billID itemID userID : ℕ}
    (hok : DeleteBillItem faults store billID itemID userID = (store', .ok ())) :
    ∃ bill old, store.firstBill billID = some bill ∧ bill.Status = "pending" ∧
      store.firstItem itemID billID = some old ∧
      (faults .commit = true → store' = store) ∧
      (faults .commit = false →
        (∃ row ∈ store'.items, row.ID = itemID) ∧
        store'.bills = store.bills.map (fun b =>
          if b.ID = bill.ID ∧ b.Deleted = false then
            { bill with TotalAmount := Decimal.column (bill.TotalAmount - lineTotal old) }
          else b)) := by
  unfold DeleteBillItem at hok
  cases hg : GetBillByID faults store billID userID with
  | error e => simp [hg] at hok
  | ok bill =>
    have hfirst := (GetBillByID_ok hg).1
    simp only [hg] at hok
    by_cases h1 : bill.Status ≠ "pending"
    · rw [if_pos h1] at hok
      cases hok
    rw [if_neg h1] at hok
    by_cases h2 : bill.PaidByID ≠ userID ∧ ¬ IsUserAdmin store bill.GroupID userID = true
    · rw [if_pos h2] at hok
      cases hok
    rw [if_neg h2] at hok
    cases hold : (if faults .loadItem = true then none else store.firstItem itemID billID) with
    | none =>
      rw [hold] at hok
      cases hok
    | some old =>
      have hold' : store.firstItem itemID billID = some old := by
        by_cases hl : faults .loadItem = true
        · simp [hl] at hold
        · simpa [hl] using hold
      obtain ⟨holdid, holdbill, holdmem⟩ := firstItem_spec hold'
      rw [hold] at hok
      simp only at hok
      by_cases h3 : faults .deleteItem = true
      · rw [if_pos h3] at hok
        cases hok
      rw [if_neg h3] at hok
      by_cases h4 : faults .saveBill = true
      · rw [if_pos h4] at hok
        cases hok
      rw [if_neg h4] at hok
      simp only [Prod.mk.injEq, and_true] at hok
      refine ⟨bill, old, hfirst, not_not.mp h1, hold', fun h => ?_, fun h => ?_⟩
      · rw [← hok, if_pos h]
      · rw [if_neg (by simp [h])] at hok
        subst hok
        refine ⟨?_, (saveBill_bills _ _ _).1⟩
        have hpre : (old, store.ownersOf old.ID) ∈ store.preloadItems bill.ID := by
          refine List.mem_map.mpr ⟨old, List.mem_filter.mpr ⟨holdmem, ?_⟩, rfl⟩
          simp [holdbill, (firstBill_spec hfirst).1]
        have := saveBill_has_id
          { store with
            items := store.items.filter (fun i => decide (i.ID ≠ old.ID)),
            itemOwners := store.itemOwners.filter (fun o => decide (o.ItemID ≠ itemID)) }
          { bill with TotalAmount := bill.TotalAmount - old.Amount * (old.Quantity : ℚ) }
          (store.preloadItems bill.ID) hpre
        obtain ⟨row, hrow, hid⟩ := this
        exact ⟨row, hrow, hid.trans holdid⟩

/-! ## Creating a bill -/

/-- The owner loop succeeds when no store call fails and every owner is a
member of the group. -/
theorem ownerLoop_ok (store : Store) (groupID itemID i : ℕ) (ownerIDs : List ℕ)
    (h : ∀ o ∈ ownerIDs, IsUserMember store groupID o = true) :
    ∀ j, ∃ rows, ownerLoop noFaults store groupID itemID i ownerIDs j = .ok rows := by
  induction ownerIDs with
  | nil => intro j; exact ⟨[], rfl⟩
  | cons o rest ih =>
    intro j
    obtain ⟨rows, hrows⟩ := ih (fun x hx => h x (List.mem_cons_of_mem _ hx)) (j + 1)
    refine ⟨{ ItemID := itemID, UserID := o } :: rows, ?_⟩
    simp [ownerLoop, h o (List.mem_cons_self _ _), noFaults, hrows]

/-- The owner rows of an item are written when no store call fails and every
owner named for a non-shared item is a member of the group. -/
theorem ownerRows_ok (store : Store) (groupID itemID i : ℕ) (itemReq : CreateBillItemRequest)
    (h : itemReq.IsShared = false →
      ∀ o ∈ itemReq.OwnerIDs, IsUserMember store groupID o = true) :
    ∃ rows, ownerRows noFaults store groupID itemID i itemReq.IsShared itemReq.OwnerIDs =
      .ok rows := by
  unfold ownerRows
  split_ifs with hc
  · exact ownerLoop_ok store groupID itemID i _ (h (by simpa using hc.1)) 0
  · exact ⟨[], rfl⟩

/-- The item loop of `CreateBill` returns without error when no store call
fails and every owner named for a non-shared item is a member of the group. -/
theorem createBillItems_ok (store : Store) (groupID billID : ℕ)
    (reqItems : List CreateBillItemRequest)
    (howners : ownersAreMembers store groupID reqItems) :
    ∀ i nextID, ∃ owners,
      createBillItems noFaults store groupID billID reqItems i nextID =
        .ok (storedItems billID nextID reqItems, owners, requestTotal reqItems) := by
  induction reqItems with
  | nil => intro i nextID; exact ⟨[], by simp [createBillItems, storedItems, requestTotal]⟩
  | cons r rest ih =>
    intro i nextID
    obtain ⟨owners, hrest⟩ := ih (fun x hx => howners x (List.mem_cons_of_mem _ hx))
      (i + 1) (nextID + 1)
    obtain ⟨rows, hrows⟩ := ownerRows_ok store groupID nextID i r
      (howners r (List.mem_cons_self _ _))
    refine ⟨rows ++ owners, ?_⟩
    have hq : (if r.Quantity = 0 then (1 : ℤ) else r.Quantity) = storedQuantity r := rfl
    unfold createBillItems
    simp only [hq, hrows, hrest]
    simp [noFaults, storedItems, storedItem, requestTotal]

/-- C22: for a caller who is a member of the group, every owner named for a
non-shared item being a member and no store call failing, CreateBill accepts
the request exactly when the absolute difference between the total amount
and the sum over the items of amount x quantity (a quantity of 0 counted as
1) is less than 0.01: it then appends the pending bill and the items of the
request; otherwise it returns the mismatch error and the store is as it
was. -/
theorem C22_total_within_tolerance (now : ℕ) (store : Store) (userID : ℕ)
    (req : CreateBillRequest)
    (hmember : IsUserMember store req.GroupID userID = true)
    (howners : ownersAreMembers store req.GroupID req.Items) :
    (|req.TotalAmount - requestTotal req.Items| < 1 / 100 →
      ∃ store', CreateBill noFaults now store userID req =
          (store', .ok (storedBill now store userID req)) ∧
        store'.bills = store.bills ++ [storedBill now store userID req] ∧
        store'.items = store.items ++ storedItems store.nextBillID store.nextItemID req.Items) ∧
    (¬ |req.TotalAmount - requestTotal req.Items| < 1 / 100 →
      CreateBill noFaults now store userID req =
        (store, .error "total amount doesn't match sum of items")) := by
  obtain ⟨owners, hitems⟩ := createBillItems_ok store req.GroupID store.nextBillID req.Items
    howners 0 store.nextItemID
  have hdust : dust = 1 / 100 := rfl
  constructor
  · intro hlt
    refine ⟨{ store with
        bills := store.bills ++ [storedBill now store userID req],
        items := store.items ++ storedItems store.nextBillID store.nextItemID req.Items,
        itemOwners := store.itemOwners ++ owners,
        nextBillID := store.nextBillID + 1,
        nextItemID := store.nextItemID +
          (storedItems store.nextBillID store.nextItemID req.Items).length }, ?_, rfl, rfl⟩
    unfold CreateBill
    simp only [hmember, not_true_eq_false, ↓reduceIte, hitems, hdust, hlt]
    simp [noFaults, storedBill]
  · intro hge
    unfold CreateBill
    simp only [hmember, not_true_eq_false, ↓reduceIte, hitems, hdust, hge]
    simp [noFaults]

/-- Counterexample to C22: Ann, a member of group 1, creates a bill of 10.01
with one shared item of 10.00 x 1. The difference is exactly 0.01 and the
request is rejected, nothing being written. -/
theorem C22_counterexample :
    |(1001 / 100 : Decimal) - requestTotal unevenRequest.Items| ≤ 1 / 100 ∧
    CreateBill noFaults 9 storeTwoGroups 1 unevenRequest =
      (storeTwoGroups, .error "total amount doesn't match sum of items") := by
  decide!

/-- Witness of C22: Ann's request of 10.00 with one item of 10.00 x 1 is
accepted, her request of 10.01 with the same item is rejected. -/
theorem C22_total_within_tolerance_witness :
    (∃ store', CreateBill noFaults 9 storeTwoGroups 1 evenRequest =
        (store', .ok (storedBill 9 storeTwoGroups 1 evenRequest)) ∧
      store'.bills = storeTwoGroups.bills ++ [storedBill 9 storeTwoGroups 1 evenRequest] ∧
      store'.items = storeTwoGroups.items ++
        storedItems storeTwoGroups.nextBillID storeTwoGroups.nextItemID evenRequest.Items) ∧
    CreateBill noFaults 9 storeTwoGroups 1 unevenRequest =
      (storeTwoGroups, .error "total amount doesn't match sum of items") :=
  ⟨(C22_total_within_tolerance 9 storeTwoGroups 1 evenRequest (by decide)
      (by unfold ownersAreMembers; decide)).1 (by decide!),
   (C22_total_within_tolerance 9 storeTwoGroups 1 unevenRequest (by decide)
      (by unfold ownersAreMembers; decide)).2 (by decide!)⟩

/-- Counterexample to C23: Ann creates a bill of -5.00 with one shared item of
-5.00 x 1, and one of -5.00 with one shared item of 5.00 x -1. Both are
accepted and stored as given. -/
theorem C23_counterexample :
    (CreateBill noFaults 9 storeTwoGroups 1 (refundRequest (-5) 1)).2.toBool = true ∧
    ((CreateBill noFaults 9 storeTwoGroups 1 (refundRequest (-5) 1)).1.itemsOf 4).map
      (fun i => (i.Amount, i.Quantity)) = [(-5, 1)] ∧
    (CreateBill noFaults 9 storeTwoGroups 1 (refundRequest 5 (-1))).2.toBool = true ∧
    ((CreateBill noFaults 9 storeTwoGroups 1 (refundRequest 5 (-1))).1.itemsOf 4).map
      (fun i => (i.Amount, i.Quantity)) = [(5, -1)] := by
  decide!

/-- C23: items are stored whatever the sign of their amount and quantity,
the amount as the column keeps it, rounded to 2 fractional digits. A
successful CreateBill appends one row per request item, with that amount and
with the quantity as given, a quantity of 0 stored as 1, so with a quantity
other than 0; a successful AddBillItem whose commit has not failed has stored
such a row for the request item, under the next item id and the id of the
bill; a successful UpdateBillItem whose commit has not failed has stored the
row of the item with that amount and with the quantity exactly as given, 0
included. No sign is refused: for a member of group 1 and no failing store
call, CreateBill accepts the bill of one shared item with any amount and any
quantity other than 0, the total being their product. -/
theorem C23_items_stored (faults : Faults) (now : ℕ) (store store' : Store)
    (userID billID itemID : ℕ) (req : CreateBillRequest) (itemReq : CreateBillItemRequest) :
    (∀ bill, CreateBill faults now store userID req = (store', .ok bill) →
      store'.items = store.items ++ storedItems store.nextBillID store.nextItemID req.Items ∧
      (storedItems store.nextBillID store.nextItemID req.Items).map
          (fun i => (i.Amount, i.Quantity)) =
        req.Items.map
          (fun r => (Decimal.column r.Amount, if r.Quantity = 0 then 1 else r.Quantity)) ∧
      ∀ item ∈ storedItems store.nextBillID store.nextItemID req.Items, item.Quantity ≠ 0) ∧
    (∀ item, AddBillItem faults store billID userID itemReq = (store', .ok item) →
      faults .commit = false →
      ∃ row ∈ store'.items, row.ID = store.nextItemID ∧ row.BillID = billID ∧
        row.Amount = Decimal.column itemReq.Amount ∧
        row.Quantity = (if itemReq.Quantity = 0 then 1 else itemReq.Quantity) ∧
        row.Quantity ≠ 0) ∧
    (∀ item, UpdateBillItem faults store billID itemID userID itemReq = (store', .ok item) →
      faults .commit = false →
      ∃ row ∈ store'.items, row.ID = itemID ∧ row.BillID = billID ∧
        row.Amount = Decimal.column itemReq.Amount ∧ row.Quantity = itemReq.Quantity) ∧
    (IsUserMember store 1 userID = true → ∀ (amount : Decimal) (quantity : ℤ), quantity ≠ 0 →
      ∃ written, CreateBill noFaults now store userID (refundRequest amount quantity) =
        (written, .ok (storedBill now store userID (refundRequest amount quantity)))) := by
  refine ⟨fun bill hok => ?_, fun item hok hcommit => ?_, fun item hok hcommit => ?_,
    fun hmember amount quantity hq => ?_⟩
  · obtain ⟨-, -, hitems, -⟩ := CreateBill_success hok
    refine ⟨hitems, ?_, fun item hitem => ?_⟩
    · generalize store.nextItemID = n
      induction req.Items generalizing n with
      | nil => rfl
      | cons r rest ih =>
        simp only [storedItems, List.map_cons, ih]
        rfl
    · obtain ⟨r, -, -, hq⟩ := mem_storedItems _ _ _ item hitem
      rw [hq]
      exact storedQuantity_ne_zero r
  · obtain ⟨bill, -, -, -, hdone⟩ := AddBillItem_success hok
    exact ⟨storedItem billID store.nextItemID itemReq, (hdone hcommit).1, rfl, rfl, rfl, rfl,
      storedQuantity_ne_zero itemReq⟩
  · obtain ⟨bill, old, -, -, hold, -, hdone⟩ := UpdateBillItem_success hok
    obtain ⟨hid, hbill, -⟩ := firstItem_spec hold
    exact ⟨updatedItem old itemReq, (hdone hcommit).1, hid, hbill, rfl, rfl⟩
  · have howners : ownersAreMembers store 1 (refundRequest amount quantity).Items := by
      intro item hitem hshared
      simp only [refundRequest, List.mem_singleton] at hitem
      rw [hitem] at hshared
      cases hshared
    obtain ⟨owners, hitems⟩ := createBillItems_ok store 1 store.nextBillID
      (refundRequest amount quantity).Items howners 0 store.nextItemID
    have htotal : |(refundRequest amount quantity).TotalAmount -
        requestTotal (refundRequest amount quantity).Items| < dust := by
      have : (refundRequest amount quantity).TotalAmount -
          requestTotal (refundRequest amount quantity).Items = 0 := by
        simp [refundRequest, requestTotal, storedQuantity, hq]
      rw [this]
      norm_num [dust]
    have hgroup : (refundRequest amount quantity).GroupID = 1 := rfl
    refine ⟨{ store with
        bills := store.bills ++ [storedBill now store userID (refundRequest amount quantity)],
        items := store.items ++
          storedItems store.nextBillID store.nextItemID (refundRequest amount quantity).Items,
        itemOwners := store.itemOwners ++ owners,
        nextBillID := store.nextBillID + 1,
        nextItemID := store.nextItemID +
          (storedItems store.nextBillID store.nextItemID
            (refundRequest amount quantity).Items).length }, ?_⟩
    unfold CreateBill
    simp only [hgroup, hmember, not_true_eq_false, ↓reduceIte, hitems, htotal]
    simp [noFaults, storedBill]
    rfl

/-- Witness of C23: Ann adds an item of -3.00 with quantity 0 to bill 4; it is
stored as -3.00 x 1. -/
theorem C23_items_stored_witness :
    (AddBillItem noFaults storeEmptyBill 4 1 depositRequest).2 = .ok depositItem ∧
    ∃ row ∈ (AddBillItem noFaults storeEmptyBill 4 1 depositRequest).1.items,
      row.ID = 4 ∧ row.BillID = 4 ∧ row.Amount = Decimal.column (-3) ∧
        row.Quantity = (if depositRequest.Quantity = 0 then 1 else depositRequest.Quantity) ∧
        row.Quantity ≠ 0 :=
  have h : AddBillItem noFaults storeEmptyBill 4 1 depositRequest =
      ((AddBillItem noFaults storeEmptyBill 4 1 depositRequest).1, .ok depositItem) := by
    decide!
  ⟨congrArg Prod.snd h,
    (C23_items_stored noFaults 0 storeEmptyBill _ 1 4 4 unevenRequest
      depositRequest).2.1 depositItem h rfl⟩

/-! ## The total of a bill and the sum of its items -/

/-- C29, failing inputs: the total of Bob's pending bill 3, 12.00, is the
line total of its one item, 12.00 x 1. Bob deletes the item and no store call
fails: DeleteBillItem returns no error, the total of the bill is 0.00 and the
item is still stored, so the total is 12.00 less than its items. With a
commit that fails, AddBillItem of an item of 3.00 x 2 returns the item and no
error, UpdateBillItem of the item to 6.00 x 1 returns the row as it was,
12.00 x 1, and no error, and DeleteBillItem returns no error: each time the
store is as before, the total still 12.00. -/
theorem C29_total_and_items_diverge :
    storeTwoGroups.slack 3 = 0 ∧
    (DeleteBillItem noFaults storeTwoGroups 3 3 2).2 = .ok () ∧
    ((DeleteBillItem noFaults storeTwoGroups 3 3 2).1.firstBill 3).map BillRow.TotalAmount =
      some 0 ∧
    (DeleteBillItem noFaults storeTwoGroups 3 3 2).1.itemsOf 3 = storeTwoGroups.itemsOf 3 ∧
    (DeleteBillItem noFaults storeTwoGroups 3 3 2).1.slack 3 = -12 ∧
    AddBillItem (onlyFault .commit) storeTwoGroups 3 2
        { Name := "tea", Description := "", Amount := 3, Quantity := 2, IsShared := true,
          OwnerIDs := [] } =
      (storeTwoGroups,
        .ok { ID := 4, BillID := 3, Name := "tea", Description := "", Amount := 3,
              Quantity := 2, IsShared := true }) ∧
    UpdateBillItem (onlyFault .commit) storeTwoGroups 3 3 2
        { Name := "crisps", Description := "", Amount := 6, Quantity := 1, IsShared := true,
          OwnerIDs := [] } =
      (storeTwoGroups,
        .ok { ID := 3, BillID := 3, Name := "crisps", Description := "", Amount := 12,
              Quantity := 1, IsShared := true }) ∧
    DeleteBillItem (onlyFault .commit) storeTwoGroups 3 3 2 = (storeTwoGroups, .ok ()) ∧
    (storeTwoGroups.firstBill 3).map BillRow.TotalAmount = some 12 := by
  decide!

/-! ## Finalizing a bill -/

/-- After the row of a bill has been overwritten, the query by id finds the
new row. -/
theorem find?_saveBill {l : List BillRow} {k : ℕ} {bill new : BillRow}
    (h : l.find? (fun b => decide (b.ID = k ∧ b.Deleted = false)) = some bill)
    (hid : new.ID = bill.ID) (hdel : new.Deleted = false) :
    (l.map (fun b => if b.ID = bill.ID ∧ b.Deleted = false then new else b)).find?
      (fun b => decide (b.ID = k ∧ b.Deleted = false)) = some new := by
  have hk : bill.ID = k := by
    have := List.find?_some h
    simp only [decide_eq_true_eq] at this
    exact this.1
  induction l with
  | nil => simp at h
  | cons a l ih =>
    simp only [List.map_cons, List.find?_cons] at h ⊢
    by_cases ha : a.ID = k ∧ a.Deleted = false
    · have hs : a.ID = bill.ID ∧ a.Deleted = false := ⟨ha.1.trans hk.symm, ha.2⟩
      simp [hs, hid, hk, hdel]
    · have hne : ¬ (a.ID = bill.ID ∧ a.Deleted = false) := fun e => ha ⟨e.1.trans hk, e.2⟩
      simp only [ha, decide_False] at h
      simp only [if_neg hne, ha, decide_False]
      exact ih h

/-- C21: on a bill with zero items FinalizeBill returns an error and the store
is as before, for every caller: the error is "failed to get bill" when the
bill cannot be loaded, "user is not authorized to view this bill" for a caller
who is not a member of the group of the bill, "only bill creator or group
admin can finalize the bill" for a member who is neither its payer nor an
admin of the group, and "cannot finalize bill without items" for a member
who is its payer or an admin. For such a caller and a bill with at least
one item, the load and the save not failing, it returns success, the bill is
then found with status finalized, its total as the column keeps it and its
other fields as before, and, bill ids being unique, every other bill row is
as before. -/
theorem C21_finalize_bill (faults : Faults) (store : Store) (billID userID : ℕ)
    (bill : BillRow) (hbill : store.firstBill billID = some bill) :
    ((store.itemsOf bill.ID).length = 0 →
      (∃ e, FinalizeBill faults store billID userID = (store, .error e)) ∧
      (faults .loadBill = true →
        FinalizeBill faults store billID userID = (store, .error "failed to get bill")) ∧
      (faults .loadBill = false → IsUserMember store bill.GroupID userID = false →
        FinalizeBill faults store billID userID =
          (store, .error "user is not authorized to view this bill")) ∧
      (faults .loadBill = false → IsUserMember store bill.GroupID userID = true →
        bill.PaidByID ≠ userID → IsUserAdmin store bill.GroupID userID = false →
        FinalizeBill faults store billID userID =
          (store, .error "only bill creator or group admin can finalize the bill")) ∧
      (faults .loadBill = false → IsUserMember store bill.GroupID userID = true →
        (bill.PaidByID = userID ∨ IsUserAdmin store bill.GroupID userID = true) →
        FinalizeBill faults store billID userID =
          (store, .error "cannot finalize bill without items"))) ∧
    ((store.itemsOf bill.ID).length ≠ 0 →
      faults .loadBill = false → IsUserMember store bill.GroupID userID = true →
      (bill.PaidByID = userID ∨ IsUserAdmin store bill.GroupID userID = true) →
      faults .saveBill = false →
      (FinalizeBill faults store billID userID).2 = .ok () ∧
      (FinalizeBill faults store billID userID).1.firstBill billID =
        some { bill with Status := "finalized",
                         TotalAmount := Decimal.column bill.TotalAmount } ∧
      ((store.bills.map BillRow.ID).Nodup →
        (FinalizeBill faults store billID userID).1.bills =
          store.bills.map (fun b =>
            if b = bill then
              { b with Status := "finalized", TotalAmount := Decimal.column b.TotalAmount }
            else b))) := by
  have hspec := firstBill_spec hbill
  have hperm : (bill.PaidByID = userID ∨ IsUserAdmin store bill.GroupID userID = true) →
      ¬ (bill.PaidByID ≠ userID ∧ ¬ IsUserAdmin store bill.GroupID userID = true) := by
    rintro (h | h) ⟨h1, h2⟩
    · exact h1 h
    · exact h2 h
  have hzero' : (store.itemsOf bill.ID).length = 0 →
      (store.preloadItems bill.ID).length = 0 := by
    intro h
    simpa [Store.preloadItems] using h
  have hitems' : (store.itemsOf bill.ID).length ≠ 0 →
      ¬ (store.preloadItems bill.ID).length = 0 := by
    intro h
    simpa [Store.preloadItems] using h
  constructor
  · intro hzero
    refine ⟨?_, ?_, ?_, ?_, ?_⟩
    · unfold FinalizeBill
      cases hg : GetBillByID faults store billID userID with
      | error e => exact ⟨e, rfl⟩
      | ok b =>
        have hb : b = bill := by
          have := (GetBillByID_ok hg).1
          rw [hbill] at this
          exact (Option.some.inj this).symm
        subst hb
        simp only
        by_cases hp : b.PaidByID ≠ userID ∧ ¬ IsUserAdmin store b.GroupID userID = true
        · exact ⟨_, by rw [if_pos hp]⟩
        · exact ⟨_, by rw [if_neg hp, if_pos (hzero' hzero)]⟩
    · intro hload
      simp [FinalizeBill, GetBillByID, hload]
    · intro hload hmember
      simp [FinalizeBill, GetBillByID, hload, hbill, hmember]
    · intro hload hmember hpayer hadmin
      unfold FinalizeBill
      rw [GetBillByID_of_member hbill hload hmember]
      simp only
      rw [if_pos ⟨hpayer, by simp [hadmin]⟩]
    · intro hload hmember hauth
      unfold FinalizeBill
      rw [GetBillByID_of_member hbill hload hmember]
      simp only
      rw [if_neg (hperm hauth), if_pos (hzero' hzero)]
  · intro hitems hload hmember hauth hsave
    have hrun : FinalizeBill faults store billID userID =
        (store.saveBill { bill with Status := "finalized" } (store.preloadItems bill.ID),
          .ok ()) := by
      unfold FinalizeBill
      rw [GetBillByID_of_member hbill hload hmember]
      simp only
      rw [if_neg (hperm hauth), if_neg (hitems' hitems), if_neg (by simp [hsave])]
    rw [hrun]
    have hbills := (saveBill_bills store { bill with Status := "finalized" }
      (store.preloadItems bill.ID)).1
    refine ⟨rfl, ?_, ?_⟩
    · unfold Store.firstBill
      rw [hbills]
      have h := find?_saveBill hbill
        (show ({ bill with Status := "finalized",
                           TotalAmount := Decimal.column bill.TotalAmount } : BillRow).ID =
          bill.ID from rfl) hspec.2
      exact h
    · intro hnd
      rw [hbills]
      apply List.map_congr_left
      intro b hb
      by_cases he : b = bill
      · subst he
        simp [hspec.2]
      · have hne : ¬ (b.ID = bill.ID ∧ b.Deleted = false) := fun hc =>
          he (List.inj_on_of_nodup_map hnd hb (firstBill_mem hbill) hc.1)
        rw [if_neg he]
        exact if_neg hne

/-- Counterexample to C21: bill 4 of group 1, paid by Ann, has no item. Bob, a
member who is neither its payer nor an admin, calls FinalizeBill and gets the
permission error, not "cannot finalize bill without items". -/
theorem C21_counterexample :
    (storeEmptyBill.itemsOf 4).length = 0 ∧
    FinalizeBill noFaults storeEmptyBill 4 2 =
      (storeEmptyBill, .error "only bill creator or group admin can finalize the bill") := by
  decide!

/-- Witness of C21: Bob finalizes his bill 3, which has one item; Ann cannot
finalize her bill 4, which has none, and Dee, who is not a member of its
group, is not authorized. -/
theorem C21_finalize_bill_witness :
    ((FinalizeBill noFaults storeTwoGroups 3 2).2 = .ok () ∧
      (FinalizeBill noFaults storeTwoGroups 3 2).1.firstBill 3 =
        some { ID := 3, GroupID := 1, Title := "Snacks", Description := "",
               TotalAmount := Decimal.column 12, PaidByID := 2, BillDate := 3,
               Status := "finalized", Deleted := false }) ∧
    FinalizeBill noFaults storeEmptyBill 4 1 =
      (storeEmptyBill, .error "cannot finalize bill without items") ∧
    FinalizeBill noFaults storeEmptyBill 4 4 =
      (storeEmptyBill, .error "user is not authorized to view this bill") :=
  have h := (C21_finalize_bill noFaults storeTwoGroups 3 2
      { ID := 3, GroupID := 1, Title := "Snacks", Description := "", TotalAmount := 12,
        PaidByID := 2, BillDate := 3, Status := "pending", Deleted := false }
      (by decide!)).2 (by decide) rfl (by decide) (Or.inl rfl) rfl
  have h4 := (C21_finalize_bill noFaults storeEmptyBill 4 1
      { ID := 4, GroupID := 1, Title := "Later", Description := "", TotalAmount := 0,
        PaidByID := 1, BillDate := 4, Status := "pending", Deleted := false }
      (by decide!)).1 (by decide)
  have h5 := (C21_finalize_bill noFaults storeEmptyBill 4 4
      { ID := 4, GroupID := 1, Title := "Later", Description := "", TotalAmount := 0,
        PaidByID := 1, BillDate := 4, Status := "pending", Deleted := false }
      (by decide!)).1 (by decide)
  ⟨⟨h.1, h.2.1⟩, h4.2.2.2.2 rfl (by decide) (Or.inl rfl), h5.2.2.1 rfl (by decide)⟩

/-! ## The bills a confirmed settlement settles -/

/-- C28, failing input: Ann asks for the settlement of group 1 over bill 1 and
bill 2, which belongs to group 2. The calculation uses bill 1 alone,
CreateSettlement links both ids, and ConfirmSettlement moves bill 2 of
group 2 from finalized to settled. -/
theorem C28_foreign_bill_settled :
    CalculateSettlement noFaults id storeTwoGroups 1 { GroupID := 1, BillIDs := [1, 2] } =
      some (.ok resultBill1) ∧
    (storeTwoGroups.findBills { GroupID := 1, BillIDs := [1, 2] }).map BillRow.ID = [1] ∧
    (CreateSettlement noFaults storeTwoGroups 1 { GroupID := 1, BillIDs := [1, 2] }
      resultBill1).2 =
      .ok { ID := 1, GroupID := 1, CreatedByID := 1, Status := "pending", SettledAt := none } ∧
    (CreateSettlement noFaults storeTwoGroups 1 { GroupID := 1, BillIDs := [1, 2] }
      resultBill1).1.linkedBillIDs 1 = [1, 2] ∧
    (storeTwoGroups.firstBill 2).map (fun b => (b.GroupID, b.Status)) =
      some (2, "finalized") ∧
    (ConfirmSettlement noFaults 5
      (CreateSettlement noFaults storeTwoGroups 1 { GroupID := 1, BillIDs := [1, 2] }
        resultBill1).1 1 1).2 = .ok () ∧
    ((ConfirmSettlement noFaults 5
      (CreateSettlement noFaults storeTwoGroups 1 { GroupID := 1, BillIDs := [1, 2] }
        resultBill1).1 1 1).1.firstBill 2).map (fun b => (b.GroupID, b.Status)) =
      some (2, "settled") := by
  decide!

/-! ## The admins of a group -/

/-- A user is an admin of a group when a membership row says so. -/
theorem IsUserAdmin_iff (store : Store) (groupID userID : ℕ) :
    IsUserAdmin store groupID userID = true ↔
      ∃ m ∈ store.members, m.GroupID = groupID ∧ m.UserID = userID ∧ m.Role = "admin" := by
  unfold IsUserAdmin
  rw [List.find?_isSome]
  simp

/-- A group has an admin when a membership row of the group has role admin. -/
theorem CountGroupAdmins_pos (store : Store) (groupID : ℕ) :
    1 ≤ CountGroupAdmins store groupID ↔
      ∃ m ∈ store.members, m.GroupID = groupID ∧ m.Role = "admin" := by
  unfold CountGroupAdmins
  rw [Nat.succ_le_iff, List.length_pos_iff_exists_mem]
  simp [List.mem_filter]

/-- With one membership row per user and group, a group with two admin rows
has an admin other than any given user. -/
theorem other_admin (store : Store) (hkeys : store.memberKeys) (groupID userID : ℕ)
    (h : 2 ≤ CountGroupAdmins store groupID) :
    ∃ m ∈ store.members, m.GroupID = groupID ∧ m.Role = "admin" ∧ m.UserID ≠ userID := by
  unfold CountGroupAdmins at h
  have hsub : (store.members.filter
      (fun m => decide (m.GroupID = groupID ∧ m.Role = "admin"))).Sublist store.members :=
    List.filter_sublist _
  have hnd := (hsub.map (fun m : MemberRow => (m.GroupID, m.UserID))).nodup hkeys
  generalize hA : store.members.filter
    (fun m => decide (m.GroupID = groupID ∧ m.Role = "admin")) = A at h hnd
  have hmem : ∀ m ∈ A, m ∈ store.members ∧ m.GroupID = groupID ∧ m.Role = "admin" := by
    intro m hm
    rw [← hA, List.mem_filter] at hm
    simpa using hm
  match A, h, hnd, hmem with
  | a :: b :: rest, _, hnd, hmem =>
    obtain ⟨ha, hag, har⟩ := hmem a (by simp)
    obtain ⟨hb, hbg, hbr⟩ := hmem b (by simp)
    simp only [List.map_cons, List.nodup_cons, List.mem_cons, not_or] at hnd
    have hne : a.UserID ≠ b.UserID := by
      intro e
      exact hnd.1.1 (by rw [hag, hbg, e])
    by_cases hau : a.UserID = userID
    · exact ⟨b, hb, hbg, hbr, fun e => hne (hau.trans e.symm)⟩
    · exact ⟨a, ha, hag, har, hau⟩

/-- What a successful `RemoveMember` has checked and written. -/
theorem RemoveMember_success {faults : Faults} {store store' : Store}
    {groupID userID targetUserID : ℕ}
    (hok : RemoveMember faults store groupID userID targetUserID = (store', .ok ())) :
    IsUserAdmin store groupID userID = true ∧
    (targetUserID = userID → 2 ≤ CountGroupAdmins store groupID) ∧
    store' = { store with
      members := store.members.filter
        (fun m => decide (¬ (m.GroupID = groupID ∧ m.UserID = targetUserID))) } := by
  unfold RemoveMember at hok
  by_cases h1 : ¬ IsUserAdmin store groupID userID = true
  · rw [if_pos h1] at hok
    cases hok
  rw [if_neg h1] at hok
  by_cases h2 : targetUserID = userID ∧ CountGroupAdmins store groupID ≤ 1
  · rw [if_pos h2] at hok
    cases hok
  rw [if_neg h2] at hok
  by_cases h3 : faults .deleteMember = true
  · rw [if_pos h3] at hok
    cases hok
  rw [if_neg h3] at hok
  simp only at hok
  split_ifs at hok with h4
  · cases hok
  · simp only [Prod.mk.injEq, and_true] at hok
    refine ⟨not_not.mp h1, fun ht => ?_, hok.symm⟩
    by_contra hc
    exact h2 ⟨ht, by omega⟩

/-- What a successful `UpdateMemberRole` has checked and written. -/
theorem UpdateMemberRole_success {faults : Faults} {store store' : Store}
    {groupID userID targetUserID : ℕ} {req : UpdateMemberRoleRequest}
    (hok : UpdateMemberRole faults store groupID userID targetUserID req = (store', .ok ())) :
    IsUserAdmin store groupID userID = true ∧
    (req.Role = "member" → targetUserID = userID → 2 ≤ CountGroupAdmins store groupID) ∧
    store' = { store with
      members := store.members.map
        (fun m => if m.GroupID = groupID ∧ m.UserID = targetUserID then
          { m with Role := req.Role } else m) } := by
  unfold UpdateMemberRole at hok
  by_cases h1 : ¬ IsUserAdmin store groupID userID = true
  · rw [if_pos h1] at hok
    cases hok
  rw [if_neg h1] at hok
  by_cases h2 : (req.Role = "member" ∧ targetUserID = userID) ∧
      CountGroupAdmins store groupID ≤ 1
  · rw [if_pos h2] at hok
    cases hok
  rw [if_neg h2] at hok
  by_cases h3 : faults .updateMember = true
  · rw [if_pos h3] at hok
    cases hok
  rw [if_neg h3] at hok
  simp only at hok
  split_ifs at hok with h4
  · cases hok
  · simp only [Prod.mk.injEq, and_true] at hok
    refine ⟨not_not.mp h1, fun hr ht => ?_, hok.symm⟩
    by_contra hc
    exact h2 ⟨⟨hr, ht⟩, by omega⟩

/-- C30: with one membership row per user and group, a successful
RemoveMember, and a successful UpdateMemberRole to one of the roles admin
and member, leave every group that had an admin with an admin, and leave one
membership row per user and group. RemoveMember and UpdateMemberRole to
member by an admin who targets themself, the group having no other admin,
return an error with the store as before. A successful CreateGroup makes
the creator an admin of the new group, its only admin when no membership
row carried the new group id. -/
theorem C30_last_admin_stays (faults : Faults) (store store' : Store)
    (groupID userID targetUserID : ℕ) (req : UpdateMemberRoleRequest)
    (createReq : CreateGroupRequest) (hkeys : store.memberKeys) :
    (RemoveMember faults store groupID userID targetUserID = (store', .ok ()) →
      store'.memberKeys ∧
      ∀ g, 1 ≤ CountGroupAdmins store g → 1 ≤ CountGroupAdmins store' g) ∧
    (req.bound →
      UpdateMemberRole faults store groupID userID targetUserID req = (store', .ok ()) →
      store'.memberKeys ∧
      ∀ g, 1 ≤ CountGroupAdmins store g → 1 ≤ CountGroupAdmins store' g) ∧
    (IsUserAdmin store groupID userID = true → CountGroupAdmins store groupID ≤ 1 →
      RemoveMember faults store groupID userID userID =
        (store, .error "cannot remove the last admin from group") ∧
      UpdateMemberRole faults store groupID userID userID { Role := "member" } =
        (store, .error "cannot demote the last admin")) ∧
    (∀ group, CreateGroup faults store userID createReq = (store', .ok group) →
      group.ID = store.nextGroupID ∧
      IsUserAdmin store' group.ID userID = true ∧
      1 ≤ CountGroupAdmins store' group.ID ∧
      ((∀ m ∈ store.members, m.GroupID ≠ store.nextGroupID) →
        CountGroupAdmins store' group.ID = 1 ∧ store'.memberKeys)) := by
  refine ⟨fun hok => ?_, fun hbound hok => ?_, fun hadmin hcount => ?_, fun group hok => ?_⟩
  · obtain ⟨hadmin, htwo, rfl⟩ := RemoveMember_success hok
    refine ⟨?_, fun g hg => ?_⟩
    · exact ((List.filter_sublist _).map _).nodup hkeys
    · rw [CountGroupAdmins_pos] at hg ⊢
      simp only [List.mem_filter, decide_eq_true_eq]
      obtain ⟨m, hm, hmg, hmr⟩ := hg
      by_cases hgg : g = groupID
      · subst hgg
        by_cases ht : targetUserID = userID
        · obtain ⟨x, hx, hxg, hxr, hxu⟩ := other_admin store hkeys g userID (htwo ht)
          exact ⟨x, ⟨hx, fun hc => hxu (hc.2.trans ht)⟩, hxg, hxr⟩
        · obtain ⟨x, hx, hxg, hxu, hxr⟩ := (IsUserAdmin_iff store g userID).mp hadmin
          exact ⟨x, ⟨hx, fun hc => ht (hc.2.symm.trans hxu)⟩, hxg, hxr⟩
      · exact ⟨m, ⟨hm, fun hc => hgg (hmg.symm.trans hc.1)⟩, hmg, hmr⟩
  · obtain ⟨hadmin, htwo, rfl⟩ := UpdateMemberRole_success hok
    refine ⟨?_, fun g hg => ?_⟩
    · unfold Store.memberKeys at hkeys ⊢
      simp only [List.map_map]
      have : ((fun m : MemberRow => (m.GroupID, m.UserID)) ∘ fun m =>
          if m.GroupID = groupID ∧ m.UserID = targetUserID then
            { m with Role := req.Role } else m) = fun m => (m.GroupID, m.UserID) := by
        funext m
        simp only [Function.comp]
        split_ifs <;> rfl
      rw [this]
      exact hkeys
    · rw [CountGroupAdmins_pos] at hg ⊢
      simp only [List.mem_map]
      have keep : ∀ x ∈ store.members, x.GroupID = g → x.Role = "admin" →
          ¬ (x.GroupID = groupID ∧ x.UserID = targetUserID) →
          ∃ m, (∃ a ∈ store.members,
            (if a.GroupID = groupID ∧ a.UserID = targetUserID then
              { a with Role := req.Role } else a) = m) ∧ m.GroupID = g ∧ m.Role = "admin" :=
        fun x hx hxg hxr hc => ⟨x, ⟨x, hx, by rw [if_neg hc]⟩, hxg, hxr⟩
      obtain ⟨m, hm, hmg, hmr⟩ := hg
      rcases hbound with hrole | hrole
      · by_cases hc : m.GroupID = groupID ∧ m.UserID = targetUserID
        · exact ⟨{ m with Role := req.Role }, ⟨m, hm, by rw [if_pos hc]⟩, hmg, hrole⟩
        · exact keep m hm hmg hmr hc
      · by_cases hgg : g = groupID
        · subst hgg
          by_cases ht : targetUserID = userID
          · obtain ⟨x, hx, hxg, hxr, hxu⟩ :=
              other_admin store hkeys g userID (htwo hrole ht)
            exact keep x hx hxg hxr (fun hc => hxu (hc.2.trans ht))
          · obtain ⟨x, hx, hxg, hxu, hxr⟩ := (IsUserAdmin_iff store g userID).mp hadmin
            exact keep x hx hxg hxr (fun hc => ht (hc.2.symm.trans hxu))
        · exact keep m hm hmg hmr (fun hc => hgg (hmg.symm.trans hc.1))
  · constructor
    · unfold RemoveMember
      rw [if_neg (by simp [hadmin]), if_pos ⟨rfl, hcount⟩]
    · unfold UpdateMemberRole
      rw [if_neg (by simp [hadmin]), if_pos ⟨⟨rfl, rfl⟩, hcount⟩]
  · unfold CreateGroup at hok
    simp only at hok
    by_cases h1 : faults .createGroup = true
    · rw [if_pos h1] at hok
      cases hok
    rw [if_neg h1] at hok
    by_cases h2 : faults .createMember = true
    · rw [if_pos h2] at hok
      cases hok
    rw [if_neg h2] at hok
    by_cases h3 : faults .commit = true
    · rw [if_pos h3] at hok
      cases hok
    rw [if_neg h3] at hok
    by_cases h4 : faults .reload = true
    · rw [if_pos h4] at hok
      cases hok
    rw [if_neg h4] at hok
    simp only [Prod.mk.injEq, Except.ok.injEq] at hok
    obtain ⟨rfl, rfl⟩ := hok
    refine ⟨rfl, ?_, ?_, fun hfresh => ⟨?_, ?_⟩⟩
    · rw [IsUserAdmin_iff]
      exact ⟨{ UserID := userID, GroupID := store.nextGroupID, Role := "admin" },
        by simp, rfl, rfl, rfl⟩
    · rw [CountGroupAdmins_pos]
      exact ⟨{ UserID := userID, GroupID := store.nextGroupID, Role := "admin" },
        by simp, rfl, rfl⟩
    · unfold CountGroupAdmins
      simp only [List.filter_append]
      have : store.members.filter
          (fun m => decide (m.GroupID = store.nextGroupID ∧ m.Role = "admin")) = [] := by
        rw [List.filter_eq_nil_iff]
        intro m hm
        simp [hfresh m hm]
      rw [this]
      simp
    · unfold Store.memberKeys at hkeys ⊢
      simp only [List.map_append, List.map_cons, List.map_nil]
      refine List.Nodup.append hkeys (List.nodup_singleton _) ?_
      intro x hx hx2
      rw [List.mem_singleton] at hx2
      rw [List.mem_map] at hx
      obtain ⟨m, hm, rfl⟩ := hx
      exact hfresh m hm (Prod.mk.inj hx2).1

/-- Counterexample to C30: Ann creates a group, of which she is the single
admin, with one membership row per user and group. She then calls
UpdateMemberRole on herself with the role "owner": the call succeeds and the
group is left without an admin. -/
theorem C30_counterexample :
    (CreateGroup noFaults storeTwoGroups 1 { Name := "Trip", Description := "" }).2 =
      .ok { ID := 3, Name := "Trip", Description := "", CreatedByID := 1, IsActive := true,
            Deleted := false } ∧
    CountGroupAdmins
      (CreateGroup noFaults storeTwoGroups 1 { Name := "Trip", Description := "" }).1 3 = 1 ∧
    ((CreateGroup noFaults storeTwoGroups 1 { Name := "Trip", Description := "" }).1.members.map
      (fun m => (m.GroupID, m.UserID))).Nodup ∧
    (UpdateMemberRole noFaults
      (CreateGroup noFaults storeTwoGroups 1 { Name := "Trip", Description := "" }).1 3 1 1
      { Role := "owner" }).2 = .ok () ∧
    CountGroupAdmins (UpdateMemberRole noFaults
      (CreateGroup noFaults storeTwoGroups 1 { Name := "Trip", Description := "" }).1 3 1 1
      { Role := "owner" }).1 3 = 0 := by
  decide!

/-- Witness of C30: in the store of the two groups Ann, the only admin of
group 1, removes Bob, or sets his role to member, after which the group
still has its admin; she can neither remove nor demote herself. -/
theorem C30_last_admin_stays_witness :
    storeTwoGroups.memberKeys ∧
    1 ≤ CountGroupAdmins (RemoveMember noFaults storeTwoGroups 1 1 2).1 1 ∧
    1 ≤ CountGroupAdmins
      (UpdateMemberRole noFaults storeTwoGroups 1 1 2 { Role := "member" }).1 1 ∧
    RemoveMember noFaults storeTwoGroups 1 1 1 =
      (storeTwoGroups, .error "cannot remove the last admin from group") ∧
    UpdateMemberRole noFaults storeTwoGroups 1 1 1 { Role := "member" } =
      (storeTwoGroups, .error "cannot demote the last admin") :=
  have hkeys : storeTwoGroups.memberKeys := by
    unfold Store.memberKeys
    decide
  have hok : RemoveMember noFaults storeTwoGroups 1 1 2 =
      ((RemoveMember noFaults storeTwoGroups 1 1 2).1, .ok ()) := by decide!
  have hok2 : UpdateMemberRole noFaults storeTwoGroups 1 1 2 { Role := "member" } =
      ((UpdateMemberRole noFaults storeTwoGroups 1 1 2 { Role := "member" }).1, .ok ()) := by
    decide!
  have h := C30_last_admin_stays noFaults storeTwoGroups
    (RemoveMember noFaults storeTwoGroups 1 1 2).1 1 1 2 { Role := "member" }
    { Name := "", Description := "" } hkeys
  have h2 := C30_last_admin_stays noFaults storeTwoGroups
    (UpdateMemberRole noFaults storeTwoGroups 1 1 2 { Role := "member" }).1 1 1 2
    { Role := "member" } { Name := "", Description := "" } hkeys
  ⟨hkeys, (h.1 hok).2 1 (by decide), (h2.2.1 (Or.inr rfl) hok2).2 1 (by decide),
    h.2.2.1 (by decide) (by decide)⟩

/-! ## Two confirmations at the same time -/

/-- A call of `ConfirmSettlement` is its checks followed, when they pass, by
its transaction. -/
theorem ConfirmSettlement_parts (faults : Faults) (now : ℕ) (store : Store)
    (settlementID userID : ℕ) :
    ConfirmSettlement faults now store settlementID userID =
      match confirmCheck faults store settlementID userID with
      | .error e => (store, .error e)
      | .ok loaded => confirmWrite faults now store settlementID loaded :=
  rfl

/-- C25, failing input: Ann sends two confirmations of the pending settlement
1 at the same time, at the times 5 and 6, and no store call fails. Both calls
pass the checks, which read the settlement as pending with bill 1 linked,
before either begins its transaction; the two transactions then run one
after the other. Both calls return success: the second has confirmed the
settlement again, with the settlement time 6, and has set bill 1 to settled
again. Run one after the other, the second call fails. -/
theorem C25_two_winners :
    confirmCheck noFaults storePendingSettlement 1 1 =
      .ok ({ ID := 1, GroupID := 1, CreatedByID := 1, Status := "pending", SettledAt := none },
        [1]) ∧
    (confirmTwice noFaults noFaults 5 6 storePendingSettlement 1 1 1).2 = (.ok (), .ok ()) ∧
    (confirmWrite noFaults 5 storePendingSettlement 1
      ({ ID := 1, GroupID := 1, CreatedByID := 1, Status := "pending", SettledAt := none },
        [1])).1.firstSettlement 1 =
      some { ID := 1, GroupID := 1, CreatedByID := 1, Status := "confirmed",
             SettledAt := some 5 } ∧
    (confirmTwice noFaults noFaults 5 6 storePendingSettlement 1 1 1).1.firstSettlement 1 =
      some { ID := 1, GroupID := 1, CreatedByID := 1, Status := "confirmed",
             SettledAt := some 6 } ∧
    ((confirmTwice noFaults noFaults 5 6 storePendingSettlement 1 1 1).1.firstBill 1).map
      BillRow.Status = some "settled" ∧
    (ConfirmSettlement noFaults 6
      (ConfirmSettlement noFaults 5 storePendingSettlement 1 1).1 1 1).2 =
      .error "settlement is not pending" := by
  decide!

end SharedCart
